import Mathlib

/-!
# LIGGGHTS granular contact kernels: Hooke/history pair style and wall fix

Shallow embedding of `PairGranHookeHistory` (pair_gran_hooke_history.cpp) and
`FixWallGranHookeHistory` (fix_wall_gran_hooke_history.cpp).

* C `double` values are elements of a linearly ordered field `α`; the theorems
  instantiate `α` with the real numbers, so every statement is one of exact
  real arithmetic (no rounding, no NaN/Inf; `x / 0 = 0` as in any Lean field).
  The one division by zero the source meets on an ordinary input,
  `M_PI/coeffRestLog` at restitution 1, is given its IEEE outcome in
  `dampQuotient`.
* The `math.h` functions are collected in `LibM`; `realMath` is their real
  instance.
* C arrays indexed by atom / type / neighbour slot are total functions on `Nat`.
* Data that a routine only reads is gathered in an environment structure,
  data that it writes in a state structure.
-/

namespace LIGGGHTS

/-- Three consecutive doubles (`double[3]`, or `&allshear[3*jj]`). -/
structure Vec3 (α : Type) where
  c0 : α
  c1 : α
  c2 : α

/-- The `math.h` functions and constants the two files use. -/
structure LibM (α : Type) where
  sqrt : α → α
  pow : α → α → α
  log : α → α
  M_PI : α

/-- Real-number interpretation of `math.h`. -/
noncomputable def realMath : LibM ℝ where
  sqrt := Real.sqrt
  pow := fun x y => x ^ y
  log := Real.log
  M_PI := Real.pi

section Model

variable {α : Type} [LinearOrderedField α]

/-- Dot product of two triples, `a[0]*b[0] + a[1]*b[1] + a[2]*b[2]`. -/
def Vec3.dot (a b : Vec3 α) : α :=
  a.c0 * b.c0 + a.c1 * b.c1 + a.c2 * b.c2

/-- Modelled from the spec: `vectorZeroize3D` of vector_liggghts.h (header not
among the sources); sets the three components to zero. -/
def vectorZeroize3D : Vec3 α := ⟨0, 0, 0⟩

/-- Modelled from the spec: `vectorSubtract3D(a,b,res)` of vector_liggghts.h
(header not among the sources); `res = a - b` componentwise. -/
def vectorSubtract3D (a b : Vec3 α) : Vec3 α :=
  ⟨a.c0 - b.c0, a.c1 - b.c1, a.c2 - b.c2⟩

/-- Modelled from the spec: `vectorMag3D(v)` of vector_liggghts.h (header not
among the sources); the Euclidean length `sqrt(v.v)`. -/
def vectorMag3D (m : LibM α) (a : Vec3 α) : α :=
  m.sqrt (a.c0 * a.c0 + a.c1 * a.c1 + a.c2 * a.c2)

/-- Modelled from the spec: `vectorScalarMult3D(v,s,res)` of vector_liggghts.h
(header not among the sources); `res = v * s` componentwise. -/
def vectorScalarMult3D (a : Vec3 α) (s : α) : Vec3 α :=
  ⟨a.c0 * s, a.c1 * s, a.c2 * s⟩

/-- Output parameters of `deriveContactModelParams`. -/
structure ModelParams (α : Type) where
  kn : α
  kt : α
  gamman : α
  gammat : α
  xmu : α
  rmu : α

/-! ## Statements shared verbatim by the pair and the wall routine -/

/-- Shear integration and rotation, the body of `if (shearupdate && addflag)`:
pair lines 303-313, wall lines 286-295 (there with `c_history`, `dx,dy,dz`,
`dt_`). -/
def shearIntegrate (vtr : Vec3 α) (dt rsqinv : α) (del shear : Vec3 α) : Vec3 α :=
  let s0 := shear.c0 + vtr.c0 * dt
  let s1 := shear.c1 + vtr.c1 * dt
  let s2 := shear.c2 + vtr.c2 * dt
  let rsht := s0 * del.c0 + s1 * del.c1 + s2 * del.c2
  let rsht := rsht * rsqinv
  ⟨s0 - rsht * del.c0, s1 - rsht * del.c1, s2 - rsht * del.c2⟩

/-- Trial tangential force, Coulomb rescaling and tangential damping:
pair lines 316-346, wall lines 298-328. Returns the stored shear and
`(fs1,fs2,fs3)` as they stand after the `if (fs > fn) ... else ...`. -/
def coulombStage (m : LibM α) (kt gammat xmu ccel r : α) (vtr shear : Vec3 α) :
    Vec3 α × Vec3 α :=
  let shrmag := m.sqrt (shear.c0 * shear.c0 + shear.c1 * shear.c1 + shear.c2 * shear.c2)
  let fs1 := -(kt * shear.c0)
  let fs2 := -(kt * shear.c1)
  let fs3 := -(kt * shear.c2)
  let fs := m.sqrt (fs1 * fs1 + fs2 * fs2 + fs3 * fs3)
  let fn := xmu * |ccel * r|
  if fs > fn then
    if shrmag ≠ 0 then
      let fs1 := fs1 * (fn / fs)
      let fs2 := fs2 * (fn / fs)
      let fs3 := fs3 * (fn / fs)
      (⟨-fs1 / kt, -fs2 / kt, -fs3 / kt⟩, ⟨fs1, fs2, fs3⟩)
    else (shear, ⟨0, 0, 0⟩)
  else
    (shear, ⟨fs1 - gammat * vtr.c0, fs2 - gammat * vtr.c1, fs3 - gammat * vtr.c2⟩)

/-- The `remove normal (torsion) part of torque` step: pair lines 372-376,
wall lines 359-363. -/
def removeNormalPart (r_torque del : Vec3 α) (rsqinv : α) : Vec3 α :=
  let rtorque_dot_delta := r_torque.c0 * del.c0 + r_torque.c1 * del.c1 + r_torque.c2 * del.c2
  let r_torque_n : Vec3 α :=
    ⟨del.c0 * rtorque_dot_delta * rsqinv, del.c1 * rtorque_dot_delta * rsqinv,
      del.c2 * rtorque_dot_delta * rsqinv⟩
  vectorSubtract3D r_torque r_torque_n

/-! ## PairGranHookeHistory -/

/-- Everything `PairGranHookeHistory::compute` reads and does not write. -/
structure PairEnv (α : Type) where
  x : Nat → Vec3 α
  v : Nat → Vec3 α
  omega : Nat → Vec3 α
  radius : Nat → α
  rmass : Option (Nat → α)
  mass : Nat → α
  type : Nat → Nat
  mask : Nat → Nat
  nlocal : Nat
  ilist : List Nat
  firstneigh : Nat → List Nat
  NEIGHMASK : Nat
  dt : α
  freeze_group_bit : Nat
  fix_rigid : Bool
  body : Nat → Int
  masstotal : Nat → α
  dampflag : Int
  rollingflag : Int
  cohesionflag : Int
  Yeff : Nat → Nat → α
  coeffRestLog : Nat → Nat → α
  coeffFrict : Nat → Nat → α
  coeffRollFrict : Nat → Nat → α
  cohEnergyDens : Nat → Nat → α
  charVel : α
  nktv2p : α
  cpl : Bool
  rmu0 : α

/-- One call `cpl->add_pair(i,j,fx,fy,fz,tor1,tor2,tor3,shear)`. -/
structure PairRecord (α : Type) where
  i : Nat
  j : Nat
  force : Vec3 α
  tor : Vec3 α
  shear : Vec3 α

/-- Everything `PairGranHookeHistory::compute` writes. `touch i jj` is
`firsttouch[i][jj]`, `shear i jj` the triple at `&firstshear[i][3*jj]`. -/
structure PairState (α : Type) where
  f : Nat → Vec3 α
  torque : Nat → Vec3 α
  touch : Nat → Nat → Int
  shear : Nat → Nat → Vec3 α
  shearupdate : Int
  laststep : Int
  collected : List (PairRecord α)

/-- `PairGranHookeHistory::addCohesionForce`: the value stored in `Fn_coh`. -/
def addCohesionForce (m : LibM α) (env : PairEnv α) (ip jp : Nat) (r : α) : α :=
  let ri := env.radius ip
  let rj := env.radius jp
  let Acont := -m.M_PI / 4 * ((r - ri - rj) * (r + ri - rj) * (r - ri + rj) * (r + ri + rj)) / (r * r)
  env.cohEnergyDens (env.type ip) (env.type jp) * Acont

/-- The quotient `a/(1.+(M_PI/x)*(M_PI/x))` of `deriveContactModelParams` (pair
line 129, wall line 436) as the source's doubles give it: for `x = 0`
(`coeffRestLog` of restitution 1) `M_PI/x` is `inf`, the divisor is `inf` and
the quotient of a finite `a` is 0; for every other `x` it is the field value. -/
def dampQuotient (m : LibM α) (a x : α) : α :=
  if x = 0 then 0 else a / (1 + (m.M_PI / x) * (m.M_PI / x))

/-- `PairGranHookeHistory::deriveContactModelParams`; `rmu` is the value the
reference parameter holds on entry (it is only assigned under `rollingflag`). -/
def deriveContactModelParams (m : LibM α) (env : PairEnv α) (ip jp : Nat) (meff _deltan rmu : α) :
    ModelParams α :=
  let itype := env.type ip
  let jtype := env.type jp
  let rj := env.radius jp
  let ri := env.radius ip
  let reff := ri * rj / (ri + rj)
  let kn := 16 / 15 * m.sqrt reff * env.Yeff itype jtype *
    m.pow (15 * meff * env.charVel * env.charVel / (16 * m.sqrt reff * env.Yeff itype jtype)) (2 / 10)
  let kt := kn
  let gamman := m.sqrt (dampQuotient m (4 * meff * kn) (env.coeffRestLog itype jtype))
  let gammat := gamman
  let xmu := env.coeffFrict itype jtype
  let rmu := if env.rollingflag ≠ 0 then env.coeffRollFrict itype jtype else rmu
  let gammat := if env.dampflag = 0 then 0 else gammat
  let kn := kn / env.nktv2p
  let kt := kt / env.nktv2p
  ⟨kn, kt, gamman, gammat, xmu, rmu⟩

/-- Local variables of the touching branch of `compute` (lines 223-378) as they
stand when the accumulators are updated. -/
structure PairContact (α : Type) where
  del : Vec3 α
  rsq : α
  r : α
  deltan : α
  cri : α
  crj : α
  meff : α
  p : ModelParams α
  ccel : α
  vtr : Vec3 α
  shearTrial : Vec3 α
  shear : Vec3 α
  fs : Vec3 α
  force : Vec3 α
  tor : Vec3 α
  r_torque : Vec3 α

/-- The touching branch of the inner loop of `compute` for atoms `i`, `j` and
the stored shear `shear`, up to (not including) the accumulator updates. -/
def pairContact (m : LibM α) (env : PairEnv α) (shearupdate addflag : Int) (i j : Nat)
    (shear : Vec3 α) : PairContact α :=
  let delx := (env.x i).c0 - (env.x j).c0
  let dely := (env.x i).c1 - (env.x j).c1
  let delz := (env.x i).c2 - (env.x j).c2
  let rsq := delx * delx + dely * dely + delz * delz
  let radi := env.radius i
  let radj := env.radius j
  let radsum := radi + radj
  let r := m.sqrt rsq
  let rinv := 1 / r
  let rsqinv := 1 / rsq
  -- relative translational velocity
  let vr1 := (env.v i).c0 - (env.v j).c0
  let vr2 := (env.v i).c1 - (env.v j).c1
  let vr3 := (env.v i).c2 - (env.v j).c2
  -- normal component
  let vnnr := vr1 * delx + vr2 * dely + vr3 * delz
  let vn1 := delx * vnnr * rsqinv
  let vn2 := dely * vnnr * rsqinv
  let vn3 := delz * vnnr * rsqinv
  -- tangential component
  let vt1 := vr1 - vn1
  let vt2 := vr2 - vn2
  let vt3 := vr3 - vn3
  -- relative rotational velocity
  let deltan := radsum - r
  let cri := radi - (1 / 2) * deltan
  let crj := radj - (1 / 2) * deltan
  let wr1 := (cri * (env.omega i).c0 + crj * (env.omega j).c0) * rinv
  let wr2 := (cri * (env.omega i).c1 + crj * (env.omega j).c1) * rinv
  let wr3 := (cri * (env.omega i).c2 + crj * (env.omega j).c2) * rinv
  -- masses
  let mi := match env.rmass with
    | some rmass => rmass i
    | none => env.mass (env.type i)
  let mj := match env.rmass with
    | some rmass => rmass j
    | none => env.mass (env.type j)
  let mi := if env.fix_rigid = true ∧ env.body i ≥ 0 then env.masstotal (env.body i).toNat else mi
  let mj := if env.fix_rigid = true ∧ env.body j ≥ 0 then env.masstotal (env.body j).toNat else mj
  let meff := mi * mj / (mi + mj)
  let meff := if env.mask i &&& env.freeze_group_bit ≠ 0 then mj else meff
  let meff := if env.mask j &&& env.freeze_group_bit ≠ 0 then mi else meff
  let p := deriveContactModelParams m env i j meff deltan env.rmu0
  let damp := p.gamman * vnnr * rsqinv
  let ccel := p.kn * (radsum - r) * rinv - damp
  let ccel := if env.cohesionflag ≠ 0 then ccel - addCohesionForce m env i j r * rinv else ccel
  -- relative velocities
  let vtr1 := vt1 - (delz * wr2 - dely * wr3)
  let vtr2 := vt2 - (delx * wr3 - delz * wr1)
  let vtr3 := vt3 - (dely * wr1 - delx * wr2)
  -- shear history effects
  let shear := if shearupdate ≠ 0 ∧ addflag ≠ 0 then
      shearIntegrate ⟨vtr1, vtr2, vtr3⟩ env.dt rsqinv ⟨delx, dely, delz⟩ shear
    else shear
  let cs := coulombStage m p.kt p.gammat p.xmu ccel r ⟨vtr1, vtr2, vtr3⟩ shear
  let fs1 := cs.2.c0
  let fs2 := cs.2.c1
  let fs3 := cs.2.c2
  -- forces & torques
  let fx := delx * ccel + fs1
  let fy := dely * ccel + fs2
  let fz := delz * ccel + fs3
  let tor1 := rinv * (dely * fs3 - delz * fs2)
  let tor2 := rinv * (delz * fs1 - delx * fs3)
  let tor3 := rinv * (delx * fs2 - dely * fs1)
  -- rolling friction torque
  let r_torque : Vec3 α :=
    if env.rollingflag ≠ 0 then
      let wr_roll := vectorSubtract3D (env.omega i) (env.omega j)
      let wr_rollmag := vectorMag3D m wr_roll
      if wr_rollmag > 0 then
        let reff := radi * radj / (radi + radj)
        let r_torque := vectorScalarMult3D wr_roll (p.rmu * p.kn * deltan * reff / wr_rollmag)
        removeNormalPart r_torque ⟨delx, dely, delz⟩ rsqinv
      else vectorZeroize3D
    else vectorZeroize3D
  { del := ⟨delx, dely, delz⟩, rsq := rsq, r := r, deltan := deltan, cri := cri, crj := crj,
    meff := meff, p := p, ccel := ccel, vtr := ⟨vtr1, vtr2, vtr3⟩, shearTrial := shear,
    shear := cs.1, fs := cs.2, force := ⟨fx, fy, fz⟩, tor := ⟨tor1, tor2, tor3⟩,
    r_torque := r_torque }

/-- Squared centre distance `rsq` of atoms `i`, `j` (lines 205-208). -/
def pairRsq (env : PairEnv α) (i j : Nat) : α :=
  let delx := (env.x i).c0 - (env.x j).c0
  let dely := (env.x i).c1 - (env.x j).c1
  let delz := (env.x i).c2 - (env.x j).c2
  delx * delx + dely * dely + delz * delz

/-- Overwrite entry `i` of an array. -/
def setAt {β : Type} (a : Nat → β) (i : Nat) (b : β) : Nat → β :=
  fun k => if k = i then b else a k

/-- Overwrite entry `[i][jj]` of a per-neighbour array. -/
def setAt2 {β : Type} (a : Nat → Nat → β) (i jj : Nat) (b : β) : Nat → Nat → β :=
  fun k l => if k = i ∧ l = jj then b else a k l

/-- Body of the inner loop `for (jj ...)` of `compute` (lines 202-402) for the
neighbour slot `jj` of atom `i` holding the raw list entry `jraw`.
`shearupdate` is the member set at line 185, which the loop only reads. -/
def pairBody (m : LibM α) (env : PairEnv α) (shearupdate addflag : Int) (i jj jraw : Nat)
    (s : PairState α) : PairState α :=
  let j := jraw &&& env.NEIGHMASK
  let rsq := pairRsq env i j
  let radsum := env.radius i + env.radius j
  if rsq ≥ radsum * radsum then
    -- unset non-touching neighbors
    { s with touch := setAt2 s.touch i jj 0, shear := setAt2 s.shear i jj ⟨0, 0, 0⟩ }
  else
    let c := pairContact m env shearupdate addflag i j (s.shear i jj)
    let s := { s with touch := setAt2 s.touch i jj 1, shear := setAt2 s.shear i jj c.shear }
    let s := if addflag ≠ 0 then
        { s with
          f := setAt s.f i ⟨(s.f i).c0 + c.force.c0, (s.f i).c1 + c.force.c1, (s.f i).c2 + c.force.c2⟩
          torque := setAt s.torque i
            ⟨(s.torque i).c0 - (c.cri * c.tor.c0 + c.r_torque.c0),
              (s.torque i).c1 - (c.cri * c.tor.c1 + c.r_torque.c1),
              (s.torque i).c2 - (c.cri * c.tor.c2 + c.r_torque.c2)⟩ }
      else s
    let s := if j < env.nlocal ∧ addflag ≠ 0 then
        { s with
          f := setAt s.f j ⟨(s.f j).c0 - c.force.c0, (s.f j).c1 - c.force.c1, (s.f j).c2 - c.force.c2⟩
          torque := setAt s.torque j
            ⟨(s.torque j).c0 - (c.crj * c.tor.c0 - c.r_torque.c0),
              (s.torque j).c1 - (c.crj * c.tor.c1 - c.r_torque.c1),
              (s.torque j).c2 - (c.crj * c.tor.c2 - c.r_torque.c2)⟩ }
      else s
    if env.cpl = true ∧ ¬ addflag ≠ 0 then
      { s with collected := s.collected ++ [⟨i, j, c.force, c.tor, c.shear⟩] }
    else s

/-- The inner loop `for (jj = 0; jj < jnum; jj++)` over `jlist = firstneigh[i]`,
started at slot `jj` with the remaining entries `js`. -/
def jloop (m : LibM α) (env : PairEnv α) (shearupdate addflag : Int) (i : Nat) :
    Nat → List Nat → PairState α → PairState α
  | _, [], s => s
  | jj, jraw :: js, s => jloop m env shearupdate addflag i (jj + 1) js
      (pairBody m env shearupdate addflag i jj jraw s)

/-- The outer loop `for (ii = 0; ii < inum; ii++)` over `ilist`. -/
def iloop (m : LibM α) (env : PairEnv α) (shearupdate addflag : Int) :
    List Nat → PairState α → PairState α
  | [], s => s
  | i :: is, s => iloop m env shearupdate addflag is
      (jloop m env shearupdate addflag i 0 (env.firstneigh i) s)

/-- `PairGranHookeHistory::compute(eflag,vflag,addflag)` at step counter
`ntimestep = update->ntimestep`. The energy/virial tally (`ev_setup`,
`ev_tally_xyz`, code outside the sources) writes none of the modelled
fields and is left out. -/
def compute (m : LibM α) (env : PairEnv α) (ntimestep addflag : Int) (s : PairState α) :
    PairState α :=
  let shearupdate : Int := if ntimestep > s.laststep then 1 else 0
  let s := { s with shearupdate := shearupdate }
  let s := iloop m env shearupdate addflag env.ilist s
  { s with laststep := ntimestep }

/-! ## FixWallGranHookeHistory -/

/-- Everything `compute_force` and `addHeatFlux` read and do not write.
`deltan_ratio` is `none` for the NULL pointer; `SMALL` is the macro `1e-12`. -/
structure WallEnv (α : Type) where
  v : Nat → Vec3 α
  omega : Nat → Vec3 α
  radius : Nat → α
  rmass : Nat → α
  type : Nat → Nat
  fix_rigid_ : Bool
  body_ : Nat → Int
  masstotal_ : Nat → α
  atom_type_wall_ : Nat
  dampflag : Int
  rollingflag : Int
  cohesionflag : Int
  Yeff : Nat → Nat → α
  coeffRestLog : Nat → Nat → α
  coeffFrict : Nat → Nat → α
  coeffRollFrict : Nat → Nat → α
  cohEnergyDens : Nat → Nat → α
  charVel : α
  shearupdate_ : Int
  addflag_ : Int
  dt_ : α
  cwl_ : Bool
  rmu0 : α
  th_cond : Nat → α
  deltan_ratio : Option (Nat → Nat → α)
  Temp_p : Nat → α
  update_dt : α
  SMALL : α

/-- One call of the collector `cwl_`: `add_wall_2` or `add_heat_wall`. -/
inductive WallRecord (α : Type) where
  | wall_2 (ip : Nat) (force tor shear : Vec3 α) (rsq : α)
  | heat_wall (ip : Nat) (flux : α)

/-- Everything `compute_force` and `addHeatFlux` write. -/
structure WallState (α : Type) where
  f : Nat → Vec3 α
  torque : Nat → Vec3 α
  heatflux : Nat → α
  Q_add : α
  Temp_wall : α
  collected : List (WallRecord α)

/-- `FixWallGranHookeHistory::addCohesionForce`: the value stored in `Fn_coh`. -/
def wallAddCohesionForce (m : LibM α) (env : WallEnv α) (ip : Nat) (r area_ratio : α) : α :=
  let reff_wall := env.radius ip
  let Acont := (reff_wall * reff_wall - r * r) * m.M_PI
  let itype := env.type ip
  env.cohEnergyDens itype env.atom_type_wall_ * Acont * area_ratio

/-- `FixWallGranHookeHistory::deriveContactModelParams`. -/
def wallDeriveContactModelParams (m : LibM α) (env : WallEnv α) (ip : Nat)
    (_deltan meff_wall rmu : α) : ModelParams α :=
  let sqrtval := m.sqrt (env.radius ip)
  let itype := env.type ip
  let kn := 16 / 15 * sqrtval * env.Yeff itype env.atom_type_wall_ *
    m.pow (15 * meff_wall * env.charVel * env.charVel /
      (16 * sqrtval * env.Yeff itype env.atom_type_wall_)) (2 / 10)
  let kt := kn
  let gamman := m.sqrt (dampQuotient m (4 * meff_wall * kn)
    (env.coeffRestLog itype env.atom_type_wall_))
  let gammat := gamman
  let xmu := env.coeffFrict itype env.atom_type_wall_
  let rmu := if env.rollingflag ≠ 0 then env.coeffRollFrict itype env.atom_type_wall_ else rmu
  let gammat := if env.dampflag = 0 then 0 else gammat
  ⟨kn, kt, gamman, gammat, xmu, rmu⟩

/-- Local variables of `compute_force` as they stand at its end. -/
structure WallContact (α : Type) where
  r : α
  cr : α
  p : ModelParams α
  ccel : α
  vtr : Vec3 α
  shearTrial : Vec3 α
  c_history : Vec3 α
  fs : Vec3 α
  force : Vec3 α
  tor : Vec3 α
  r_torque : Vec3 α

/-- The computations of `compute_force` (lines 219-365) without the updates of
`f`, `torque` and the collector. The local `mass` (lines 224-228) is never
read and is left out. -/
def wallContact (m : LibM α) (env : WallEnv α) (ip : Nat) (deltan rsq meff_wall dx dy dz : α)
    (vwall c_history : Vec3 α) (area_ratio : α) : WallContact α :=
  let v := env.v ip
  let omega := env.omega ip
  let radius := env.radius ip
  let cr := radius - (1 / 2) * deltan
  let p := wallDeriveContactModelParams m env ip deltan meff_wall env.rmu0
  let r := m.sqrt rsq
  let rinv := 1 / r
  let rsqinv := 1 / rsq
  -- relative translational velocity
  let vr1 := v.c0 - vwall.c0
  let vr2 := v.c1 - vwall.c1
  let vr3 := v.c2 - vwall.c2
  -- normal component
  let vnnr := vr1 * dx + vr2 * dy + vr3 * dz
  let vn1 := dx * vnnr * rsqinv
  let vn2 := dy * vnnr * rsqinv
  let vn3 := dz * vnnr * rsqinv
  -- tangential component
  let vt1 := vr1 - vn1
  let vt2 := vr2 - vn2
  let vt3 := vr3 - vn3
  -- relative rotational velocity
  let wr1 := cr * omega.c0 * rinv
  let wr2 := cr * omega.c1 * rinv
  let wr3 := cr * omega.c2 * rinv
  -- normal forces
  let damp := p.gamman * vnnr * rsqinv
  let ccel := p.kn * (radius - r) * rinv - damp
  let ccel := if env.cohesionflag ≠ 0 then
      ccel - wallAddCohesionForce m env ip r area_ratio * rinv
    else ccel
  -- relative velocities
  let vtr1 := vt1 - (dz * wr2 - dy * wr3)
  let vtr2 := vt2 - (dx * wr3 - dz * wr1)
  let vtr3 := vt3 - (dy * wr1 - dx * wr2)
  -- shear history effects
  let c_history := if env.shearupdate_ ≠ 0 ∧ env.addflag_ ≠ 0 then
      shearIntegrate ⟨vtr1, vtr2, vtr3⟩ env.dt_ rsqinv ⟨dx, dy, dz⟩ c_history
    else c_history
  let cs := coulombStage m p.kt p.gammat p.xmu ccel r ⟨vtr1, vtr2, vtr3⟩ c_history
  let fs1 := cs.2.c0
  let fs2 := cs.2.c1
  let fs3 := cs.2.c2
  -- forces & torques
  let fx := dx * ccel + fs1
  let fy := dy * ccel + fs2
  let fz := dz * ccel + fs3
  let tor1 := rinv * (dy * fs3 - dz * fs2)
  let tor2 := rinv * (dz * fs1 - dx * fs3)
  let tor3 := rinv * (dx * fs2 - dy * fs1)
  -- rolling friction torque
  let r_torque : Vec3 α :=
    if env.rollingflag ≠ 0 then
      let wrmag := m.sqrt (wr1 * wr1 + wr2 * wr2 + wr3 * wr3)
      if wrmag > 0 then
        let r_torque : Vec3 α :=
          ⟨p.rmu * p.kn * (radius - r) * wr1 / wrmag * cr,
            p.rmu * p.kn * (radius - r) * wr2 / wrmag * cr,
            p.rmu * p.kn * (radius - r) * wr3 / wrmag * cr⟩
        removeNormalPart r_torque ⟨dx, dy, dz⟩ rsqinv
      else vectorZeroize3D
    else vectorZeroize3D
  { r := r, cr := cr, p := p, ccel := ccel, vtr := ⟨vtr1, vtr2, vtr3⟩, shearTrial := c_history,
    c_history := cs.1, fs := cs.2, force := ⟨fx, fy, fz⟩, tor := ⟨tor1, tor2, tor3⟩,
    r_torque := r_torque }

/-- `FixWallGranHookeHistory::compute_force`: the new contents of `c_history`
and the new state. -/
def compute_force (m : LibM α) (env : WallEnv α) (ip : Nat) (deltan rsq meff_wall dx dy dz : α)
    (vwall c_history : Vec3 α) (area_ratio : α) (s : WallState α) : Vec3 α × WallState α :=
  let c := wallContact m env ip deltan rsq meff_wall dx dy dz vwall c_history area_ratio
  let s := if env.addflag_ ≠ 0 then
      { s with f := setAt s.f ip (Vec3.mk ((s.f ip).c0 + c.force.c0 * area_ratio)
          ((s.f ip).c1 + c.force.c1 * area_ratio) ((s.f ip).c2 + c.force.c2 * area_ratio)) }
    else s
  let s := if env.addflag_ ≠ 0 then
      { s with torque := setAt s.torque ip (Vec3.mk
          ((s.torque ip).c0 - (c.cr * c.tor.c0 * area_ratio + c.r_torque.c0))
          ((s.torque ip).c1 - (c.cr * c.tor.c1 * area_ratio + c.r_torque.c1))
          ((s.torque ip).c2 - (c.cr * c.tor.c2 * area_ratio + c.r_torque.c2))) }
    else if env.cwl_ = true then
      { s with collected := s.collected ++
          [WallRecord.wall_2 ip c.force
            (Vec3.mk (c.tor.c0 * area_ratio) (c.tor.c1 * area_ratio) (c.tor.c2 * area_ratio))
            c.c_history rsq] }
    else s
  (c.c_history, s)

/-- `FixWallGranHookeHistory::addHeatFlux(mesh,ip,rsq,area_ratio)`; `mesh` is
`none` for the NULL pointer and otherwise the mesh's global property `Temp`. -/
def addHeatFlux (m : LibM α) (env : WallEnv α) (mesh : Option α) (ip : Nat) (rsq area_ratio : α)
    (s : WallState α) : WallState α :=
  let reff_wall := env.radius ip
  let itype := env.type ip
  let ri := env.radius ip
  let s := match mesh with
    | some t => { s with Temp_wall := t }
    | none => s
  let r := m.sqrt rsq
  let r := match env.deltan_ratio with
    | some ratio =>
      let delta_n := ri - r
      let delta_n := delta_n * ratio (itype - 1) (env.atom_type_wall_ - 1)
      ri - delta_n
    | none => r
  let Acont := (reff_wall * reff_wall - r * r) * m.M_PI * area_ratio
  let tcop := env.th_cond (itype - 1)
  let tcowall := env.th_cond (env.atom_type_wall_ - 1)
  let hc := if |tcop| < env.SMALL ∨ |tcowall| < env.SMALL then 0
    else 4 * tcop * tcowall / (tcop + tcowall) * m.sqrt Acont
  if env.addflag_ ≠ 0 then
    { s with
      heatflux := setAt s.heatflux ip (s.heatflux ip + (s.Temp_wall - env.Temp_p ip) * hc)
      Q_add := s.Q_add + (s.Temp_wall - env.Temp_p ip) * hc * env.update_dt }
  else if env.cwl_ = true then
    { s with collected := s.collected ++
        [WallRecord.heat_wall ip ((s.Temp_wall - env.Temp_p ip) * hc)] }
  else s

/-! ## A concrete two-sphere configuration

Spheres 0 and 1 of radius 2 and mass 32 with centres one unit apart on the
x axis, sphere 0 sliding sideways with speed 2; one type, `Yeff = 15`,
`coeffRestLog = -pi`, friction `1/4`, `charVel = 1`, `nktv2p = 1`. -/

/-- Two overlapping equal spheres, sphere 0 moving tangentially. -/
def demoPairEnv (m : LibM α) : PairEnv α where
  x := fun k => if k = 0 then ⟨1, 0, 0⟩ else ⟨0, 0, 0⟩
  v := fun k => if k = 0 then ⟨0, 2, 0⟩ else ⟨0, 0, 0⟩
  omega := fun _ => ⟨0, 0, 0⟩
  radius := fun _ => 2
  rmass := some (fun _ => 32)
  mass := fun _ => 32
  type := fun _ => 1
  mask := fun _ => 1
  nlocal := 2
  ilist := [0]
  firstneigh := fun k => if k = 0 then [1] else []
  NEIGHMASK := 1073741823
  dt := 1
  freeze_group_bit := 2
  fix_rigid := false
  body := fun _ => -1
  masstotal := fun _ => 0
  dampflag := 1
  rollingflag := 0
  cohesionflag := 0
  Yeff := fun _ _ => 15
  coeffRestLog := fun _ _ => -m.M_PI
  coeffFrict := fun _ _ => 1 / 4
  coeffRollFrict := fun _ _ => 1 / 10
  cohEnergyDens := fun _ _ => 0
  charVel := 1
  nktv2p := 1
  cpl := true
  rmu0 := 0

end Model

/-! ## Real-arithmetic lemmas on the shared statements -/

/-- Euclidean length of a real triple, as the code computes it with `sqrt`. -/
noncomputable def Vec3.norm (a : Vec3 ℝ) : ℝ :=
  Real.sqrt (a.c0 * a.c0 + a.c1 * a.c1 + a.c2 * a.c2)

/-- The trial tangential force `(fs1,fs2,fs3) = -kt*shear` (pair lines 320-322,
wall lines 302-304). -/
def trialForce {α : Type} [LinearOrderedField α] (kt : α) (shear : Vec3 α) : Vec3 α :=
  ⟨-(kt * shear.c0), -(kt * shear.c1), -(kt * shear.c2)⟩

/-- One call of `compute` in a run: the data it reads at that call, the step
counter and `addflag`. -/
structure PairCall (α : Type) where
  env : PairEnv α
  ntimestep : Int
  addflag : Int

/-- A sequence of `compute` calls, first call first. Between the calls the
contact history is not written. -/
def computeSeq {α : Type} [LinearOrderedField α] (m : LibM α) :
    List (PairCall α) → PairState α → PairState α
  | [], s => s
  | c :: cs, s => computeSeq m cs (compute m c.env c.ntimestep c.addflag s)

/-- A sphere of radius 4 at distance 1 from a resting wall, sliding sideways
with speed 2; `Yeff = 15`, `coeffRestLog = -pi`, friction `1/4`. -/
def demoWallEnv {α : Type} [LinearOrderedField α] (m : LibM α) : WallEnv α where
  v := fun _ => ⟨0, 2, 0⟩
  omega := fun _ => ⟨0, 0, 0⟩
  radius := fun _ => 4
  rmass := fun _ => 32
  type := fun _ => 1
  fix_rigid_ := false
  body_ := fun _ => -1
  masstotal_ := fun _ => 0
  atom_type_wall_ := 1
  dampflag := 1
  rollingflag := 0
  cohesionflag := 0
  Yeff := fun _ _ => 15
  coeffRestLog := fun _ _ => -m.M_PI
  coeffFrict := fun _ _ => 1 / 4
  coeffRollFrict := fun _ _ => 1 / 10
  cohEnergyDens := fun _ _ => 0
  charVel := 1
  shearupdate_ := 0
  addflag_ := 1
  dt_ := 1
  cwl_ := true
  rmu0 := 0
  th_cond := fun _ => 1
  deltan_ratio := none
  Temp_p := fun _ => 300
  update_dt := 1
  SMALL := 1 / 1000000000000

/-- The demo spheres moved apart: centres five units apart, radii 2. -/
def farPairEnv {α : Type} [LinearOrderedField α] (m : LibM α) : PairEnv α :=
  { demoPairEnv m with x := fun k => if k = 0 then ⟨5, 0, 0⟩ else ⟨0, 0, 0⟩ }

/-- The demo spheres with rolling friction on and sphere 0 spinning. -/
def spinPairEnv {α : Type} [LinearOrderedField α] (m : LibM α) : PairEnv α :=
  { demoPairEnv m with
    rollingflag := 1
    omega := fun k => if k = 0 then ⟨1, 2, 2⟩ else ⟨0, 0, 0⟩ }

/-- The demo wall sphere with rolling friction on and the sphere spinning. -/
def spinWallEnv {α : Type} [LinearOrderedField α] (m : LibM α) : WallEnv α :=
  { demoWallEnv m with
    rollingflag := 1
    omega := fun _ => ⟨1, 2, 2⟩ }

/-- The projection onto the tangent plane as the specification words it:
`P(u) = u - ((u . del)/rsq)*del`, the part of `u` orthogonal to `del`. -/
def tangentPart {α : Type} [LinearOrderedField α] (u del : Vec3 α) (rsq : α) : Vec3 α :=
  ⟨u.c0 - u.dot del / rsq * del.c0, u.c1 - u.dot del / rsq * del.c1,
    u.c2 - u.dot del / rsq * del.c2⟩

/-- An all-zero pair state. -/
def zeroPairState {α : Type} [LinearOrderedField α] : PairState α where
  f := fun _ => ⟨0, 0, 0⟩
  torque := fun _ => ⟨0, 0, 0⟩
  touch := fun _ _ => 0
  shear := fun _ _ => ⟨0, 0, 0⟩
  shearupdate := 0
  laststep := 0
  collected := []

/-- An all-zero wall state. -/
def zeroWallState {α : Type} [LinearOrderedField α] : WallState α where
  f := fun _ => ⟨0, 0, 0⟩
  torque := fun _ => ⟨0, 0, 0⟩
  heatflux := fun _ => 0
  Q_add := 0
  Temp_wall := 0
  collected := []

/-- The local `Acont` of `PairGranHookeHistory::addCohesionForce` (line 112). -/
def pairAcont {α : Type} [LinearOrderedField α] (m : LibM α) (env : PairEnv α) (ip jp : Nat)
    (r : α) : α :=
  let ri := env.radius ip
  let rj := env.radius jp
  let Acont := -m.M_PI / 4 * ((r - ri - rj) * (r + ri - rj) * (r - ri + rj) * (r + ri + rj)) / (r * r)
  Acont

/-- The local `Acont` of `FixWallGranHookeHistory::addCohesionForce` (line 420). -/
def wallAcont {α : Type} [LinearOrderedField α] (m : LibM α) (env : WallEnv α) (ip : Nat)
    (r : α) : α :=
  let reff_wall := env.radius ip
  let Acont := (reff_wall * reff_wall - r * r) * m.M_PI
  Acont

/-- The locals `mi`, `mj` of `compute` (lines 257-271): the per-atom mass
`rmass`, or the per-type mass when `rmass` is NULL, replaced by the total mass
of the rigid body for an atom that belongs to one. -/
def bodyMass {α : Type} [LinearOrderedField α] (env : PairEnv α) (i : Nat) : α :=
  let mi := match env.rmass with
    | some rmass => rmass i
    | none => env.mass (env.type i)
  if env.fix_rigid = true ∧ env.body i ≥ 0 then env.masstotal (env.body i).toNat else mi

/-- The stiffness law in the words of the specification:
`K(reff) = (16/15)*sqrt(reff)*Yeff*(15*meff*charVel^2/(16*sqrt(reff)*Yeff))^0.2`. -/
noncomputable def stiffnessK (Yeff meff charVel reff : ℝ) : ℝ :=
  (16 / 15) * Real.sqrt reff * Yeff *
    (15 * meff * charVel ^ 2 / (16 * Real.sqrt reff * Yeff)) ^ (0.2 : ℝ)

/-- The demo wall sphere with cohesion on, energy density 1. -/
def cohWallEnv {α : Type} [LinearOrderedField α] (m : LibM α) : WallEnv α :=
  { demoWallEnv m with
    cohesionflag := 1
    cohEnergyDens := fun _ _ => 1 }

/-- The demo pair in a unit system whose pressure conversion factor is 2. -/
def convPairEnv {α : Type} [LinearOrderedField α] (m : LibM α) : PairEnv α :=
  { demoPairEnv m with nktv2p := 2 }

/-- The demo pair with sphere 1 in the frozen group and of mass 8. -/
def frozenPairEnv {α : Type} [LinearOrderedField α] (m : LibM α) : PairEnv α :=
  { demoPairEnv m with
    mask := fun k => if k = 1 then 3 else 1
    rmass := some (fun k => if k = 1 then 8 else 32) }

/-- The configuration `env` with atom `i` moved onto the ray from the centre of
atom `j` in direction `u`, at the distance that gives the overlap `delta`:
`x[i] = x[j] + (radius[i] + radius[j] - delta)*u`. Everything else is kept. -/
def placeAt {α : Type} [LinearOrderedField α] (env : PairEnv α) (i j : Nat) (u : Vec3 α)
    (delta : α) : PairEnv α :=
  { env with
    x := fun k =>
      if k = i then
        ⟨(env.x j).c0 + (env.radius i + env.radius j - delta) * u.c0,
          (env.x j).c1 + (env.radius i + env.radius j - delta) * u.c1,
          (env.x j).c2 + (env.radius i + env.radius j - delta) * u.c2⟩
      else env.x k }

/-- The demo pair with sphere 0 moving towards sphere 1 along the line of
centres with speed 1. -/
def headOnEnv {α : Type} [LinearOrderedField α] (m : LibM α) : PairEnv α :=
  { demoPairEnv m with v := fun k => if k = 0 then ⟨-1, 0, 0⟩ else ⟨0, 0, 0⟩ }

/-! ## PairGranHookeHistory::init_granular -/

/-- What `init_granular` reads from the property fixes: `max_type`, the values
`compute_vector(k)` of `youngsModulus` and `poissonsRatio`, `compute_array(k,l)`
of the per-type-pair properties and `compute_scalar()` of
`characteristicVelocity`. The lookup `find_fix_property` (code outside the
sources) aborts the run when a property is missing; here all are present. -/
structure MaterialSources (α : Type) where
  max_type : Nat
  Y1 : Nat → α
  v1 : Nat → α
  coeffRest1 : Nat → Nat → α
  coeffFrict1 : Nat → Nat → α
  coeffRollFrict1 : Nat → Nat → α
  cohEnergyDens1 : Nat → Nat → α
  charVel1 : α

/-- The per-type-pair arrays of the pair style and `charVel`. -/
structure MaterialTables (α : Type) where
  Yeff : Nat → Nat → α
  Geff : Nat → Nat → α
  betaeff : Nat → Nat → α
  veff : Nat → Nat → α
  cohEnergyDens : Nat → Nat → α
  coeffRestLog : Nat → Nat → α
  coeffFrict : Nat → Nat → α
  coeffRollFrict : Nat → Nat → α
  charVel : α

/-- Body of the double loop of `init_granular` (lines 496-511) for the types
`i`, `j`. -/
def initEntry {α : Type} [LinearOrderedField α] (m : LibM α) (src : MaterialSources α)
    (rollingflag cohesionflag : Int) (i j : Nat) (t : MaterialTables α) : MaterialTables α :=
  let Yi := src.Y1 (i - 1)
  let Yj := src.Y1 (j - 1)
  let vi := src.v1 (i - 1)
  let vj := src.v1 (j - 1)
  let t := { t with
    Yeff := setAt2 t.Yeff i j (1 / ((1 - m.pow vi 2) / Yi + (1 - m.pow vj 2) / Yj)) }
  let t := { t with
    Geff := setAt2 t.Geff i j
      (1 / (2 * (2 - vi) * (1 + vi) / Yi + 2 * (2 - vj) * (1 + vj) / Yj)) }
  let t := { t with
    coeffRestLog := setAt2 t.coeffRestLog i j (m.log (src.coeffRest1 (i - 1) (j - 1))) }
  let t := { t with
    betaeff := setAt2 t.betaeff i j
      (t.coeffRestLog i j / m.sqrt (m.pow (t.coeffRestLog i j) 2 + m.pow m.M_PI 2)) }
  let t := { t with coeffFrict := setAt2 t.coeffFrict i j (src.coeffFrict1 (i - 1) (j - 1)) }
  let t := if rollingflag ≠ 0 then
      { t with
        coeffRollFrict := setAt2 t.coeffRollFrict i j (src.coeffRollFrict1 (i - 1) (j - 1)) }
    else t
  let t := if cohesionflag ≠ 0 then
      { t with
        cohEnergyDens := setAt2 t.cohEnergyDens i j (src.cohEnergyDens1 (i - 1) (j - 1)) }
    else t
  t

/-- The inner loop `for(int j=1;j<max_type+1;j++)` over the remaining `js`. -/
def initJLoop {α : Type} [LinearOrderedField α] (m : LibM α) (src : MaterialSources α)
    (rollingflag cohesionflag : Int) (i : Nat) : List Nat → MaterialTables α → MaterialTables α
  | [], t => t
  | j :: js, t => initJLoop m src rollingflag cohesionflag i js
      (initEntry m src rollingflag cohesionflag i j t)

/-- The outer loop `for(int i=1;i< max_type+1; i++)` over the remaining `is`. -/
def initILoop {α : Type} [LinearOrderedField α] (m : LibM α) (src : MaterialSources α)
    (rollingflag cohesionflag : Int) (js : List Nat) :
    List Nat → MaterialTables α → MaterialTables α
  | [], t => t
  | i :: is, t => initILoop m src rollingflag cohesionflag js is
      (initJLoop m src rollingflag cohesionflag i js t)

/-- `PairGranHookeHistory::init_granular` from line 491 on, for the member
flags `rollingflag`, `cohesionflag`, `charVelflag`; `t` holds the freshly
allocated (uninitialised) arrays. -/
def init_granular {α : Type} [LinearOrderedField α] (m : LibM α) (src : MaterialSources α)
    (rollingflag cohesionflag charVelflag : Int) (t : MaterialTables α) : MaterialTables α :=
  let t := initILoop m src rollingflag cohesionflag (List.range' 1 src.max_type)
    (List.range' 1 src.max_type) t
  if charVelflag ≠ 0 then { t with charVel := src.charVel1 } else t

/-- The pair style reading the arrays `t`. -/
def withTables {α : Type} [LinearOrderedField α] (env : PairEnv α) (t : MaterialTables α) :
    PairEnv α :=
  { env with
    Yeff := t.Yeff
    coeffRestLog := t.coeffRestLog
    coeffFrict := t.coeffFrict
    coeffRollFrict := t.coeffRollFrict
    cohEnergyDens := t.cohEnergyDens
    charVel := t.charVel }

/-- Two material types with symmetric restitution and friction tables and a
cohesion energy density that depends on the first type only. -/
def demoSources {α : Type} [LinearOrderedField α] : MaterialSources α where
  max_type := 2
  Y1 := fun k => if k = 0 then 10 else 20
  v1 := fun _ => 1 / 2
  coeffRest1 := fun _ _ => 1
  coeffFrict1 := fun _ _ => 1 / 4
  coeffRollFrict1 := fun _ _ => 1 / 10
  cohEnergyDens1 := fun k _ => if k = 0 then 1 else 2
  charVel1 := 1

/-- All-zero arrays. -/
def zeroTables {α : Type} [LinearOrderedField α] : MaterialTables α where
  Yeff := fun _ _ => 0
  Geff := fun _ _ => 0
  betaeff := fun _ _ => 0
  veff := fun _ _ => 0
  cohEnergyDens := fun _ _ => 0
  coeffRestLog := fun _ _ => 0
  coeffFrict := fun _ _ => 0
  coeffRollFrict := fun _ _ => 0
  charVel := 0

/-! ## PairGranHookeHistory::settings -/

/-- The calls of `error->all` in `settings`, by message; `readPastEnd` marks a
keyword in the last position, where the code reads `arg[narg]`. -/
inductive SettingsError where
  | cohesionValue
  | rollingValue
  | dampingValue
  | illegalKeyword
  | cohesionDimension
  | readPastEnd
  deriving DecidableEq

/-- The three flags `settings` sets. -/
structure PairFlags where
  dampflag : Int
  rollingflag : Int
  cohesionflag : Int
  deriving DecidableEq

/-- The `while(iarg_ < narg && hasargs)` loop of `settings` on the arguments
from position `iarg_` on. `pairMatch` is the value of
`force->pair_match("gran/hooke/history",1) || force->pair_match("gran/hertz/history",1)`.
An unknown keyword with `pairMatch` false leaves `hasargs` false and ends the
loop. -/
def settingsLoop (pairMatch : Bool) : List String → PairFlags → Except SettingsError PairFlags
  | [], fl => Except.ok fl
  | [kw], fl =>
    if kw = "cohesion" ∨ kw = "rolling_friction" ∨ kw = "tangential_damping" then
      Except.error SettingsError.readPastEnd
    else if pairMatch = true then Except.error SettingsError.illegalKeyword
    else Except.ok fl
  | kw :: v :: rest, fl =>
    if kw = "cohesion" then
      if v = "sjkr" then settingsLoop pairMatch rest { fl with cohesionflag := 1 }
      else if v = "off" then settingsLoop pairMatch rest { fl with cohesionflag := 0 }
      else Except.error SettingsError.cohesionValue
    else if kw = "rolling_friction" then
      if v = "cdt" then settingsLoop pairMatch rest { fl with rollingflag := 1 }
      else if v = "off" then settingsLoop pairMatch rest { fl with rollingflag := 0 }
      else Except.error SettingsError.rollingValue
    else if kw = "tangential_damping" then
      if v = "on" then settingsLoop pairMatch rest { fl with dampflag := 1 }
      else if v = "off" then settingsLoop pairMatch rest { fl with dampflag := 0 }
      else Except.error SettingsError.dampingValue
    else if pairMatch = true then Except.error SettingsError.illegalKeyword
    else Except.ok fl

/-- `PairGranHookeHistory::settings(narg,arg)` in a domain of dimension
`dimension`: the flags it leaves, or the error it aborts with. -/
def settings (pairMatch : Bool) (dimension : Int) (arg : List String) :
    Except SettingsError PairFlags :=
  match settingsLoop pairMatch arg ⟨1, 0, 0⟩ with
  | Except.error e => Except.error e
  | Except.ok fl =>
    if fl.cohesionflag ≠ 0 ∧ dimension ≠ 3 then Except.error SettingsError.cohesionDimension
    else Except.ok fl

/-- A keyword/value list written out as the argument vector. -/
def flattenArgs : List (String × String) → List String
  | [] => []
  | (kw, v) :: rest => kw :: v :: flattenArgs rest

/-- The value that follows the last occurrence of the keyword `kw`. -/
def lastValue : List (String × String) → String → Option String
  | [], _ => none
  | (k, v) :: rest, kw =>
    match lastValue rest kw with
    | some w => some w
    | none => if k = kw then some v else none

/-- Each keyword is one of the three of `settings`. -/
def knownKeywords (pairs : List (String × String)) : Prop :=
  ∀ p ∈ pairs, p.1 = "cohesion" ∨ p.1 = "rolling_friction" ∨ p.1 = "tangential_damping"

/-- Each value is one of the two words allowed after its keyword. -/
def allowedValues (pairs : List (String × String)) : Prop :=
  ∀ p ∈ pairs,
    (p.1 = "cohesion" → p.2 = "sjkr" ∨ p.2 = "off") ∧
    (p.1 = "rolling_friction" → p.2 = "cdt" ∨ p.2 = "off") ∧
    (p.1 = "tangential_damping" → p.2 = "on" ∨ p.2 = "off")

/-- The flags `fl` overridden by the last occurrence of each keyword. -/
def overrideFlags (pairs : List (String × String)) (fl : PairFlags) : PairFlags where
  dampflag := match lastValue pairs "tangential_damping" with
    | some v => if v = "on" then 1 else 0
    | none => fl.dampflag
  rollingflag := match lastValue pairs "rolling_friction" with
    | some v => if v = "cdt" then 1 else 0
    | none => fl.rollingflag
  cohesionflag := match lastValue pairs "cohesion" with
    | some v => if v = "sjkr" then 1 else 0
    | none => fl.cohesionflag

/-- Entry `[k][l]` of each array of `t` holds the value that the loop body of
`init_granular` computes for the type pair `(k,l)` (the rolling-friction and
cohesion arrays only under their flags). -/
def entryResolved {α : Type} [LinearOrderedField α] (m : LibM α) (src : MaterialSources α)
    (rollingflag cohesionflag : Int) (t : MaterialTables α) (k l : Nat) : Prop :=
  t.Yeff k l = 1 / ((1 - m.pow (src.v1 (k - 1)) 2) / src.Y1 (k - 1) +
    (1 - m.pow (src.v1 (l - 1)) 2) / src.Y1 (l - 1)) ∧
  t.Geff k l = 1 / (2 * (2 - src.v1 (k - 1)) * (1 + src.v1 (k - 1)) / src.Y1 (k - 1) +
    2 * (2 - src.v1 (l - 1)) * (1 + src.v1 (l - 1)) / src.Y1 (l - 1)) ∧
  t.coeffRestLog k l = m.log (src.coeffRest1 (k - 1) (l - 1)) ∧
  t.betaeff k l = m.log (src.coeffRest1 (k - 1) (l - 1)) /
    m.sqrt (m.pow (m.log (src.coeffRest1 (k - 1) (l - 1))) 2 + m.pow m.M_PI 2) ∧
  t.coeffFrict k l = src.coeffFrict1 (k - 1) (l - 1) ∧
  (rollingflag ≠ 0 → t.coeffRollFrict k l = src.coeffRollFrict1 (k - 1) (l - 1)) ∧
  (cohesionflag ≠ 0 → t.cohEnergyDens k l = src.cohEnergyDens1 (k - 1) (l - 1))

/-! ## Rolling torque before the projection, guarded clamp, restart settings -/

/-- Cross product `a x b` of two triples, in which the specification words the
lever-arm torques. -/
def Vec3.cross {α : Type} [LinearOrderedField α] (a b : Vec3 α) : Vec3 α :=
  ⟨a.c1 * b.c2 - a.c2 * b.c1, a.c2 * b.c0 - a.c0 * b.c2, a.c0 * b.c1 - a.c1 * b.c0⟩

/-- The rolling torque of `compute` as line 369 leaves it, before the normal
part is removed; `rmu`, `kn`, `deltan` are the locals of that name. -/
def pairRollTorque {α : Type} [LinearOrderedField α] (m : LibM α) (env : PairEnv α) (i j : Nat)
    (rmu kn deltan : α) : Vec3 α :=
  let radi := env.radius i
  let radj := env.radius j
  let wr_roll := vectorSubtract3D (env.omega i) (env.omega j)
  let wr_rollmag := vectorMag3D m wr_roll
  let reff := radi * radj / (radi + radj)
  vectorScalarMult3D wr_roll (rmu * kn * deltan * reff / wr_rollmag)

/-- The locals `(wr1,wr2,wr3)` of `compute_force` (lines 259-261); `r` is the
local `sqrt(rsq)`. -/
def wallWr {α : Type} [LinearOrderedField α] (env : WallEnv α) (ip : Nat) (deltan r : α) :
    Vec3 α :=
  let omega := env.omega ip
  let radius := env.radius ip
  let cr := radius - (1 / 2) * deltan
  let rinv := 1 / r
  ⟨cr * omega.c0 * rinv, cr * omega.c1 * rinv, cr * omega.c2 * rinv⟩

/-- The local `wrmag` of `compute_force` (line 351). -/
def wallWrmag {α : Type} [LinearOrderedField α] (m : LibM α) (env : WallEnv α) (ip : Nat)
    (deltan r : α) : α :=
  let wr := wallWr env ip deltan r
  m.sqrt (wr.c0 * wr.c0 + wr.c1 * wr.c1 + wr.c2 * wr.c2)

/-- The rolling torque of `compute_force` as lines 354-356 leave it, before the
normal part is removed; `rmu`, `kn` are the locals of that name. -/
def wallRollTorque {α : Type} [LinearOrderedField α] (m : LibM α) (env : WallEnv α) (ip : Nat)
    (rmu kn deltan r : α) : Vec3 α :=
  let radius := env.radius ip
  let cr := radius - (1 / 2) * deltan
  let wr := wallWr env ip deltan r
  let wrmag := wallWrmag m env ip deltan r
  ⟨rmu * kn * (radius - r) * wr.c0 / wrmag * cr, rmu * kn * (radius - r) * wr.c1 / wrmag * cr,
    rmu * kn * (radius - r) * wr.c2 / wrmag * cr⟩

/-- The statements of `coulombStage` (pair lines 316-346, wall lines 298-328)
with the divisions made explicit: the result is `none` as soon as a quotient
with a zero divisor is evaluated (`fn/fs` at lines 332-334, `-fs1/kt` at
lines 335-337). -/
def coulombStageGuarded {α : Type} [LinearOrderedField α] (m : LibM α)
    (kt gammat xmu ccel r : α) (vtr shear : Vec3 α) : Option (Vec3 α × Vec3 α) :=
  let shrmag := m.sqrt (shear.c0 * shear.c0 + shear.c1 * shear.c1 + shear.c2 * shear.c2)
  let fs1 := -(kt * shear.c0)
  let fs2 := -(kt * shear.c1)
  let fs3 := -(kt * shear.c2)
  let fs := m.sqrt (fs1 * fs1 + fs2 * fs2 + fs3 * fs3)
  let fn := xmu * |ccel * r|
  if fs > fn then
    if shrmag ≠ 0 then
      if fs = 0 then none
      else
        let fs1 := fs1 * (fn / fs)
        let fs2 := fs2 * (fn / fs)
        let fs3 := fs3 * (fn / fs)
        if kt = 0 then none
        else some (⟨-fs1 / kt, -fs2 / kt, -fs3 / kt⟩, ⟨fs1, fs2, fs3⟩)
    else some (shear, ⟨0, 0, 0⟩)
  else
    some (shear, ⟨fs1 - gammat * vtr.c0, fs2 - gammat * vtr.c1, fs3 - gammat * vtr.c2⟩)

/-- `PairGranHookeHistory::write_restart_settings`: the two `int`s written to
the restart file, `writeflag` and `cohesionflag`. -/
def write_restart_settings (fl : PairFlags) : Int × Int :=
  let writeflag := fl.dampflag + fl.rollingflag * 2
  (writeflag, fl.cohesionflag)

/-- `PairGranHookeHistory::read_restart_settings`: the flags every process
holds after process 0 has read the two `int`s and broadcast the three flags.
`Int.land` is the bitwise `&`. -/
def read_restart_settings (file : Int × Int) : PairFlags :=
  let readflag := file.1
  let cohesionflag := file.2
  let dampflag := Int.land readflag 1
  let rollingflag := Int.land readflag 2
  ⟨dampflag, rollingflag, cohesionflag⟩

/-- The flags after `n` successive cycles of `write_restart_settings` followed
by `read_restart_settings`. -/
def restartCycles : Nat → PairFlags → PairFlags
  | 0, fl => fl
  | n + 1, fl => restartCycles n (read_restart_settings (write_restart_settings fl))

/-- Componentwise sum `a + b` of two triples. -/
def Vec3.add {α : Type} [LinearOrderedField α] (a b : Vec3 α) : Vec3 α :=
  ⟨a.c0 + b.c0, a.c1 + b.c1, a.c2 + b.c2⟩

/-- Componentwise negation `-a` of a triple. -/
def Vec3.neg {α : Type} [LinearOrderedField α] (a : Vec3 α) : Vec3 α :=
  ⟨-a.c0, -a.c1, -a.c2⟩

/-- The demo wall sphere with thermal conductivity 3 for every type. -/
def heatWallEnv {α : Type} [LinearOrderedField α] (m : LibM α) : WallEnv α :=
  { demoWallEnv m with th_cond := fun _ => 3 }

/-- The demo pair with perfectly elastic material: restitution 1, whose
logarithm `coeffRestLog` is 0; sphere 0 approaches sphere 1 head-on. -/
def elasticPairEnv {α : Type} [LinearOrderedField α] (m : LibM α) : PairEnv α :=
  { headOnEnv m with coeffRestLog := fun _ _ => 0 }

theorem Vec3.norm_nonneg (a : Vec3 ℝ) : 0 ≤ a.norm := Real.sqrt_nonneg _

theorem Vec3.norm_scale (a : Vec3 ℝ) (k : ℝ) :
    Vec3.norm ⟨a.c0 * k, a.c1 * k, a.c2 * k⟩ = a.norm * |k| := by
  unfold Vec3.norm
  have h : a.c0 * k * (a.c0 * k) + a.c1 * k * (a.c1 * k) + a.c2 * k * (a.c2 * k)
      = (a.c0 * a.c0 + a.c1 * a.c1 + a.c2 * a.c2) * (k * k) := by ring
  have h0 : 0 ≤ a.c0 * a.c0 + a.c1 * a.c1 + a.c2 * a.c2 :=
    add_nonneg (add_nonneg (mul_self_nonneg _) (mul_self_nonneg _)) (mul_self_nonneg _)
  simp only [h, Real.sqrt_mul h0, Real.sqrt_mul_self_eq_abs]

theorem norm_trialForce (kt : ℝ) (sh : Vec3 ℝ) :
    (trialForce kt sh).norm = |kt| * sh.norm := by
  have h := Vec3.norm_scale sh (-kt)
  have e : (trialForce kt sh) = ⟨sh.c0 * -kt, sh.c1 * -kt, sh.c2 * -kt⟩ := by
    simp only [trialForce, Vec3.mk.injEq]
    refine ⟨by ring, by ring, by ring⟩
  rw [e, h, abs_neg, mul_comm]

/-- Unfolding of `coulombStage` over the reals in terms of `trialForce` and
`Vec3.norm`. -/
theorem coulombStage_real (kt gammat xmu ccel r : ℝ) (vtr sh : Vec3 ℝ) :
    coulombStage realMath kt gammat xmu ccel r vtr sh =
      if (trialForce kt sh).norm > xmu * |ccel * r| then
        if sh.norm ≠ 0 then
          (⟨-((trialForce kt sh).c0 * (xmu * |ccel * r| / (trialForce kt sh).norm)) / kt,
            -((trialForce kt sh).c1 * (xmu * |ccel * r| / (trialForce kt sh).norm)) / kt,
            -((trialForce kt sh).c2 * (xmu * |ccel * r| / (trialForce kt sh).norm)) / kt⟩,
           ⟨(trialForce kt sh).c0 * (xmu * |ccel * r| / (trialForce kt sh).norm),
            (trialForce kt sh).c1 * (xmu * |ccel * r| / (trialForce kt sh).norm),
            (trialForce kt sh).c2 * (xmu * |ccel * r| / (trialForce kt sh).norm)⟩)
        else (sh, ⟨0, 0, 0⟩)
      else
        (sh, ⟨(trialForce kt sh).c0 - gammat * vtr.c0, (trialForce kt sh).c1 - gammat * vtr.c1,
          (trialForce kt sh).c2 - gammat * vtr.c2⟩) := rfl

/-- Clamped branch: taken whenever the trial force exceeds a non-negative limit. -/
theorem coulombStage_clamped (kt gammat xmu ccel r : ℝ) (vtr sh : Vec3 ℝ)
    (hxmu : 0 ≤ xmu) (h : (trialForce kt sh).norm > xmu * |ccel * r|) :
    coulombStage realMath kt gammat xmu ccel r vtr sh =
      (⟨-((trialForce kt sh).c0 * (xmu * |ccel * r| / (trialForce kt sh).norm)) / kt,
        -((trialForce kt sh).c1 * (xmu * |ccel * r| / (trialForce kt sh).norm)) / kt,
        -((trialForce kt sh).c2 * (xmu * |ccel * r| / (trialForce kt sh).norm)) / kt⟩,
       ⟨(trialForce kt sh).c0 * (xmu * |ccel * r| / (trialForce kt sh).norm),
        (trialForce kt sh).c1 * (xmu * |ccel * r| / (trialForce kt sh).norm),
        (trialForce kt sh).c2 * (xmu * |ccel * r| / (trialForce kt sh).norm)⟩) := by
  have hfn : 0 ≤ xmu * |ccel * r| := mul_nonneg hxmu (abs_nonneg _)
  have hpos : 0 < (trialForce kt sh).norm := lt_of_le_of_lt hfn h
  have hsh : sh.norm ≠ 0 := by
    intro h0
    rw [norm_trialForce, h0, mul_zero] at hpos
    exact lt_irrefl _ hpos
  rw [coulombStage_real, if_pos h, if_pos hsh]

/-- Unclamped branch. -/
theorem coulombStage_static (kt gammat xmu ccel r : ℝ) (vtr sh : Vec3 ℝ)
    (h : (trialForce kt sh).norm ≤ xmu * |ccel * r|) :
    coulombStage realMath kt gammat xmu ccel r vtr sh =
      (sh, ⟨(trialForce kt sh).c0 - gammat * vtr.c0, (trialForce kt sh).c1 - gammat * vtr.c1,
          (trialForce kt sh).c2 - gammat * vtr.c2⟩) := by
  rw [coulombStage_real, if_neg (not_lt.mpr h)]

theorem Vec3.norm_add_le (a b : Vec3 ℝ) :
    Vec3.norm ⟨a.c0 + b.c0, a.c1 + b.c1, a.c2 + b.c2⟩ ≤ a.norm + b.norm := by
  have hA : 0 ≤ a.c0 * a.c0 + a.c1 * a.c1 + a.c2 * a.c2 :=
    add_nonneg (add_nonneg (mul_self_nonneg _) (mul_self_nonneg _)) (mul_self_nonneg _)
  have hB : 0 ≤ b.c0 * b.c0 + b.c1 * b.c1 + b.c2 * b.c2 :=
    add_nonneg (add_nonneg (mul_self_nonneg _) (mul_self_nonneg _)) (mul_self_nonneg _)
  have hcs : (a.c0 * b.c0 + a.c1 * b.c1 + a.c2 * b.c2) ^ 2 ≤
      (a.c0 * a.c0 + a.c1 * a.c1 + a.c2 * a.c2) * (b.c0 * b.c0 + b.c1 * b.c1 + b.c2 * b.c2) := by
    nlinarith [sq_nonneg (a.c0 * b.c1 - a.c1 * b.c0), sq_nonneg (a.c0 * b.c2 - a.c2 * b.c0),
      sq_nonneg (a.c1 * b.c2 - a.c2 * b.c1)]
  have hdot : a.c0 * b.c0 + a.c1 * b.c1 + a.c2 * b.c2 ≤ a.norm * b.norm := by
    have h1 := Real.abs_le_sqrt hcs
    rw [Real.sqrt_mul hA] at h1
    exact le_trans (le_abs_self _) h1
  have hsa : a.norm ^ 2 = a.c0 * a.c0 + a.c1 * a.c1 + a.c2 * a.c2 := Real.sq_sqrt hA
  have hsb : b.norm ^ 2 = b.c0 * b.c0 + b.c1 * b.c1 + b.c2 * b.c2 := Real.sq_sqrt hB
  have hna := a.norm_nonneg
  have hnb := b.norm_nonneg
  show Real.sqrt _ ≤ _
  rw [Real.sqrt_le_iff]
  refine ⟨add_nonneg hna hnb, ?_⟩
  simp only []
  nlinarith [hdot, hsa, hsb]

theorem Vec3.norm_sub_scale_le (a v : Vec3 ℝ) (g : ℝ) :
    Vec3.norm ⟨a.c0 - g * v.c0, a.c1 - g * v.c1, a.c2 - g * v.c2⟩ ≤ a.norm + |g| * v.norm := by
  have h := Vec3.norm_add_le a ⟨v.c0 * -g, v.c1 * -g, v.c2 * -g⟩
  rw [Vec3.norm_scale v (-g), abs_neg, mul_comm v.norm] at h
  have e : (⟨a.c0 - g * v.c0, a.c1 - g * v.c1, a.c2 - g * v.c2⟩ : Vec3 ℝ) =
      ⟨a.c0 + v.c0 * -g, a.c1 + v.c1 * -g, a.c2 + v.c2 * -g⟩ := by
    simp only [Vec3.mk.injEq]
    refine ⟨by ring, by ring, by ring⟩
  rw [e]
  exact h

/-- Bounds on the tangential force leaving `coulombStage`. -/
theorem coulombStage_force_bound (kt gammat xmu ccel r : ℝ) (vtr sh : Vec3 ℝ) (hxmu : 0 ≤ xmu) :
    ((trialForce kt sh).norm > xmu * |ccel * r| →
      (coulombStage realMath kt gammat xmu ccel r vtr sh).2.norm = xmu * |ccel * r|) ∧
    (gammat = 0 → (coulombStage realMath kt gammat xmu ccel r vtr sh).2.norm ≤ xmu * |ccel * r|) ∧
    (coulombStage realMath kt gammat xmu ccel r vtr sh).2.norm ≤
      xmu * |ccel * r| + |gammat| * vtr.norm := by
  have hfn : 0 ≤ xmu * |ccel * r| := mul_nonneg hxmu (abs_nonneg _)
  have hcl : (trialForce kt sh).norm > xmu * |ccel * r| →
      (coulombStage realMath kt gammat xmu ccel r vtr sh).2.norm = xmu * |ccel * r| := by
    intro h
    have hpos : 0 < (trialForce kt sh).norm := lt_of_le_of_lt hfn h
    rw [coulombStage_clamped kt gammat xmu ccel r vtr sh hxmu h]
    show Vec3.norm ⟨_, _, _⟩ = _
    rw [Vec3.norm_scale, abs_of_nonneg (div_nonneg hfn hpos.le), mul_div_cancel₀ _ hpos.ne']
  have hg : 0 ≤ |gammat| * vtr.norm := mul_nonneg (abs_nonneg _) vtr.norm_nonneg
  refine ⟨hcl, ?_, ?_⟩
  · intro h0
    by_cases h : (trialForce kt sh).norm > xmu * |ccel * r|
    · exact (hcl h).le
    · rw [coulombStage_static kt gammat xmu ccel r vtr sh (not_lt.mp h), h0]
      simp only [zero_mul, sub_zero]
      exact not_lt.mp h
  · by_cases h : (trialForce kt sh).norm > xmu * |ccel * r|
    · rw [hcl h]; linarith
    · rw [coulombStage_static kt gammat xmu ccel r vtr sh (not_lt.mp h)]
      exact le_trans (Vec3.norm_sub_scale_le _ _ _) (by linarith [not_lt.mp h])

/-! ## The contact records in terms of the shared statements -/

theorem pairContact_stage {α : Type} [LinearOrderedField α] (m : LibM α) (env : PairEnv α)
    (su af : Int) (i j : Nat) (sh : Vec3 α) :
    ((pairContact m env su af i j sh).shear, (pairContact m env su af i j sh).fs) =
      coulombStage m (pairContact m env su af i j sh).p.kt (pairContact m env su af i j sh).p.gammat
        (pairContact m env su af i j sh).p.xmu (pairContact m env su af i j sh).ccel
        (pairContact m env su af i j sh).r (pairContact m env su af i j sh).vtr
        (pairContact m env su af i j sh).shearTrial := rfl

theorem pairContact_shearTrial {α : Type} [LinearOrderedField α] (m : LibM α) (env : PairEnv α)
    (su af : Int) (i j : Nat) (sh : Vec3 α) :
    (pairContact m env su af i j sh).shearTrial =
      if su ≠ 0 ∧ af ≠ 0 then
        shearIntegrate (pairContact m env su af i j sh).vtr env.dt
          (1 / (pairContact m env su af i j sh).rsq) (pairContact m env su af i j sh).del sh
      else sh := rfl

theorem pairContact_rsq {α : Type} [LinearOrderedField α] (m : LibM α) (env : PairEnv α)
    (su af : Int) (i j : Nat) (sh : Vec3 α) :
    (pairContact m env su af i j sh).rsq = (pairContact m env su af i j sh).del.dot
      (pairContact m env su af i j sh).del := rfl

theorem wallContact_stage {α : Type} [LinearOrderedField α] (m : LibM α) (env : WallEnv α)
    (ip : Nat) (deltan rsq meff_wall dx dy dz : α) (vwall ch : Vec3 α) (area_ratio : α) :
    ((wallContact m env ip deltan rsq meff_wall dx dy dz vwall ch area_ratio).c_history,
      (wallContact m env ip deltan rsq meff_wall dx dy dz vwall ch area_ratio).fs) =
      coulombStage m (wallContact m env ip deltan rsq meff_wall dx dy dz vwall ch area_ratio).p.kt
        (wallContact m env ip deltan rsq meff_wall dx dy dz vwall ch area_ratio).p.gammat
        (wallContact m env ip deltan rsq meff_wall dx dy dz vwall ch area_ratio).p.xmu
        (wallContact m env ip deltan rsq meff_wall dx dy dz vwall ch area_ratio).ccel
        (wallContact m env ip deltan rsq meff_wall dx dy dz vwall ch area_ratio).r
        (wallContact m env ip deltan rsq meff_wall dx dy dz vwall ch area_ratio).vtr
        (wallContact m env ip deltan rsq meff_wall dx dy dz vwall ch area_ratio).shearTrial := rfl

theorem wallContact_shearTrial {α : Type} [LinearOrderedField α] (m : LibM α) (env : WallEnv α)
    (ip : Nat) (deltan rsq meff_wall dx dy dz : α) (vwall ch : Vec3 α) (area_ratio : α) :
    (wallContact m env ip deltan rsq meff_wall dx dy dz vwall ch area_ratio).shearTrial =
      if env.shearupdate_ ≠ 0 ∧ env.addflag_ ≠ 0 then
        shearIntegrate (wallContact m env ip deltan rsq meff_wall dx dy dz vwall ch area_ratio).vtr
          env.dt_ (1 / rsq) ⟨dx, dy, dz⟩ ch
      else ch := rfl

theorem pair_gammat_of_dampflag {α : Type} [LinearOrderedField α] (m : LibM α) (env : PairEnv α)
    (su af : Int) (i j : Nat) (sh : Vec3 α) (h : env.dampflag = 0) :
    (pairContact m env su af i j sh).p.gammat = 0 := by
  simp [pairContact, deriveContactModelParams, h]

theorem wall_gammat_of_dampflag {α : Type} [LinearOrderedField α] (m : LibM α) (env : WallEnv α)
    (ip : Nat) (deltan rsq meff_wall dx dy dz : α) (vwall ch : Vec3 α) (area_ratio : α)
    (h : env.dampflag = 0) :
    (wallContact m env ip deltan rsq meff_wall dx dy dz vwall ch area_ratio).p.gammat = 0 := by
  simp [wallContact, wallDeriveContactModelParams, h]

/-! ## Evaluation of the concrete configurations -/

theorem pi_div_neg_pi : Real.pi / -Real.pi = -1 := by
  rw [div_neg, div_self Real.pi_ne_zero]

theorem sqrt_four : Real.sqrt 4 = 2 := by
  rw [show (4 : ℝ) = 2 ^ 2 by norm_num, Real.sqrt_sq (by norm_num)]

/-- The demo pair contact evaluated without shear integration from zero shear. -/
theorem demoPair_eval (af : Int) :
    (pairContact realMath (demoPairEnv realMath) 0 af 0 1 ⟨0, 0, 0⟩).p =
        ⟨16, 16, Real.sqrt 512, Real.sqrt 512, 1 / 4, 0⟩ ∧
      (pairContact realMath (demoPairEnv realMath) 0 af 0 1 ⟨0, 0, 0⟩).ccel = 48 ∧
      (pairContact realMath (demoPairEnv realMath) 0 af 0 1 ⟨0, 0, 0⟩).r = 1 ∧
      (pairContact realMath (demoPairEnv realMath) 0 af 0 1 ⟨0, 0, 0⟩).vtr = ⟨0, 2, 0⟩ ∧
      (pairContact realMath (demoPairEnv realMath) 0 af 0 1 ⟨0, 0, 0⟩).fs =
        ⟨0, -(Real.sqrt 512 * 2), 0⟩ ∧
      (pairContact realMath (demoPairEnv realMath) 0 af 0 1 ⟨0, 0, 0⟩).shear = ⟨0, 0, 0⟩ := by
  norm_num [pairContact, demoPairEnv, realMath, deriveContactModelParams,
    dampQuotient, Real.pi_ne_zero, pi_div_neg_pi,
    coulombStage]

/-! ## The loops of `compute` -/

section Loop
variable {α : Type} [LinearOrderedField α]

theorem setAt2_self {β : Type} (a : Nat → Nat → β) (i jj : Nat) (b : β) :
    setAt2 a i jj b i jj = b := by
  simp [setAt2]

theorem setAt2_other {β : Type} (a : Nat → Nat → β) (i jj k l : Nat) (b : β)
    (h : k ≠ i ∨ l ≠ jj) : setAt2 a i jj b k l = a k l := by
  have : ¬ (k = i ∧ l = jj) := by
    rintro ⟨h1, h2⟩
    rcases h with h | h
    · exact h h1
    · exact h h2
  simp [setAt2, this]

/-- The history entries the loop body writes for its own slot. -/
theorem pairBody_self (m : LibM α) (env : PairEnv α) (su af : Int) (i jj jraw : Nat)
    (s : PairState α) :
    ((pairBody m env su af i jj jraw s).touch i jj =
        if pairRsq env i (jraw &&& env.NEIGHMASK) ≥
            (env.radius i + env.radius (jraw &&& env.NEIGHMASK)) *
              (env.radius i + env.radius (jraw &&& env.NEIGHMASK)) then 0 else 1) ∧
      ((pairBody m env su af i jj jraw s).shear i jj =
        if pairRsq env i (jraw &&& env.NEIGHMASK) ≥
            (env.radius i + env.radius (jraw &&& env.NEIGHMASK)) *
              (env.radius i + env.radius (jraw &&& env.NEIGHMASK)) then ⟨0, 0, 0⟩
        else (pairContact m env su af i (jraw &&& env.NEIGHMASK) (s.shear i jj)).shear) := by
  unfold pairBody
  simp only []
  split_ifs <;> simp [setAt2_self]

/-- The loop body leaves every other history slot alone. -/
theorem pairBody_other (m : LibM α) (env : PairEnv α) (su af : Int) (i jj jraw : Nat)
    (s : PairState α) (k l : Nat) (h : k ≠ i ∨ l ≠ jj) :
    (pairBody m env su af i jj jraw s).touch k l = s.touch k l ∧
      (pairBody m env su af i jj jraw s).shear k l = s.shear k l := by
  unfold pairBody
  simp only []
  split_ifs <;> simp [setAt2_other _ _ _ _ _ _ h]

/-- With `addflag = 0` the loop body writes neither `f` nor `torque`. -/
theorem pairBody_frame (m : LibM α) (env : PairEnv α) (su : Int) (i jj jraw : Nat)
    (s : PairState α) :
    (pairBody m env su 0 i jj jraw s).f = s.f ∧
      (pairBody m env su 0 i jj jraw s).torque = s.torque := by
  unfold pairBody
  simp only [ne_eq, not_true_eq_false, and_false, if_false]
  split_ifs <;> exact ⟨rfl, rfl⟩

theorem jloop_other (m : LibM α) (env : PairEnv α) (su af : Int) (i : Nat) (js : List Nat) :
    ∀ (jj : Nat) (s : PairState α) (k l : Nat), (k ≠ i ∨ l < jj) →
      (jloop m env su af i jj js s).touch k l = s.touch k l ∧
        (jloop m env su af i jj js s).shear k l = s.shear k l := by
  induction js with
  | nil => intro jj s k l _; exact ⟨rfl, rfl⟩
  | cons jraw js ih =>
    intro jj s k l h
    have h1 : k ≠ i ∨ l < jj + 1 := h.imp id (fun h => Nat.lt_succ_of_lt h)
    have h2 : k ≠ i ∨ l ≠ jj := h.imp id (fun h => Nat.ne_of_lt h)
    obtain ⟨a, b⟩ := ih (jj + 1) (pairBody m env su af i jj jraw s) k l h1
    obtain ⟨c, d⟩ := pairBody_other m env su af i jj jraw s k l h2
    exact ⟨by rw [jloop, a, c], by rw [jloop, b, d]⟩

theorem jloop_frame (m : LibM α) (env : PairEnv α) (su : Int) (i : Nat) (js : List Nat) :
    ∀ (jj : Nat) (s : PairState α),
      (jloop m env su 0 i jj js s).f = s.f ∧ (jloop m env su 0 i jj js s).torque = s.torque := by
  induction js with
  | nil => intro jj s; exact ⟨rfl, rfl⟩
  | cons jraw js ih =>
    intro jj s
    obtain ⟨a, b⟩ := ih (jj + 1) (pairBody m env su 0 i jj jraw s)
    obtain ⟨c, d⟩ := pairBody_frame m env su i jj jraw s
    exact ⟨by rw [jloop, a, c], by rw [jloop, b, d]⟩

theorem iloop_frame (m : LibM α) (env : PairEnv α) (su : Int) (is : List Nat) :
    ∀ (s : PairState α),
      (iloop m env su 0 is s).f = s.f ∧ (iloop m env su 0 is s).torque = s.torque := by
  induction is with
  | nil => intro s; exact ⟨rfl, rfl⟩
  | cons i is ih =>
    intro s
    obtain ⟨a, b⟩ := ih (jloop m env su 0 i 0 (env.firstneigh i) s)
    obtain ⟨c, d⟩ := jloop_frame m env su i (env.firstneigh i) 0 s
    exact ⟨by rw [iloop, a, c], by rw [iloop, b, d]⟩

/-- After the inner loop, a slot of the list whose pair is not touching holds
touch 0 and zero shear, and the touch flag of every slot of the list is
decided by the geometry alone. -/
theorem jloop_slot (m : LibM α) (env : PairEnv α) (su af : Int) (i : Nat) (js : List Nat) :
    ∀ (jj : Nat) (s : PairState α) (k jraw : Nat), js[k]? = some jraw →
      ((jloop m env su af i jj js s).touch i (jj + k) =
        if pairRsq env i (jraw &&& env.NEIGHMASK) ≥
            (env.radius i + env.radius (jraw &&& env.NEIGHMASK)) *
              (env.radius i + env.radius (jraw &&& env.NEIGHMASK)) then 0 else 1) ∧
      (pairRsq env i (jraw &&& env.NEIGHMASK) ≥
            (env.radius i + env.radius (jraw &&& env.NEIGHMASK)) *
              (env.radius i + env.radius (jraw &&& env.NEIGHMASK)) →
        (jloop m env su af i jj js s).shear i (jj + k) = ⟨0, 0, 0⟩) := by
  induction js with
  | nil => intro jj s k jraw h; simp at h
  | cons j0 js ih =>
    intro jj s k jraw h
    cases k with
    | zero =>
      simp only [List.getElem?_cons_zero, Option.some.injEq] at h
      subst h
      obtain ⟨a, b⟩ := jloop_other m env su af i js (jj + 1)
        (pairBody m env su af i jj j0 s) i jj (Or.inr (Nat.lt_succ_self jj))
      obtain ⟨c, d⟩ := pairBody_self m env su af i jj j0 s
      refine ⟨by rw [Nat.add_zero, jloop, a, c], fun hnt => ?_⟩
      rw [Nat.add_zero, jloop, b, d, if_pos hnt]
    | succ k =>
      simp only [List.getElem?_cons_succ] at h
      have e : jj + (k + 1) = jj + 1 + k := by omega
      rw [e, jloop]
      exact ih (jj + 1) (pairBody m env su af i jj j0 s) k jraw h

theorem iloop_other (m : LibM α) (env : PairEnv α) (su af : Int) (is : List Nat) :
    ∀ (s : PairState α) (k l : Nat), k ∉ is →
      (iloop m env su af is s).touch k l = s.touch k l ∧
        (iloop m env su af is s).shear k l = s.shear k l := by
  induction is with
  | nil => intro s k l _; exact ⟨rfl, rfl⟩
  | cons i is ih =>
    intro s k l h
    have hk : k ≠ i := fun e => h (e ▸ List.mem_cons_self _ _)
    have hk2 : k ∉ is := fun e => h (List.mem_cons_of_mem _ e)
    obtain ⟨a, b⟩ := ih (jloop m env su af i 0 (env.firstneigh i) s) k l hk2
    obtain ⟨c, d⟩ := jloop_other m env su af i (env.firstneigh i) 0 s k l (Or.inl hk)
    exact ⟨by rw [iloop, a, c], by rw [iloop, b, d]⟩

theorem iloop_slot (m : LibM α) (env : PairEnv α) (su af : Int) (is : List Nat) :
    ∀ (s : PairState α) (i k jraw : Nat), i ∈ is → (env.firstneigh i)[k]? = some jraw →
      ((iloop m env su af is s).touch i k =
        if pairRsq env i (jraw &&& env.NEIGHMASK) ≥
            (env.radius i + env.radius (jraw &&& env.NEIGHMASK)) *
              (env.radius i + env.radius (jraw &&& env.NEIGHMASK)) then 0 else 1) ∧
      (pairRsq env i (jraw &&& env.NEIGHMASK) ≥
            (env.radius i + env.radius (jraw &&& env.NEIGHMASK)) *
              (env.radius i + env.radius (jraw &&& env.NEIGHMASK)) →
        (iloop m env su af is s).shear i k = ⟨0, 0, 0⟩) := by
  induction is with
  | nil => intro s i k jraw h; simp at h
  | cons i0 is ih =>
    intro s i k jraw hi hk
    by_cases hmem : i ∈ is
    · rw [iloop]
      exact ih _ i k jraw hmem hk
    · have e : i = i0 := by
        rcases List.mem_cons.mp hi with h | h
        · exact h
        · exact absurd h hmem
      subst e
      obtain ⟨a, b⟩ := iloop_other m env su af is (jloop m env su af i 0 (env.firstneigh i) s)
        i k hmem
      obtain ⟨c, d⟩ := jloop_slot m env su af i (env.firstneigh i) 0 s k jraw hk
      rw [Nat.zero_add] at c d
      exact ⟨by rw [iloop, a, c], fun hnt => by rw [iloop, b, d hnt]⟩

end Loop

/-! ## Further lemmas on the loop body, the contact records and the demo configurations -/

theorem compute_history {α : Type} [LinearOrderedField α] (m : LibM α) (env : PairEnv α)
    (nt af : Int) (s : PairState α) :
    (compute m env nt af s).touch =
        (iloop m env (if nt > s.laststep then 1 else 0) af env.ilist
          { s with shearupdate := if nt > s.laststep then 1 else 0 }).touch ∧
      (compute m env nt af s).shear =
        (iloop m env (if nt > s.laststep then 1 else 0) af env.ilist
          { s with shearupdate := if nt > s.laststep then 1 else 0 }).shear :=
  ⟨rfl, rfl⟩

/-- A single call resets the shear of every listed pair that is not touching. -/
theorem compute_reset {α : Type} [LinearOrderedField α] (m : LibM α) (env : PairEnv α)
    (nt af : Int) (s : PairState α) (i jj jraw : Nat) (hi : i ∈ env.ilist)
    (hj : (env.firstneigh i)[jj]? = some jraw)
    (hnt : pairRsq env i (jraw &&& env.NEIGHMASK) ≥
      (env.radius i + env.radius (jraw &&& env.NEIGHMASK)) *
        (env.radius i + env.radius (jraw &&& env.NEIGHMASK))) :
    (compute m env nt af s).shear i jj = ⟨0, 0, 0⟩ := by
  rw [(compute_history m env nt af s).2]
  exact (iloop_slot m env _ af env.ilist _ i jj jraw hi hj).2 hnt

/-- A non-empty run in which the pair is listed and not touching at every call
ends with zero shear. -/
theorem computeSeq_reset {α : Type} [LinearOrderedField α] (m : LibM α) (i jj : Nat)
    (calls : List (PairCall α)) :
    ∀ (s : PairState α), calls ≠ [] →
      (∀ c ∈ calls, i ∈ c.env.ilist ∧ ∃ jraw, (c.env.firstneigh i)[jj]? = some jraw ∧
        pairRsq c.env i (jraw &&& c.env.NEIGHMASK) ≥
          (c.env.radius i + c.env.radius (jraw &&& c.env.NEIGHMASK)) *
            (c.env.radius i + c.env.radius (jraw &&& c.env.NEIGHMASK))) →
      (computeSeq m calls s).shear i jj = ⟨0, 0, 0⟩ := by
  induction calls with
  | nil => intro s h; exact absurd rfl h
  | cons c cs ih =>
    intro s _ hall
    by_cases hcs : cs = []
    · subst hcs
      obtain ⟨hi, jraw, hj, hnt⟩ := hall c (List.mem_cons_self _ _)
      exact compute_reset m c.env c.ntimestep c.addflag s i jj jraw hi hj hnt
    · rw [computeSeq]
      exact ih _ hcs (fun c' hc' => hall c' (List.mem_cons_of_mem _ hc'))

theorem pairRsq_nonneg (env : PairEnv ℝ) (i j : Nat) : 0 ≤ pairRsq env i j := by
  unfold pairRsq
  simp only []
  exact add_nonneg (add_nonneg (mul_self_nonneg _) (mul_self_nonneg _)) (mul_self_nonneg _)

/-- The touch flag `compute` leaves in a listed slot. -/
theorem compute_touch {α : Type} [LinearOrderedField α] (m : LibM α) (env : PairEnv α)
    (nt af : Int) (s : PairState α) (i jj jraw : Nat) (hi : i ∈ env.ilist)
    (hj : (env.firstneigh i)[jj]? = some jraw) :
    (compute m env nt af s).touch i jj =
      if pairRsq env i (jraw &&& env.NEIGHMASK) <
        (env.radius i + env.radius (jraw &&& env.NEIGHMASK)) *
          (env.radius i + env.radius (jraw &&& env.NEIGHMASK)) then 1 else 0 := by
  rw [(compute_history m env nt af s).1, (iloop_slot m env _ af env.ilist _ i jj jraw hi hj).1]
  by_cases h : pairRsq env i (jraw &&& env.NEIGHMASK) <
        (env.radius i + env.radius (jraw &&& env.NEIGHMASK)) *
          (env.radius i + env.radius (jraw &&& env.NEIGHMASK))
  · rw [if_pos h, if_neg (not_le.mpr h)]
  · rw [if_neg h, if_pos (not_lt.mp h)]

theorem setAt_self {β : Type} (a : Nat → β) (i : Nat) (b : β) : setAt a i b i = b := by
  simp [setAt]

theorem setAt_other {β : Type} (a : Nat → β) (i k : Nat) (b : β) (h : k ≠ i) :
    setAt a i b k = a k := by
  simp [setAt, h]

/-- The force array after the loop body for a touching pair in
direct-integration mode with `j < nlocal`. -/
theorem pairBody_f {α : Type} [LinearOrderedField α] (m : LibM α) (env : PairEnv α)
    (su af : Int) (i jj jraw : Nat) (s : PairState α) (haf : af ≠ 0)
    (hj : jraw &&& env.NEIGHMASK < env.nlocal)
    (ht : pairRsq env i (jraw &&& env.NEIGHMASK) <
      (env.radius i + env.radius (jraw &&& env.NEIGHMASK)) *
        (env.radius i + env.radius (jraw &&& env.NEIGHMASK))) :
    (pairBody m env su af i jj jraw s).f =
      setAt (setAt s.f i
          ⟨(s.f i).c0 + (pairContact m env su af i (jraw &&& env.NEIGHMASK) (s.shear i jj)).force.c0,
            (s.f i).c1 + (pairContact m env su af i (jraw &&& env.NEIGHMASK) (s.shear i jj)).force.c1,
            (s.f i).c2 + (pairContact m env su af i (jraw &&& env.NEIGHMASK) (s.shear i jj)).force.c2⟩)
        (jraw &&& env.NEIGHMASK)
        ⟨(setAt s.f i
            ⟨(s.f i).c0 + (pairContact m env su af i (jraw &&& env.NEIGHMASK) (s.shear i jj)).force.c0,
              (s.f i).c1 + (pairContact m env su af i (jraw &&& env.NEIGHMASK) (s.shear i jj)).force.c1,
              (s.f i).c2 + (pairContact m env su af i (jraw &&& env.NEIGHMASK) (s.shear i jj)).force.c2⟩
            (jraw &&& env.NEIGHMASK)).c0 -
            (pairContact m env su af i (jraw &&& env.NEIGHMASK) (s.shear i jj)).force.c0,
          (setAt s.f i
            ⟨(s.f i).c0 + (pairContact m env su af i (jraw &&& env.NEIGHMASK) (s.shear i jj)).force.c0,
              (s.f i).c1 + (pairContact m env su af i (jraw &&& env.NEIGHMASK) (s.shear i jj)).force.c1,
              (s.f i).c2 + (pairContact m env su af i (jraw &&& env.NEIGHMASK) (s.shear i jj)).force.c2⟩
            (jraw &&& env.NEIGHMASK)).c1 -
            (pairContact m env su af i (jraw &&& env.NEIGHMASK) (s.shear i jj)).force.c1,
          (setAt s.f i
            ⟨(s.f i).c0 + (pairContact m env su af i (jraw &&& env.NEIGHMASK) (s.shear i jj)).force.c0,
              (s.f i).c1 + (pairContact m env su af i (jraw &&& env.NEIGHMASK) (s.shear i jj)).force.c1,
              (s.f i).c2 + (pairContact m env su af i (jraw &&& env.NEIGHMASK) (s.shear i jj)).force.c2⟩
            (jraw &&& env.NEIGHMASK)).c2 -
            (pairContact m env su af i (jraw &&& env.NEIGHMASK) (s.shear i jj)).force.c2⟩ := by
  unfold pairBody
  simp only []
  rw [if_neg (not_le.mpr ht)]
  simp only [haf, hj, ne_eq, not_false_eq_true, and_self, if_true, not_true_eq_false, and_false,
    if_false]

/-- What is left after `removeNormalPart` is orthogonal to `del` when `rsqinv`
is the inverse of `del.del` and that is non-zero. -/
theorem removeNormalPart_dot {α : Type} [LinearOrderedField α] (t del : Vec3 α) (rsq : α)
    (hrsq : rsq = del.c0 * del.c0 + del.c1 * del.c1 + del.c2 * del.c2) (h0 : rsq ≠ 0) :
    (removeNormalPart t del (1 / rsq)).dot del = 0 := by
  simp only [removeNormalPart, vectorSubtract3D, Vec3.dot]
  have e : (t.c0 - del.c0 * (t.c0 * del.c0 + t.c1 * del.c1 + t.c2 * del.c2) * (1 / rsq)) * del.c0 +
      (t.c1 - del.c1 * (t.c0 * del.c0 + t.c1 * del.c1 + t.c2 * del.c2) * (1 / rsq)) * del.c1 +
      (t.c2 - del.c2 * (t.c0 * del.c0 + t.c1 * del.c1 + t.c2 * del.c2) * (1 / rsq)) * del.c2 =
      (t.c0 * del.c0 + t.c1 * del.c1 + t.c2 * del.c2) *
        (1 - (del.c0 * del.c0 + del.c1 * del.c1 + del.c2 * del.c2) * (1 / rsq)) := by ring
  rw [e, ← hrsq, mul_one_div, div_self h0, sub_self, mul_zero]

theorem zero_dot {α : Type} [LinearOrderedField α] (del : Vec3 α) :
    (vectorZeroize3D : Vec3 α).dot del = 0 := by
  simp [vectorZeroize3D, Vec3.dot]

theorem sqrt_nine : Real.sqrt 9 = 3 := by
  rw [show (9 : ℝ) = 3 ^ 2 by norm_num, Real.sqrt_sq (by norm_num)]

/-- The rolling torque of the spinning demo pair. -/
theorem spinPair_r_torque :
    (pairContact realMath (spinPairEnv realMath) 1 1 0 1 ⟨0, 0, 0⟩).r_torque =
      ⟨0, 16 / 5, 16 / 5⟩ := by
  norm_num [pairContact, spinPairEnv, demoPairEnv, realMath, deriveContactModelParams,
    dampQuotient, Real.pi_ne_zero,
    pi_div_neg_pi, vectorSubtract3D, vectorMag3D, vectorScalarMult3D, removeNormalPart, sqrt_nine]

theorem pairContact_fs {α : Type} [LinearOrderedField α] (m : LibM α) (env : PairEnv α)
    (su af : Int) (i j : Nat) (sh : Vec3 α) :
    (pairContact m env su af i j sh).fs =
      (coulombStage m (pairContact m env su af i j sh).p.kt
        (pairContact m env su af i j sh).p.gammat (pairContact m env su af i j sh).p.xmu
        (pairContact m env su af i j sh).ccel (pairContact m env su af i j sh).r
        (pairContact m env su af i j sh).vtr (pairContact m env su af i j sh).shearTrial).2 := rfl

theorem pairContact_shear {α : Type} [LinearOrderedField α] (m : LibM α) (env : PairEnv α)
    (su af : Int) (i j : Nat) (sh : Vec3 α) :
    (pairContact m env su af i j sh).shear =
      (coulombStage m (pairContact m env su af i j sh).p.kt
        (pairContact m env su af i j sh).p.gammat (pairContact m env su af i j sh).p.xmu
        (pairContact m env su af i j sh).ccel (pairContact m env su af i j sh).r
        (pairContact m env su af i j sh).vtr (pairContact m env su af i j sh).shearTrial).1 := rfl

theorem wallContact_fs {α : Type} [LinearOrderedField α] (m : LibM α) (env : WallEnv α)
    (ip : Nat) (deltan rsq meff_wall dx dy dz : α) (vwall ch : Vec3 α) (area_ratio : α) :
    (wallContact m env ip deltan rsq meff_wall dx dy dz vwall ch area_ratio).fs =
      (coulombStage m (wallContact m env ip deltan rsq meff_wall dx dy dz vwall ch area_ratio).p.kt
        (wallContact m env ip deltan rsq meff_wall dx dy dz vwall ch area_ratio).p.gammat
        (wallContact m env ip deltan rsq meff_wall dx dy dz vwall ch area_ratio).p.xmu
        (wallContact m env ip deltan rsq meff_wall dx dy dz vwall ch area_ratio).ccel
        (wallContact m env ip deltan rsq meff_wall dx dy dz vwall ch area_ratio).r
        (wallContact m env ip deltan rsq meff_wall dx dy dz vwall ch area_ratio).vtr
        (wallContact m env ip deltan rsq meff_wall dx dy dz vwall ch area_ratio).shearTrial).2 :=
  rfl

theorem wallContact_c_history {α : Type} [LinearOrderedField α] (m : LibM α) (env : WallEnv α)
    (ip : Nat) (deltan rsq meff_wall dx dy dz : α) (vwall ch : Vec3 α) (area_ratio : α) :
    (wallContact m env ip deltan rsq meff_wall dx dy dz vwall ch area_ratio).c_history =
      (coulombStage m (wallContact m env ip deltan rsq meff_wall dx dy dz vwall ch area_ratio).p.kt
        (wallContact m env ip deltan rsq meff_wall dx dy dz vwall ch area_ratio).p.gammat
        (wallContact m env ip deltan rsq meff_wall dx dy dz vwall ch area_ratio).p.xmu
        (wallContact m env ip deltan rsq meff_wall dx dy dz vwall ch area_ratio).ccel
        (wallContact m env ip deltan rsq meff_wall dx dy dz vwall ch area_ratio).r
        (wallContact m env ip deltan rsq meff_wall dx dy dz vwall ch area_ratio).vtr
        (wallContact m env ip deltan rsq meff_wall dx dy dz vwall ch area_ratio).shearTrial).1 :=
  rfl

/-- Length of the shear `coulombStage` stores, for positive `kt`. -/
theorem coulombStage_shear_bound (kt gammat xmu ccel r : ℝ) (vtr sh : Vec3 ℝ) (hxmu : 0 ≤ xmu)
    (hkt : 0 < kt) :
    kt * (coulombStage realMath kt gammat xmu ccel r vtr sh).1.norm ≤ xmu * |ccel * r| := by
  by_cases h : (trialForce kt sh).norm > xmu * |ccel * r|
  · have hn := (coulombStage_force_bound kt gammat xmu ccel r vtr sh hxmu).1 h
    rw [coulombStage_clamped kt gammat xmu ccel r vtr sh hxmu h] at hn ⊢
    simp only [] at hn ⊢
    have e : (⟨-((trialForce kt sh).c0 * (xmu * |ccel * r| / (trialForce kt sh).norm)) / kt,
        -((trialForce kt sh).c1 * (xmu * |ccel * r| / (trialForce kt sh).norm)) / kt,
        -((trialForce kt sh).c2 * (xmu * |ccel * r| / (trialForce kt sh).norm)) / kt⟩ : Vec3 ℝ) =
        ⟨(trialForce kt sh).c0 * (xmu * |ccel * r| / (trialForce kt sh).norm) * (-(1 / kt)),
          (trialForce kt sh).c1 * (xmu * |ccel * r| / (trialForce kt sh).norm) * (-(1 / kt)),
          (trialForce kt sh).c2 * (xmu * |ccel * r| / (trialForce kt sh).norm) * (-(1 / kt))⟩ := by
      simp only [Vec3.mk.injEq]
      refine ⟨by ring, by ring, by ring⟩
    rw [e]
    have hs := Vec3.norm_scale
      ⟨(trialForce kt sh).c0 * (xmu * |ccel * r| / (trialForce kt sh).norm),
        (trialForce kt sh).c1 * (xmu * |ccel * r| / (trialForce kt sh).norm),
        (trialForce kt sh).c2 * (xmu * |ccel * r| / (trialForce kt sh).norm)⟩ (-(1 / kt))
    simp only [] at hs
    rw [hs, hn, abs_neg, abs_of_pos (one_div_pos.mpr hkt)]
    have : kt * (xmu * |ccel * r| * (1 / kt)) = xmu * |ccel * r| := by
      field_simp
    rw [this]
  · rw [coulombStage_static kt gammat xmu ccel r vtr sh (not_lt.mp h)]
    have hn := norm_trialForce kt sh
    rw [abs_of_pos hkt] at hn
    simp only []
    rw [← hn]
    exact not_lt.mp h

/-- The demo pair contact without shear integration, for any stored shear. -/
theorem demoPair_eval_shear (af : Int) (sh : Vec3 ℝ) :
    (pairContact realMath (demoPairEnv realMath) 0 af 0 1 sh).p =
        ⟨16, 16, Real.sqrt 512, Real.sqrt 512, 1 / 4, 0⟩ ∧
      (pairContact realMath (demoPairEnv realMath) 0 af 0 1 sh).ccel = 48 ∧
      (pairContact realMath (demoPairEnv realMath) 0 af 0 1 sh).r = 1 ∧
      (pairContact realMath (demoPairEnv realMath) 0 af 0 1 sh).vtr = ⟨0, 2, 0⟩ ∧
      (pairContact realMath (demoPairEnv realMath) 0 af 0 1 sh).shearTrial = sh := by
  norm_num [pairContact, demoPairEnv, realMath, deriveContactModelParams,
    dampQuotient, Real.pi_ne_zero, pi_div_neg_pi]

/-- The demo wall contact (sphere 0, `deltan = 3`, `rsq = 1`, `meff_wall = 32`,
normal `(0,0,1)`, resting wall, `area_ratio = 1`), for any stored shear. -/
theorem demoWall_eval (sh : Vec3 ℝ) :
    (wallContact realMath (demoWallEnv realMath) 0 3 1 32 0 0 1 ⟨0, 0, 0⟩ sh 1).p =
        ⟨32, 32, Real.sqrt 2048, Real.sqrt 2048, 1 / 4, 0⟩ ∧
      (wallContact realMath (demoWallEnv realMath) 0 3 1 32 0 0 1 ⟨0, 0, 0⟩ sh 1).ccel = 96 ∧
      (wallContact realMath (demoWallEnv realMath) 0 3 1 32 0 0 1 ⟨0, 0, 0⟩ sh 1).r = 1 ∧
      (wallContact realMath (demoWallEnv realMath) 0 3 1 32 0 0 1 ⟨0, 0, 0⟩ sh 1).vtr = ⟨0, 2, 0⟩ ∧
      (wallContact realMath (demoWallEnv realMath) 0 3 1 32 0 0 1 ⟨0, 0, 0⟩ sh 1).shearTrial = sh := by
  norm_num [wallContact, demoWallEnv, realMath, wallDeriveContactModelParams,
    dampQuotient, Real.pi_ne_zero, pi_div_neg_pi,
    sqrt_four]

/-- The shear that `compute_force` hands back in `c_history`. -/
theorem compute_force_history {α : Type} [LinearOrderedField α] (m : LibM α) (env : WallEnv α)
    (ip : Nat) (deltan rsq meff_wall dx dy dz : α) (vwall ch : Vec3 α) (area_ratio : α)
    (s : WallState α) :
    (compute_force m env ip deltan rsq meff_wall dx dy dz vwall ch area_ratio s).1 =
      (wallContact m env ip deltan rsq meff_wall dx dy dz vwall ch area_ratio).c_history := rfl

/-- The shear the loop body stores for a touching pair. -/
theorem pairBody_shear_touching {α : Type} [LinearOrderedField α] (m : LibM α) (env : PairEnv α)
    (su af : Int) (i jj jraw : Nat) (s : PairState α)
    (ht : pairRsq env i (jraw &&& env.NEIGHMASK) <
      (env.radius i + env.radius (jraw &&& env.NEIGHMASK)) *
        (env.radius i + env.radius (jraw &&& env.NEIGHMASK))) :
    (pairBody m env su af i jj jraw s).shear i jj =
      (pairContact m env su af i (jraw &&& env.NEIGHMASK) (s.shear i jj)).shear := by
  rw [(pairBody_self m env su af i jj jraw s).2, if_neg (not_le.mpr ht)]

/-- The integrated and rotated shear is the tangential part of `shear + vtr*dt`. -/
theorem shearIntegrate_eq {α : Type} [LinearOrderedField α] (vtr del sh : Vec3 α) (dt rsq : α) :
    shearIntegrate vtr dt (1 / rsq) del sh =
      tangentPart ⟨sh.c0 + vtr.c0 * dt, sh.c1 + vtr.c1 * dt, sh.c2 + vtr.c2 * dt⟩ del rsq := by
  simp only [shearIntegrate, tangentPart, Vec3.dot, mul_one_div]

theorem tangentPart_dot {α : Type} [LinearOrderedField α] (u del : Vec3 α) (rsq : α)
    (hrsq : rsq = del.c0 * del.c0 + del.c1 * del.c1 + del.c2 * del.c2) (h0 : rsq ≠ 0) :
    (tangentPart u del rsq).dot del = 0 := by
  simp only [tangentPart, Vec3.dot]
  have e : (u.c0 - (u.c0 * del.c0 + u.c1 * del.c1 + u.c2 * del.c2) / rsq * del.c0) * del.c0 +
      (u.c1 - (u.c0 * del.c0 + u.c1 * del.c1 + u.c2 * del.c2) / rsq * del.c1) * del.c1 +
      (u.c2 - (u.c0 * del.c0 + u.c1 * del.c1 + u.c2 * del.c2) / rsq * del.c2) * del.c2 =
      (u.c0 * del.c0 + u.c1 * del.c1 + u.c2 * del.c2) *
        (1 - (del.c0 * del.c0 + del.c1 * del.c1 + del.c2 * del.c2) / rsq) := by ring
  rw [e, ← hrsq, div_self h0, sub_self, mul_zero]

/-- `coulombStage` keeps the stored shear orthogonal to `del`. -/
theorem coulombStage_shear_dot {α : Type} [LinearOrderedField α] (m : LibM α)
    (kt gammat xmu ccel r : α) (vtr sh del : Vec3 α) (h : sh.dot del = 0) :
    (coulombStage m kt gammat xmu ccel r vtr sh).1.dot del = 0 := by
  unfold coulombStage
  simp only []
  split_ifs
  · simp only [Vec3.dot] at h ⊢
    have e : ∀ k : α, -(-(kt * sh.c0) * k) / kt * del.c0 + -(-(kt * sh.c1) * k) / kt * del.c1 +
        -(-(kt * sh.c2) * k) / kt * del.c2 =
        k / kt * kt * (sh.c0 * del.c0 + sh.c1 * del.c1 + sh.c2 * del.c2) := by
      intro k; ring
    rw [e, h, mul_zero]
  · exact h
  · exact h

theorem pairBody_flags {α : Type} [LinearOrderedField α] (m : LibM α) (env : PairEnv α)
    (su af : Int) (i jj jraw : Nat) (s : PairState α) :
    (pairBody m env su af i jj jraw s).shearupdate = s.shearupdate ∧
      (pairBody m env su af i jj jraw s).laststep = s.laststep := by
  unfold pairBody
  simp only []
  split_ifs <;> exact ⟨rfl, rfl⟩

theorem jloop_flags {α : Type} [LinearOrderedField α] (m : LibM α) (env : PairEnv α)
    (su af : Int) (i : Nat) (js : List Nat) :
    ∀ (jj : Nat) (s : PairState α),
      (jloop m env su af i jj js s).shearupdate = s.shearupdate ∧
        (jloop m env su af i jj js s).laststep = s.laststep := by
  induction js with
  | nil => intro jj s; exact ⟨rfl, rfl⟩
  | cons jraw js ih =>
    intro jj s
    obtain ⟨a, b⟩ := ih (jj + 1) (pairBody m env su af i jj jraw s)
    obtain ⟨c, d⟩ := pairBody_flags m env su af i jj jraw s
    exact ⟨by rw [jloop, a, c], by rw [jloop, b, d]⟩

theorem iloop_flags {α : Type} [LinearOrderedField α] (m : LibM α) (env : PairEnv α)
    (su af : Int) (is : List Nat) :
    ∀ (s : PairState α),
      (iloop m env su af is s).shearupdate = s.shearupdate ∧
        (iloop m env su af is s).laststep = s.laststep := by
  induction is with
  | nil => intro s; exact ⟨rfl, rfl⟩
  | cons i is ih =>
    intro s
    obtain ⟨a, b⟩ := ih (jloop m env su af i 0 (env.firstneigh i) s)
    obtain ⟨c, d⟩ := jloop_flags m env su af i (env.firstneigh i) 0 s
    exact ⟨by rw [iloop, a, c], by rw [iloop, b, d]⟩

theorem compute_eq {α : Type} [LinearOrderedField α] (m : LibM α) (env : PairEnv α)
    (nt af : Int) (s : PairState α) :
    compute m env nt af s =
      { iloop m env (if nt > s.laststep then 1 else 0) af env.ilist
          { s with shearupdate := if nt > s.laststep then 1 else 0 } with laststep := nt } := rfl

theorem addCohesionForce_eq {α : Type} [LinearOrderedField α] (m : LibM α) (env : PairEnv α)
    (ip jp : Nat) (r : α) :
    addCohesionForce m env ip jp r =
      env.cohEnergyDens (env.type ip) (env.type jp) * pairAcont m env ip jp r := rfl

theorem wallAddCohesionForce_eq {α : Type} [LinearOrderedField α] (m : LibM α) (env : WallEnv α)
    (ip : Nat) (r area_ratio : α) :
    wallAddCohesionForce m env ip r area_ratio =
      env.cohEnergyDens (env.type ip) env.atom_type_wall_ * wallAcont m env ip r * area_ratio :=
  rfl

/-- The scalar `ccel` of the pair routine as lines 279-285 compute it. -/
theorem pairContact_ccel {α : Type} [LinearOrderedField α] (m : LibM α) (env : PairEnv α)
    (su af : Int) (i j : Nat) (sh : Vec3 α) :
    (pairContact m env su af i j sh).ccel =
      if env.cohesionflag ≠ 0 then
        (pairContact m env su af i j sh).p.kn * (env.radius i + env.radius j -
            (pairContact m env su af i j sh).r) * (1 / (pairContact m env su af i j sh).r) -
          (pairContact m env su af i j sh).p.gamman *
            ((vectorSubtract3D (env.v i) (env.v j)).dot (pairContact m env su af i j sh).del) *
            (1 / (pairContact m env su af i j sh).rsq) -
          addCohesionForce m env i j (pairContact m env su af i j sh).r *
            (1 / (pairContact m env su af i j sh).r)
      else
        (pairContact m env su af i j sh).p.kn * (env.radius i + env.radius j -
            (pairContact m env su af i j sh).r) * (1 / (pairContact m env su af i j sh).r) -
          (pairContact m env su af i j sh).p.gamman *
            ((vectorSubtract3D (env.v i) (env.v j)).dot (pairContact m env su af i j sh).del) *
            (1 / (pairContact m env su af i j sh).rsq) := rfl

/-- The scalar `ccel` of the wall routine as lines 265-273 compute it. -/
theorem wallContact_ccel {α : Type} [LinearOrderedField α] (m : LibM α) (env : WallEnv α)
    (ip : Nat) (deltan rsq meff_wall dx dy dz : α) (vwall ch : Vec3 α) (area_ratio : α) :
    (wallContact m env ip deltan rsq meff_wall dx dy dz vwall ch area_ratio).ccel =
      if env.cohesionflag ≠ 0 then
        (wallContact m env ip deltan rsq meff_wall dx dy dz vwall ch area_ratio).p.kn *
            (env.radius ip -
              (wallContact m env ip deltan rsq meff_wall dx dy dz vwall ch area_ratio).r) *
            (1 / (wallContact m env ip deltan rsq meff_wall dx dy dz vwall ch area_ratio).r) -
          (wallContact m env ip deltan rsq meff_wall dx dy dz vwall ch area_ratio).p.gamman *
            ((vectorSubtract3D (env.v ip) vwall).dot ⟨dx, dy, dz⟩) * (1 / rsq) -
          wallAddCohesionForce m env ip
              (wallContact m env ip deltan rsq meff_wall dx dy dz vwall ch area_ratio).r
              area_ratio *
            (1 / (wallContact m env ip deltan rsq meff_wall dx dy dz vwall ch area_ratio).r)
      else
        (wallContact m env ip deltan rsq meff_wall dx dy dz vwall ch area_ratio).p.kn *
            (env.radius ip -
              (wallContact m env ip deltan rsq meff_wall dx dy dz vwall ch area_ratio).r) *
            (1 / (wallContact m env ip deltan rsq meff_wall dx dy dz vwall ch area_ratio).r) -
          (wallContact m env ip deltan rsq meff_wall dx dy dz vwall ch area_ratio).p.gamman *
            ((vectorSubtract3D (env.v ip) vwall).dot ⟨dx, dy, dz⟩) * (1 / rsq) := rfl

theorem pairContact_r (env : PairEnv ℝ) (su af : Int) (i j : Nat) (sh : Vec3 ℝ) :
    (pairContact realMath env su af i j sh).r =
      Real.sqrt (pairContact realMath env su af i j sh).rsq := rfl

theorem wallContact_r (env : WallEnv ℝ) (ip : Nat) (deltan rsq meff_wall dx dy dz : ℝ)
    (vwall ch : Vec3 ℝ) (area_ratio : ℝ) :
    (wallContact realMath env ip deltan rsq meff_wall dx dy dz vwall ch area_ratio).r =
      Real.sqrt rsq := rfl

/-- The algebra behind the normal force law: with `r*r = rsq` and `r` non-zero,
`(kn*delta/r - gamman*vnnr/rsq - F/r)*r = kn*delta - gamman*(vnnr/r) - F`. -/
theorem ccel_mul_r {α : Type} [LinearOrderedField α] (kn delta gamman vnnr F r rsq : α)
    (hr : r ≠ 0) (hrsq : r * r = rsq) :
    (kn * delta * (1 / r) - gamman * vnnr * (1 / rsq) - F * (1 / r)) * r =
      kn * delta - gamman * (vnnr / r) - F := by
  subst hrsq
  field_simp
  ring

theorem dot_div {α : Type} [LinearOrderedField α] (a b : Vec3 α) (r : α) :
    a.dot ⟨b.c0 / r, b.c1 / r, b.c2 / r⟩ = a.dot b / r := by
  simp only [Vec3.dot]
  ring

/-- The parameters of the demo pair under the conversion factor 2. -/
theorem convPair_eval :
    (pairContact realMath (convPairEnv realMath) 0 1 0 1 ⟨0, 0, 0⟩).p =
        ⟨8, 8, Real.sqrt 512, Real.sqrt 512, 1 / 4, 0⟩ ∧
      (pairContact realMath (convPairEnv realMath) 0 1 0 1 ⟨0, 0, 0⟩).meff = 16 := by
  norm_num [pairContact, convPairEnv, demoPairEnv, realMath, deriveContactModelParams,
    dampQuotient, Real.pi_ne_zero,
    pi_div_neg_pi]

theorem setAt2_apply {β : Type} (a : Nat → Nat → β) (i jj k l : Nat) (b : β) :
    setAt2 a i jj b k l = if k = i ∧ l = jj then b else a k l := rfl

/-- The loop body of `init_granular` resolves its own entry. -/
theorem initEntry_self {α : Type} [LinearOrderedField α] (m : LibM α) (src : MaterialSources α)
    (rf cf : Int) (i j : Nat) (t : MaterialTables α) :
    entryResolved m src rf cf (initEntry m src rf cf i j t) i j := by
  unfold entryResolved initEntry
  by_cases h1 : rf ≠ 0 <;> by_cases h2 : cf ≠ 0 <;>
    simp [h1, h2, setAt2_self]

/-- The arrays after one pass of the loop body of `init_granular`. -/
theorem initEntry_fields {α : Type} [LinearOrderedField α] (m : LibM α) (src : MaterialSources α)
    (rf cf : Int) (i j : Nat) (t : MaterialTables α) :
    (initEntry m src rf cf i j t).Yeff = setAt2 t.Yeff i j
        (1 / ((1 - m.pow (src.v1 (i - 1)) 2) / src.Y1 (i - 1) +
          (1 - m.pow (src.v1 (j - 1)) 2) / src.Y1 (j - 1))) ∧
      (initEntry m src rf cf i j t).Geff = setAt2 t.Geff i j
        (1 / (2 * (2 - src.v1 (i - 1)) * (1 + src.v1 (i - 1)) / src.Y1 (i - 1) +
          2 * (2 - src.v1 (j - 1)) * (1 + src.v1 (j - 1)) / src.Y1 (j - 1))) ∧
      (initEntry m src rf cf i j t).coeffRestLog =
        setAt2 t.coeffRestLog i j (m.log (src.coeffRest1 (i - 1) (j - 1))) ∧
      (initEntry m src rf cf i j t).betaeff = setAt2 t.betaeff i j
        (m.log (src.coeffRest1 (i - 1) (j - 1)) /
          m.sqrt (m.pow (m.log (src.coeffRest1 (i - 1) (j - 1))) 2 + m.pow m.M_PI 2)) ∧
      (initEntry m src rf cf i j t).coeffFrict =
        setAt2 t.coeffFrict i j (src.coeffFrict1 (i - 1) (j - 1)) ∧
      (initEntry m src rf cf i j t).coeffRollFrict =
        (if rf ≠ 0 then setAt2 t.coeffRollFrict i j (src.coeffRollFrict1 (i - 1) (j - 1))
          else t.coeffRollFrict) ∧
      (initEntry m src rf cf i j t).cohEnergyDens =
        (if cf ≠ 0 then setAt2 t.cohEnergyDens i j (src.cohEnergyDens1 (i - 1) (j - 1))
          else t.cohEnergyDens) ∧
      (initEntry m src rf cf i j t).veff = t.veff ∧
      (initEntry m src rf cf i j t).charVel = t.charVel := by
  unfold initEntry
  by_cases h1 : rf ≠ 0 <;> by_cases h2 : cf ≠ 0 <;> simp [h1, h2, setAt2_self]

/-- The loop body of `init_granular` keeps an entry that is resolved. -/
theorem initEntry_keep {α : Type} [LinearOrderedField α] (m : LibM α) (src : MaterialSources α)
    (rf cf : Int) (i j : Nat) (t : MaterialTables α) (k l : Nat)
    (h : entryResolved m src rf cf t k l) :
    entryResolved m src rf cf (initEntry m src rf cf i j t) k l := by
  by_cases hkl : k = i ∧ l = j
  · obtain ⟨rfl, rfl⟩ := hkl
    exact initEntry_self m src rf cf k l t
  · have ho : ∀ (a : Nat → Nat → α) (b : α), setAt2 a i j b k l = a k l := by
      intro a b
      rw [setAt2_apply, if_neg hkl]
    obtain ⟨f1, f2, f3, f4, f5, f6, f7, -, -⟩ := initEntry_fields m src rf cf i j t
    obtain ⟨a1, a2, a3, a4, a5, a6, a7⟩ := h
    refine ⟨by rw [f1, ho]; exact a1, by rw [f2, ho]; exact a2, by rw [f3, ho]; exact a3,
      by rw [f4, ho]; exact a4, by rw [f5, ho]; exact a5, fun h1 => ?_, fun h2 => ?_⟩
    · rw [f6, if_pos h1, ho]; exact a6 h1
    · rw [f7, if_pos h2, ho]; exact a7 h2

theorem initJLoop_keep {α : Type} [LinearOrderedField α] (m : LibM α) (src : MaterialSources α)
    (rf cf : Int) (i : Nat) (js : List Nat) :
    ∀ (t : MaterialTables α) (k l : Nat), entryResolved m src rf cf t k l →
      entryResolved m src rf cf (initJLoop m src rf cf i js t) k l := by
  induction js with
  | nil => intro t k l h; exact h
  | cons j js ih =>
    intro t k l h
    rw [initJLoop]
    exact ih _ k l (initEntry_keep m src rf cf i j t k l h)

theorem initJLoop_resolved {α : Type} [LinearOrderedField α] (m : LibM α)
    (src : MaterialSources α) (rf cf : Int) (i : Nat) (js : List Nat) :
    ∀ (t : MaterialTables α) (l : Nat), l ∈ js →
      entryResolved m src rf cf (initJLoop m src rf cf i js t) i l := by
  induction js with
  | nil => intro t l h; simp at h
  | cons j js ih =>
    intro t l h
    rw [initJLoop]
    rcases List.mem_cons.mp h with h | h
    · subst h
      exact initJLoop_keep m src rf cf i js _ i l (initEntry_self m src rf cf i l t)
    · exact ih _ l h

theorem initILoop_keep {α : Type} [LinearOrderedField α] (m : LibM α) (src : MaterialSources α)
    (rf cf : Int) (js is : List Nat) :
    ∀ (t : MaterialTables α) (k l : Nat), entryResolved m src rf cf t k l →
      entryResolved m src rf cf (initILoop m src rf cf js is t) k l := by
  induction is with
  | nil => intro t k l h; exact h
  | cons i is ih =>
    intro t k l h
    rw [initILoop]
    exact ih _ k l (initJLoop_keep m src rf cf i js t k l h)

theorem initILoop_resolved {α : Type} [LinearOrderedField α] (m : LibM α)
    (src : MaterialSources α) (rf cf : Int) (js is : List Nat) :
    ∀ (t : MaterialTables α) (k l : Nat), k ∈ is → l ∈ js →
      entryResolved m src rf cf (initILoop m src rf cf js is t) k l := by
  induction is with
  | nil => intro t k l h; simp at h
  | cons i is ih =>
    intro t k l hk hl
    rw [initILoop]
    rcases List.mem_cons.mp hk with h | h
    · subst h
      exact initILoop_keep m src rf cf js is _ k l (initJLoop_resolved m src rf cf k js t l hl)
    · exact ih _ k l h hl

/-- After `init_granular` every entry with both types in `1..max_type` is
resolved. -/
theorem init_granular_resolved {α : Type} [LinearOrderedField α] (m : LibM α)
    (src : MaterialSources α) (rf cf cvf : Int) (t : MaterialTables α) (k l : Nat)
    (hk1 : 1 ≤ k) (hk2 : k ≤ src.max_type) (hl1 : 1 ≤ l) (hl2 : l ≤ src.max_type) :
    entryResolved m src rf cf (init_granular m src rf cf cvf t) k l := by
  have hk : k ∈ List.range' 1 src.max_type := by
    rw [List.mem_range'_1]; omega
  have hl : l ∈ List.range' 1 src.max_type := by
    rw [List.mem_range'_1]; omega
  have h := initILoop_resolved m src rf cf (List.range' 1 src.max_type)
    (List.range' 1 src.max_type) t k l hk hl
  unfold init_granular
  simp only []
  split_ifs
  · exact h
  · exact h

/-- `deriveContactModelParams` gives the same `kn, kt, gamman, gammat, xmu` for
`(ip,jp)` and `(jp,ip)` when the three arrays it reads agree on the two type
orders. -/
theorem derive_swap {α : Type} [LinearOrderedField α] (m : LibM α) (env : PairEnv α)
    (ip jp : Nat) (meff deltan rmu : α)
    (hY : env.Yeff (env.type ip) (env.type jp) = env.Yeff (env.type jp) (env.type ip))
    (hR : env.coeffRestLog (env.type ip) (env.type jp) =
      env.coeffRestLog (env.type jp) (env.type ip))
    (hF : env.coeffFrict (env.type ip) (env.type jp) =
      env.coeffFrict (env.type jp) (env.type ip)) :
    (deriveContactModelParams m env ip jp meff deltan rmu).kn =
        (deriveContactModelParams m env jp ip meff deltan rmu).kn ∧
      (deriveContactModelParams m env ip jp meff deltan rmu).kt =
        (deriveContactModelParams m env jp ip meff deltan rmu).kt ∧
      (deriveContactModelParams m env ip jp meff deltan rmu).gamman =
        (deriveContactModelParams m env jp ip meff deltan rmu).gamman ∧
      (deriveContactModelParams m env ip jp meff deltan rmu).gammat =
        (deriveContactModelParams m env jp ip meff deltan rmu).gammat ∧
      (deriveContactModelParams m env ip jp meff deltan rmu).xmu =
        (deriveContactModelParams m env jp ip meff deltan rmu).xmu := by
  have hreff : env.radius ip * env.radius jp / (env.radius ip + env.radius jp) =
      env.radius jp * env.radius ip / (env.radius jp + env.radius ip) := by
    rw [mul_comm, add_comm]
  simp only [deriveContactModelParams, hY, hR, hF, hreff, and_self]

theorem allowedValues_cons (k v : String) (rest : List (String × String)) :
    allowedValues ((k, v) :: rest) ↔
      ((k = "cohesion" → v = "sjkr" ∨ v = "off") ∧
        (k = "rolling_friction" → v = "cdt" ∨ v = "off") ∧
        (k = "tangential_damping" → v = "on" ∨ v = "off")) ∧ allowedValues rest := by
  unfold allowedValues
  rw [List.forall_mem_cons]

theorem overrideFlags_nil (fl : PairFlags) : overrideFlags [] fl = fl := rfl

/-- One keyword/value pair in front: the flags are first updated by the pair,
then overridden by the rest. -/
theorem overrideFlags_cons_cohesion (v : String) (rest : List (String × String))
    (fl : PairFlags) :
    overrideFlags (("cohesion", v) :: rest) fl =
      overrideFlags rest { fl with cohesionflag := if v = "sjkr" then 1 else 0 } := by
  simp only [overrideFlags, lastValue]
  have h1 : ("cohesion" = "tangential_damping") = False := by decide
  have h2 : ("cohesion" = "rolling_friction") = False := by decide
  simp only [h1, h2, if_false, if_true]
  cases lastValue rest "tangential_damping" <;> cases lastValue rest "rolling_friction" <;>
    cases lastValue rest "cohesion" <;> rfl

theorem overrideFlags_cons_rolling (v : String) (rest : List (String × String))
    (fl : PairFlags) :
    overrideFlags (("rolling_friction", v) :: rest) fl =
      overrideFlags rest { fl with rollingflag := if v = "cdt" then 1 else 0 } := by
  simp only [overrideFlags, lastValue]
  have h1 : ("rolling_friction" = "tangential_damping") = False := by decide
  have h2 : ("rolling_friction" = "cohesion") = False := by decide
  simp only [h1, h2, if_false, if_true]
  cases lastValue rest "tangential_damping" <;> cases lastValue rest "rolling_friction" <;>
    cases lastValue rest "cohesion" <;> rfl

theorem overrideFlags_cons_damping (v : String) (rest : List (String × String))
    (fl : PairFlags) :
    overrideFlags (("tangential_damping", v) :: rest) fl =
      overrideFlags rest { fl with dampflag := if v = "on" then 1 else 0 } := by
  simp only [overrideFlags, lastValue]
  have h1 : ("tangential_damping" = "rolling_friction") = False := by decide
  have h2 : ("tangential_damping" = "cohesion") = False := by decide
  simp only [h1, h2, if_false, if_true]
  cases lastValue rest "tangential_damping" <;> cases lastValue rest "rolling_friction" <;>
    cases lastValue rest "cohesion" <;> rfl

/-- The loop of `settings` on a list of known keywords with their values: it
returns the overridden flags when every value is allowed and aborts with one of
the three value errors otherwise. -/
theorem settingsLoop_flatten (pm : Bool) (pairs : List (String × String)) :
    ∀ fl : PairFlags, knownKeywords pairs →
      (allowedValues pairs →
        settingsLoop pm (flattenArgs pairs) fl = Except.ok (overrideFlags pairs fl)) ∧
      (¬ allowedValues pairs →
        ∃ e, settingsLoop pm (flattenArgs pairs) fl = Except.error e ∧
          (e = SettingsError.cohesionValue ∨ e = SettingsError.rollingValue ∨
            e = SettingsError.dampingValue)) := by
  induction pairs with
  | nil =>
    intro fl _
    refine ⟨fun _ => rfl, fun h => absurd ?_ h⟩
    intro p hp
    simp at hp
  | cons p rest ih =>
    obtain ⟨k, v⟩ := p
    intro fl hk
    have hk' : knownKeywords rest := fun q hq => hk q (List.mem_cons_of_mem _ hq)
    have hkv : k = "cohesion" ∨ k = "rolling_friction" ∨ k = "tangential_damping" :=
      hk (k, v) (List.mem_cons_self _ _)
    have d1 : ("rolling_friction" = "cohesion") = False := by decide
    have d2 : ("tangential_damping" = "cohesion") = False := by decide
    have d3 : ("tangential_damping" = "rolling_friction") = False := by decide
    have d4 : ("cohesion" = "rolling_friction") = False := by decide
    have d5 : ("cohesion" = "tangential_damping") = False := by decide
    have d6 : ("rolling_friction" = "tangential_damping") = False := by decide
    rw [allowedValues_cons]
    rcases hkv with rfl | rfl | rfl
    · by_cases h1 : v = "sjkr"
      · have hl : settingsLoop pm (flattenArgs (("cohesion", v) :: rest)) fl =
            settingsLoop pm (flattenArgs rest) { fl with cohesionflag := 1 } := by
          simp [flattenArgs, settingsLoop, h1]
        have ho := overrideFlags_cons_cohesion v rest fl
        rw [if_pos h1] at ho
        rw [hl, ho]
        obtain ⟨a, b⟩ := ih { fl with cohesionflag := 1 } hk'
        exact ⟨fun h => a h.2, fun h => b (fun hr => h ⟨⟨fun _ => Or.inl h1, fun e => by
          rw [d4] at e; exact e.elim, fun e => by rw [d5] at e; exact e.elim⟩, hr⟩)⟩
      · by_cases h2 : v = "off"
        · have hl : settingsLoop pm (flattenArgs (("cohesion", v) :: rest)) fl =
              settingsLoop pm (flattenArgs rest) { fl with cohesionflag := 0 } := by
            simp [flattenArgs, settingsLoop, h2]
          have ho := overrideFlags_cons_cohesion v rest fl
          rw [if_neg h1] at ho
          rw [hl, ho]
          obtain ⟨a, b⟩ := ih { fl with cohesionflag := 0 } hk'
          exact ⟨fun h => a h.2, fun h => b (fun hr => h ⟨⟨fun _ => Or.inr h2, fun e => by
            rw [d4] at e; exact e.elim, fun e => by rw [d5] at e; exact e.elim⟩, hr⟩)⟩
        · have hl : settingsLoop pm (flattenArgs (("cohesion", v) :: rest)) fl =
              Except.error SettingsError.cohesionValue := by
            simp [flattenArgs, settingsLoop, h1, h2]
          rw [hl]
          refine ⟨fun h => ?_, fun _ => ⟨_, rfl, Or.inl rfl⟩⟩
          rcases h.1.1 rfl with h | h
          · exact absurd h h1
          · exact absurd h h2
    · by_cases h1 : v = "cdt"
      · have hl : settingsLoop pm (flattenArgs (("rolling_friction", v) :: rest)) fl =
            settingsLoop pm (flattenArgs rest) { fl with rollingflag := 1 } := by
          simp [flattenArgs, settingsLoop, h1]
        have ho := overrideFlags_cons_rolling v rest fl
        rw [if_pos h1] at ho
        rw [hl, ho]
        obtain ⟨a, b⟩ := ih { fl with rollingflag := 1 } hk'
        exact ⟨fun h => a h.2, fun h => b (fun hr => h ⟨⟨fun e => by
          rw [d1] at e; exact e.elim, fun _ => Or.inl h1, fun e => by
          rw [d6] at e; exact e.elim⟩, hr⟩)⟩
      · by_cases h2 : v = "off"
        · have hl : settingsLoop pm (flattenArgs (("rolling_friction", v) :: rest)) fl =
              settingsLoop pm (flattenArgs rest) { fl with rollingflag := 0 } := by
            simp [flattenArgs, settingsLoop, h2]
          have ho := overrideFlags_cons_rolling v rest fl
          rw [if_neg h1] at ho
          rw [hl, ho]
          obtain ⟨a, b⟩ := ih { fl with rollingflag := 0 } hk'
          exact ⟨fun h => a h.2, fun h => b (fun hr => h ⟨⟨fun e => by
            rw [d1] at e; exact e.elim, fun _ => Or.inr h2, fun e => by
            rw [d6] at e; exact e.elim⟩, hr⟩)⟩
        · have hl : settingsLoop pm (flattenArgs (("rolling_friction", v) :: rest)) fl =
              Except.error SettingsError.rollingValue := by
            simp [flattenArgs, settingsLoop, h1, h2]
          rw [hl]
          refine ⟨fun h => ?_, fun _ => ⟨_, rfl, Or.inr (Or.inl rfl)⟩⟩
          rcases h.1.2.1 rfl with h | h
          · exact absurd h h1
          · exact absurd h h2
    · by_cases h1 : v = "on"
      · have hl : settingsLoop pm (flattenArgs (("tangential_damping", v) :: rest)) fl =
            settingsLoop pm (flattenArgs rest) { fl with dampflag := 1 } := by
          simp [flattenArgs, settingsLoop, h1]
        have ho := overrideFlags_cons_damping v rest fl
        rw [if_pos h1] at ho
        rw [hl, ho]
        obtain ⟨a, b⟩ := ih { fl with dampflag := 1 } hk'
        exact ⟨fun h => a h.2, fun h => b (fun hr => h ⟨⟨fun e => by
          rw [d2] at e; exact e.elim, fun e => by rw [d3] at e; exact e.elim,
          fun _ => Or.inl h1⟩, hr⟩)⟩
      · by_cases h2 : v = "off"
        · have hl : settingsLoop pm (flattenArgs (("tangential_damping", v) :: rest)) fl =
              settingsLoop pm (flattenArgs rest) { fl with dampflag := 0 } := by
            simp [flattenArgs, settingsLoop, h2]
          have ho := overrideFlags_cons_damping v rest fl
          rw [if_neg h1] at ho
          rw [hl, ho]
          obtain ⟨a, b⟩ := ih { fl with dampflag := 0 } hk'
          exact ⟨fun h => a h.2, fun h => b (fun hr => h ⟨⟨fun e => by
            rw [d2] at e; exact e.elim, fun e => by rw [d3] at e; exact e.elim,
            fun _ => Or.inr h2⟩, hr⟩)⟩
        · have hl : settingsLoop pm (flattenArgs (("tangential_damping", v) :: rest)) fl =
              Except.error SettingsError.dampingValue := by
            simp [flattenArgs, settingsLoop, h1, h2]
          rw [hl]
          refine ⟨fun h => ?_, fun _ => ⟨_, rfl, Or.inr (Or.inr rfl)⟩⟩
          rcases h.1.2.2 rfl with h | h
          · exact absurd h h1
          · exact absurd h h2

theorem overrideFlags_cohesionflag (pairs : List (String × String)) :
    (overrideFlags pairs ⟨1, 0, 0⟩).cohesionflag = 0 ∨
      (overrideFlags pairs ⟨1, 0, 0⟩).cohesionflag = 1 := by
  simp only [overrideFlags]
  cases lastValue pairs "cohesion" with
  | none => exact Or.inl rfl
  | some v =>
    by_cases h : v = "sjkr"
    · right; simp [h]
    · left; simp [h]

theorem sqrt_225 : Real.sqrt 225 = 15 := by
  rw [show (225 : ℝ) = 15 ^ 2 by norm_num, Real.sqrt_sq (by norm_num)]

/-- The rolling torque of the spinning demo wall sphere. -/
theorem spinWall_r_torque (area_ratio : ℝ) :
    (wallContact realMath (spinWallEnv realMath) 0 3 1 32 0 0 1 ⟨0, 0, 0⟩ ⟨0, 0, 0⟩
      area_ratio).r_torque = ⟨8, 16, 0⟩ := by
  norm_num [wallContact, spinWallEnv, demoWallEnv, realMath, wallDeriveContactModelParams,
    dampQuotient, Real.pi_ne_zero,
    pi_div_neg_pi, vectorSubtract3D, removeNormalPart, sqrt_225, sqrt_four]

/-- The accumulators after `compute_force` in direct-integration mode. -/
theorem compute_force_direct {α : Type} [LinearOrderedField α] (m : LibM α) (env : WallEnv α)
    (ip : Nat) (deltan rsq meff_wall dx dy dz : α) (vwall ch : Vec3 α) (area_ratio : α)
    (s : WallState α) (h : env.addflag_ ≠ 0) :
    (compute_force m env ip deltan rsq meff_wall dx dy dz vwall ch area_ratio s).2.f =
        setAt s.f ip
          ⟨(s.f ip).c0 + (wallContact m env ip deltan rsq meff_wall dx dy dz vwall ch
              area_ratio).force.c0 * area_ratio,
            (s.f ip).c1 + (wallContact m env ip deltan rsq meff_wall dx dy dz vwall ch
              area_ratio).force.c1 * area_ratio,
            (s.f ip).c2 + (wallContact m env ip deltan rsq meff_wall dx dy dz vwall ch
              area_ratio).force.c2 * area_ratio⟩ ∧
      (compute_force m env ip deltan rsq meff_wall dx dy dz vwall ch area_ratio s).2.torque =
        setAt s.torque ip
          ⟨(s.torque ip).c0 -
              ((wallContact m env ip deltan rsq meff_wall dx dy dz vwall ch area_ratio).cr *
                (wallContact m env ip deltan rsq meff_wall dx dy dz vwall ch area_ratio).tor.c0 *
                  area_ratio +
                (wallContact m env ip deltan rsq meff_wall dx dy dz vwall ch
                  area_ratio).r_torque.c0),
            (s.torque ip).c1 -
              ((wallContact m env ip deltan rsq meff_wall dx dy dz vwall ch area_ratio).cr *
                (wallContact m env ip deltan rsq meff_wall dx dy dz vwall ch area_ratio).tor.c1 *
                  area_ratio +
                (wallContact m env ip deltan rsq meff_wall dx dy dz vwall ch
                  area_ratio).r_torque.c1),
            (s.torque ip).c2 -
              ((wallContact m env ip deltan rsq meff_wall dx dy dz vwall ch area_ratio).cr *
                (wallContact m env ip deltan rsq meff_wall dx dy dz vwall ch area_ratio).tor.c2 *
                  area_ratio +
                (wallContact m env ip deltan rsq meff_wall dx dy dz vwall ch
                  area_ratio).r_torque.c2)⟩ := by
  constructor <;> simp [compute_force, h]

/-- With rolling friction off the wall routine holds a zero rolling torque. -/
theorem wallContact_r_torque_off {α : Type} [LinearOrderedField α] (m : LibM α)
    (env : WallEnv α) (ip : Nat) (deltan rsq meff_wall dx dy dz : α) (vwall ch : Vec3 α)
    (area_ratio : α) (h : env.rollingflag = 0) :
    (wallContact m env ip deltan rsq meff_wall dx dy dz vwall ch area_ratio).r_torque =
      ⟨0, 0, 0⟩ := by
  simp [wallContact, h, vectorZeroize3D]

/-- The unweighted contact force of the wall routine. -/
theorem wallContact_force {α : Type} [LinearOrderedField α] (m : LibM α) (env : WallEnv α)
    (ip : Nat) (deltan rsq meff_wall dx dy dz : α) (vwall ch : Vec3 α) (area_ratio : α) :
    (wallContact m env ip deltan rsq meff_wall dx dy dz vwall ch area_ratio).force =
      ⟨dx * (wallContact m env ip deltan rsq meff_wall dx dy dz vwall ch area_ratio).ccel +
          (wallContact m env ip deltan rsq meff_wall dx dy dz vwall ch area_ratio).fs.c0,
        dy * (wallContact m env ip deltan rsq meff_wall dx dy dz vwall ch area_ratio).ccel +
          (wallContact m env ip deltan rsq meff_wall dx dy dz vwall ch area_ratio).fs.c1,
        dz * (wallContact m env ip deltan rsq meff_wall dx dy dz vwall ch area_ratio).ccel +
          (wallContact m env ip deltan rsq meff_wall dx dy dz vwall ch area_ratio).fs.c2⟩ := rfl

/-- The normal force law of the pair routine: for `r > 0`,
`ccel*r = kn*deltan - gamman*((v_rel . del)/r) - Fn_coh`. -/
theorem pair_normal_force (env : PairEnv ℝ) (su af : Int) (i j : Nat) (sh : Vec3 ℝ)
    (hr : 0 < (pairContact realMath env su af i j sh).r) :
    (pairContact realMath env su af i j sh).ccel * (pairContact realMath env su af i j sh).r =
      (pairContact realMath env su af i j sh).p.kn *
          (pairContact realMath env su af i j sh).deltan -
        (pairContact realMath env su af i j sh).p.gamman *
          ((vectorSubtract3D (env.v i) (env.v j)).dot (pairContact realMath env su af i j sh).del /
            (pairContact realMath env su af i j sh).r) -
        (if env.cohesionflag ≠ 0 then
          env.cohEnergyDens (env.type i) (env.type j) *
            pairAcont realMath env i j (pairContact realMath env su af i j sh).r
        else 0) := by
  have hrsq : (pairContact realMath env su af i j sh).r *
      (pairContact realMath env su af i j sh).r = (pairContact realMath env su af i j sh).rsq := by
    rw [pairContact_r]
    exact Real.mul_self_sqrt (by
      rw [pairContact_rsq]
      exact add_nonneg (add_nonneg (mul_self_nonneg _) (mul_self_nonneg _))
        (mul_self_nonneg _))
  rw [pairContact_ccel realMath env su af i j sh]
  by_cases hco : env.cohesionflag ≠ 0
  · simp only [if_pos hco, addCohesionForce_eq]
    exact ccel_mul_r _ _ _ _ _ _ _ hr.ne' hrsq
  · simp only [if_neg hco]
    have h := ccel_mul_r (pairContact realMath env su af i j sh).p.kn
      (env.radius i + env.radius j - (pairContact realMath env su af i j sh).r)
      (pairContact realMath env su af i j sh).p.gamman
      ((vectorSubtract3D (env.v i) (env.v j)).dot (pairContact realMath env su af i j sh).del) 0
      (pairContact realMath env su af i j sh).r (pairContact realMath env su af i j sh).rsq
      hr.ne' hrsq
    simpa using h

theorem pairContact_del {α : Type} [LinearOrderedField α] (m : LibM α) (env : PairEnv α)
    (su af : Int) (i j : Nat) (sh : Vec3 α) :
    (pairContact m env su af i j sh).del =
      ⟨(env.x i).c0 - (env.x j).c0, (env.x i).c1 - (env.x j).c1, (env.x i).c2 - (env.x j).c2⟩ :=
  rfl

/-- Moving the atoms does not change the contact model parameters. -/
theorem placeAt_params {α : Type} [LinearOrderedField α] (m : LibM α) (env : PairEnv α)
    (su af : Int) (i j : Nat) (u : Vec3 α) (delta : α) (sh : Vec3 α) :
    (pairContact m (placeAt env i j u delta) su af i j sh).p =
      (pairContact m env su af i j sh).p := rfl

/-- Geometry of the placed pair: `del = (radsum - delta)*u`. -/
theorem placeAt_del {α : Type} [LinearOrderedField α] (m : LibM α) (env : PairEnv α)
    (su af : Int) (i j : Nat) (u : Vec3 α) (delta : α) (sh : Vec3 α) (hij : i ≠ j) :
    (pairContact m (placeAt env i j u delta) su af i j sh).del =
      ⟨(env.radius i + env.radius j - delta) * u.c0, (env.radius i + env.radius j - delta) * u.c1,
        (env.radius i + env.radius j - delta) * u.c2⟩ := by
  rw [pairContact_del]
  have hji : ¬ j = i := fun h => hij h.symm
  simp only [placeAt, if_true, if_neg hji, Vec3.mk.injEq]
  refine ⟨by ring, by ring, by ring⟩

/-- Geometry of the placed pair for a unit direction and an overlap below the
sum of radii: `r = radsum - delta`. -/
theorem placeAt_r (env : PairEnv ℝ) (su af : Int) (i j : Nat) (u : Vec3 ℝ) (delta : ℝ)
    (sh : Vec3 ℝ) (hij : i ≠ j) (hu : u.dot u = 1)
    (hd : delta < env.radius i + env.radius j) :
    (pairContact realMath (placeAt env i j u delta) su af i j sh).r =
      env.radius i + env.radius j - delta := by
  rw [pairContact_r, pairContact_rsq, placeAt_del realMath env su af i j u delta sh hij]
  have e : (Vec3.mk ((env.radius i + env.radius j - delta) * u.c0)
      ((env.radius i + env.radius j - delta) * u.c1)
      ((env.radius i + env.radius j - delta) * u.c2)).dot
      ⟨(env.radius i + env.radius j - delta) * u.c0, (env.radius i + env.radius j - delta) * u.c1,
        (env.radius i + env.radius j - delta) * u.c2⟩ =
      (env.radius i + env.radius j - delta) ^ 2 * u.dot u := by
    simp only [Vec3.dot]
    ring
  rw [e, hu, mul_one, Real.sqrt_sq (by linarith)]

/-- The normal force of the placed pair as a function of the overlap. -/
theorem placeAt_normal_force (env : PairEnv ℝ) (su af : Int) (i j : Nat) (u : Vec3 ℝ)
    (delta : ℝ) (sh : Vec3 ℝ) (hij : i ≠ j) (hu : u.dot u = 1)
    (hd : delta < env.radius i + env.radius j) :
    (pairContact realMath (placeAt env i j u delta) su af i j sh).ccel *
        (pairContact realMath (placeAt env i j u delta) su af i j sh).r =
      (pairContact realMath env su af i j sh).p.kn * delta -
        (pairContact realMath env su af i j sh).p.gamman *
          ((vectorSubtract3D (env.v i) (env.v j)).dot u) -
        (if env.cohesionflag ≠ 0 then
          env.cohEnergyDens (env.type i) (env.type j) *
            pairAcont realMath env i j (env.radius i + env.radius j - delta)
        else 0) := by
  have hr := placeAt_r env su af i j u delta sh hij hu hd
  have hpos : 0 < (pairContact realMath (placeAt env i j u delta) su af i j sh).r := by
    rw [hr]; linarith
  have h := pair_normal_force (placeAt env i j u delta) su af i j sh hpos
  have hdel := placeAt_del realMath env su af i j u delta sh hij
  have hdn : (pairContact realMath (placeAt env i j u delta) su af i j sh).deltan =
      env.radius i + env.radius j -
        (pairContact realMath (placeAt env i j u delta) su af i j sh).r := rfl
  have hv : (placeAt env i j u delta).v = env.v := rfl
  have hc : (placeAt env i j u delta).cohesionflag = env.cohesionflag := rfl
  have hce : (placeAt env i j u delta).cohEnergyDens = env.cohEnergyDens := rfl
  have hty : (placeAt env i j u delta).type = env.type := rfl
  have hA : ∀ r : ℝ, pairAcont realMath (placeAt env i j u delta) i j r =
      pairAcont realMath env i j r := fun _ => rfl
  rw [h, placeAt_params, hdn, hdel, hr, hv, hc, hce, hty, hA]
  have hne : env.radius i + env.radius j - delta ≠ 0 := by linarith
  have e1 : (vectorSubtract3D (env.v i) (env.v j)).dot
      ⟨(env.radius i + env.radius j - delta) * u.c0, (env.radius i + env.radius j - delta) * u.c1,
        (env.radius i + env.radius j - delta) * u.c2⟩ / (env.radius i + env.radius j - delta) =
      (vectorSubtract3D (env.v i) (env.v j)).dot u := by
    simp only [Vec3.dot]
    field_simp
    ring
  rw [e1]
  ring

/-- The pair contact area vanishes at first touch and is continuous there. -/
theorem pairAcont_continuousAt (env : PairEnv ℝ) (i j : Nat)
    (hR : 0 < env.radius i + env.radius j) :
    ContinuousAt (fun delta : ℝ => pairAcont realMath env i j
      (env.radius i + env.radius j - delta)) 0 ∧
    pairAcont realMath env i j (env.radius i + env.radius j - 0) = 0 := by
  constructor
  · simp only [pairAcont]
    apply ContinuousAt.div
    · exact Continuous.continuousAt (by fun_prop)
    · exact Continuous.continuousAt (by fun_prop)
    · simp only [sub_zero]
      exact (mul_pos hR hR).ne'
  · simp only [pairAcont]
    have e : env.radius i + env.radius j - 0 - env.radius i - env.radius j = 0 := by ring
    rw [e]
    simp

/-- Limit of the normal force magnitude at first touch: as the overlap tends to
0 from above along a fixed line of centres, `|ccel*r|` tends to
`|gamman*(v_rel . u)|`. -/
theorem placeAt_tendsto (env : PairEnv ℝ) (su af : Int) (i j : Nat) (u : Vec3 ℝ)
    (sh : Vec3 ℝ) (hij : i ≠ j) (hu : u.dot u = 1) (hR : 0 < env.radius i + env.radius j) :
    Filter.Tendsto
      (fun delta : ℝ => |(pairContact realMath (placeAt env i j u delta) su af i j sh).ccel *
        (pairContact realMath (placeAt env i j u delta) su af i j sh).r|)
      (nhdsWithin 0 (Set.Ioi 0))
      (nhds |(pairContact realMath env su af i j sh).p.gamman *
        ((vectorSubtract3D (env.v i) (env.v j)).dot u)|) := by
  obtain ⟨hAc, hA0⟩ := pairAcont_continuousAt env i j hR
  have hG : ContinuousAt (fun delta : ℝ =>
      (pairContact realMath env su af i j sh).p.kn * delta -
        (pairContact realMath env su af i j sh).p.gamman *
          ((vectorSubtract3D (env.v i) (env.v j)).dot u) -
        (if env.cohesionflag ≠ 0 then
          env.cohEnergyDens (env.type i) (env.type j) *
            pairAcont realMath env i j (env.radius i + env.radius j - delta)
        else 0)) 0 := by
    apply ContinuousAt.sub
    · exact Continuous.continuousAt (by fun_prop)
    · by_cases hco : env.cohesionflag ≠ 0
      · simp only [if_pos hco]
        exact continuousAt_const.mul hAc
      · simp only [if_neg hco]
        exact continuousAt_const
  have hlim := (hG.abs).tendsto.mono_left
    (nhdsWithin_le_nhds : nhdsWithin (0 : ℝ) (Set.Ioi 0) ≤ nhds 0)
  have hval : |(pairContact realMath env su af i j sh).p.kn * 0 -
        (pairContact realMath env su af i j sh).p.gamman *
          ((vectorSubtract3D (env.v i) (env.v j)).dot u) -
        (if env.cohesionflag ≠ 0 then
          env.cohEnergyDens (env.type i) (env.type j) *
            pairAcont realMath env i j (env.radius i + env.radius j - 0)
        else 0)| = |(pairContact realMath env su af i j sh).p.gamman *
        ((vectorSubtract3D (env.v i) (env.v j)).dot u)| := by
    rw [hA0, mul_zero, mul_zero, ite_self, sub_zero, zero_sub, abs_neg]
  simp only [] at hlim
  rw [hval] at hlim
  refine hlim.congr' ?_
  have hmem : Set.Ioo (0 : ℝ) (env.radius i + env.radius j) ∈ nhdsWithin (0 : ℝ) (Set.Ioi 0) :=
    Ioo_mem_nhdsWithin_Ioi (Set.left_mem_Ico.mpr hR)
  filter_upwards [hmem] with delta hdelta
  rw [placeAt_normal_force env su af i j u delta sh hij hu hdelta.2]

/-- The damping coefficient of the head-on demo pair, at any position. -/
theorem headOn_gamman (su af : Int) (sh : Vec3 ℝ) :
    (pairContact realMath (headOnEnv realMath) su af 0 1 sh).p =
      ⟨16, 16, Real.sqrt 512, Real.sqrt 512, 1 / 4, 0⟩ := by
  norm_num [pairContact, headOnEnv, demoPairEnv, realMath, deriveContactModelParams,
    dampQuotient, Real.pi_ne_zero,
    pi_div_neg_pi]

theorem headOn_vrel :
    (vectorSubtract3D ((headOnEnv realMath).v 0) ((headOnEnv realMath).v 1)).dot ⟨1, 0, 0⟩ =
      -1 := by
  norm_num [vectorSubtract3D, Vec3.dot, headOnEnv, demoPairEnv]

/-- The rolling torque the pair routine holds, in terms of the torque before
the projection. -/
theorem pairContact_r_torque {α : Type} [LinearOrderedField α] (m : LibM α) (env : PairEnv α)
    (su af : Int) (i j : Nat) (sh : Vec3 α) :
    (pairContact m env su af i j sh).r_torque =
      if env.rollingflag ≠ 0 then
        if vectorMag3D m (vectorSubtract3D (env.omega i) (env.omega j)) > 0 then
          removeNormalPart
            (pairRollTorque m env i j (pairContact m env su af i j sh).p.rmu
              (pairContact m env su af i j sh).p.kn (pairContact m env su af i j sh).deltan)
            (pairContact m env su af i j sh).del (1 / (pairContact m env su af i j sh).rsq)
        else vectorZeroize3D
      else vectorZeroize3D := rfl

/-- The rolling torque the wall routine holds, in terms of the torque before
the projection. -/
theorem wallContact_r_torque {α : Type} [LinearOrderedField α] (m : LibM α) (env : WallEnv α)
    (ip : Nat) (deltan rsq meff_wall dx dy dz : α) (vwall ch : Vec3 α) (area_ratio : α) :
    (wallContact m env ip deltan rsq meff_wall dx dy dz vwall ch area_ratio).r_torque =
      if env.rollingflag ≠ 0 then
        if wallWrmag m env ip deltan
            (wallContact m env ip deltan rsq meff_wall dx dy dz vwall ch area_ratio).r > 0 then
          removeNormalPart
            (wallRollTorque m env ip
              (wallContact m env ip deltan rsq meff_wall dx dy dz vwall ch area_ratio).p.rmu
              (wallContact m env ip deltan rsq meff_wall dx dy dz vwall ch area_ratio).p.kn deltan
              (wallContact m env ip deltan rsq meff_wall dx dy dz vwall ch area_ratio).r)
            ⟨dx, dy, dz⟩ (1 / rsq)
        else vectorZeroize3D
      else vectorZeroize3D := rfl

/-- Length of the pair rolling torque before the projection. -/
theorem pairRollTorque_norm (env : PairEnv ℝ) (i j : Nat) (rmu kn deltan : ℝ)
    (hw : 0 < vectorMag3D realMath (vectorSubtract3D (env.omega i) (env.omega j))) :
    (pairRollTorque realMath env i j rmu kn deltan).norm =
      |rmu * kn * deltan * (env.radius i * env.radius j / (env.radius i + env.radius j))| := by
  have hw' : 0 < (vectorSubtract3D (env.omega i) (env.omega j)).norm := hw
  show Vec3.norm ⟨_, _, _⟩ = _
  rw [Vec3.norm_scale]
  show (vectorSubtract3D (env.omega i) (env.omega j)).norm *
    |rmu * kn * deltan * (env.radius i * env.radius j / (env.radius i + env.radius j)) /
      (vectorSubtract3D (env.omega i) (env.omega j)).norm| = _
  rw [abs_div, abs_of_pos hw', mul_div_cancel₀ _ hw'.ne']

/-- Length of the wall rolling torque before the projection. -/
theorem wallRollTorque_norm (env : WallEnv ℝ) (ip : Nat) (rmu kn deltan r : ℝ)
    (hw : 0 < wallWrmag realMath env ip deltan r) :
    (wallRollTorque realMath env ip rmu kn deltan r).norm =
      |rmu * kn * (env.radius ip - r) * (env.radius ip - 1 / 2 * deltan)| := by
  have hw' : 0 < (wallWr env ip deltan r).norm := hw
  have e : wallRollTorque realMath env ip rmu kn deltan r =
      ⟨(wallWr env ip deltan r).c0 * (rmu * kn * (env.radius ip - r) *
          (env.radius ip - 1 / 2 * deltan) / (wallWr env ip deltan r).norm),
        (wallWr env ip deltan r).c1 * (rmu * kn * (env.radius ip - r) *
          (env.radius ip - 1 / 2 * deltan) / (wallWr env ip deltan r).norm),
        (wallWr env ip deltan r).c2 * (rmu * kn * (env.radius ip - r) *
          (env.radius ip - 1 / 2 * deltan) / (wallWr env ip deltan r).norm)⟩ := by
    show Vec3.mk _ _ _ = _
    simp only [Vec3.mk.injEq]
    refine ⟨?_, ?_, ?_⟩ <;>
    · show _ / (wallWr env ip deltan r).norm * _ = _
      ring
  rw [e, Vec3.norm_scale, abs_div, abs_of_pos hw', mul_div_cancel₀ _ hw'.ne']

/-- The spinning demo pair: parameters, overlap and length of the relative spin. -/
theorem spinPair_eval (su af : Int) (sh : Vec3 ℝ) :
    (pairContact realMath (spinPairEnv realMath) su af 0 1 sh).p =
        ⟨16, 16, Real.sqrt 512, Real.sqrt 512, 1 / 4, 1 / 10⟩ ∧
      (pairContact realMath (spinPairEnv realMath) su af 0 1 sh).deltan = 3 ∧
      vectorMag3D realMath (vectorSubtract3D ((spinPairEnv realMath).omega 0)
        ((spinPairEnv realMath).omega 1)) = 3 := by
  norm_num [pairContact, spinPairEnv, demoPairEnv, realMath, deriveContactModelParams,
    dampQuotient, Real.pi_ne_zero,
    pi_div_neg_pi, vectorSubtract3D, vectorMag3D, sqrt_nine]

/-- The spinning demo wall sphere: parameters, centre distance, contact radius
and length of `(wr1,wr2,wr3)`. -/
theorem spinWall_eval (sh : Vec3 ℝ) (area_ratio : ℝ) :
    (wallContact realMath (spinWallEnv realMath) 0 3 1 32 0 0 1 ⟨0, 0, 0⟩ sh area_ratio).p =
        ⟨32, 32, Real.sqrt 2048, Real.sqrt 2048, 1 / 4, 1 / 10⟩ ∧
      (wallContact realMath (spinWallEnv realMath) 0 3 1 32 0 0 1 ⟨0, 0, 0⟩ sh area_ratio).r = 1 ∧
      (wallContact realMath (spinWallEnv realMath) 0 3 1 32 0 0 1 ⟨0, 0, 0⟩ sh area_ratio).cr =
        5 / 2 ∧
      wallWrmag realMath (spinWallEnv realMath) 0 3 1 = 15 / 2 := by
  norm_num [wallContact, spinWallEnv, demoWallEnv, realMath, wallDeriveContactModelParams,
    dampQuotient, Real.pi_ne_zero,
    pi_div_neg_pi, wallWrmag, wallWr, sqrt_225, sqrt_four]

/-- The relative tangential velocity `(vtr1,vtr2,vtr3)` of the pair routine as
lines 229-253 and 289-291 compute it. -/
theorem pairContact_vtr {α : Type} [LinearOrderedField α] (m : LibM α) (env : PairEnv α)
    (su af : Int) (i j : Nat) (sh : Vec3 α) :
    (pairContact m env su af i j sh).vtr =
      ⟨((vectorSubtract3D (env.v i) (env.v j)).c0 -
          (pairContact m env su af i j sh).del.c0 *
            ((vectorSubtract3D (env.v i) (env.v j)).dot (pairContact m env su af i j sh).del) *
            (1 / (pairContact m env su af i j sh).rsq)) -
        ((pairContact m env su af i j sh).del.c2 *
            (((pairContact m env su af i j sh).cri * (env.omega i).c1 +
              (pairContact m env su af i j sh).crj * (env.omega j).c1) *
              (1 / (pairContact m env su af i j sh).r)) -
          (pairContact m env su af i j sh).del.c1 *
            (((pairContact m env su af i j sh).cri * (env.omega i).c2 +
              (pairContact m env su af i j sh).crj * (env.omega j).c2) *
              (1 / (pairContact m env su af i j sh).r))),
       ((vectorSubtract3D (env.v i) (env.v j)).c1 -
          (pairContact m env su af i j sh).del.c1 *
            ((vectorSubtract3D (env.v i) (env.v j)).dot (pairContact m env su af i j sh).del) *
            (1 / (pairContact m env su af i j sh).rsq)) -
        ((pairContact m env su af i j sh).del.c0 *
            (((pairContact m env su af i j sh).cri * (env.omega i).c2 +
              (pairContact m env su af i j sh).crj * (env.omega j).c2) *
              (1 / (pairContact m env su af i j sh).r)) -
          (pairContact m env su af i j sh).del.c2 *
            (((pairContact m env su af i j sh).cri * (env.omega i).c0 +
              (pairContact m env su af i j sh).crj * (env.omega j).c0) *
              (1 / (pairContact m env su af i j sh).r))),
       ((vectorSubtract3D (env.v i) (env.v j)).c2 -
          (pairContact m env su af i j sh).del.c2 *
            ((vectorSubtract3D (env.v i) (env.v j)).dot (pairContact m env su af i j sh).del) *
            (1 / (pairContact m env su af i j sh).rsq)) -
        ((pairContact m env su af i j sh).del.c1 *
            (((pairContact m env su af i j sh).cri * (env.omega i).c0 +
              (pairContact m env su af i j sh).crj * (env.omega j).c0) *
              (1 / (pairContact m env su af i j sh).r)) -
          (pairContact m env su af i j sh).del.c0 *
            (((pairContact m env su af i j sh).cri * (env.omega i).c1 +
              (pairContact m env su af i j sh).crj * (env.omega j).c1) *
              (1 / (pairContact m env su af i j sh).r)))⟩ := rfl

/-- The lever-arm radii `cri`, `crj` of the pair routine (lines 248-250). -/
theorem pairContact_cr {α : Type} [LinearOrderedField α] (m : LibM α) (env : PairEnv α)
    (su af : Int) (i j : Nat) (sh : Vec3 α) :
    (pairContact m env su af i j sh).deltan =
        env.radius i + env.radius j - (pairContact m env su af i j sh).r ∧
      (pairContact m env su af i j sh).cri =
        env.radius i - 1 / 2 * (pairContact m env su af i j sh).deltan ∧
      (pairContact m env su af i j sh).crj =
        env.radius j - 1 / 2 * (pairContact m env su af i j sh).deltan := ⟨rfl, rfl, rfl⟩

/-- The vector `(tor1,tor2,tor3)` of the pair routine (lines 354-356). -/
theorem pairContact_tor {α : Type} [LinearOrderedField α] (m : LibM α) (env : PairEnv α)
    (su af : Int) (i j : Nat) (sh : Vec3 α) :
    (pairContact m env su af i j sh).tor =
      ⟨1 / (pairContact m env su af i j sh).r *
          ((pairContact m env su af i j sh).del.c1 * (pairContact m env su af i j sh).fs.c2 -
            (pairContact m env su af i j sh).del.c2 * (pairContact m env su af i j sh).fs.c1),
        1 / (pairContact m env su af i j sh).r *
          ((pairContact m env su af i j sh).del.c2 * (pairContact m env su af i j sh).fs.c0 -
            (pairContact m env su af i j sh).del.c0 * (pairContact m env su af i j sh).fs.c2),
        1 / (pairContact m env su af i j sh).r *
          ((pairContact m env su af i j sh).del.c0 * (pairContact m env su af i j sh).fs.c1 -
            (pairContact m env su af i j sh).del.c1 * (pairContact m env su af i j sh).fs.c0)⟩ := rfl

/-- The force `(fx,fy,fz)` of the pair routine (lines 350-352). -/
theorem pairContact_force {α : Type} [LinearOrderedField α] (m : LibM α) (env : PairEnv α)
    (su af : Int) (i j : Nat) (sh : Vec3 α) :
    (pairContact m env su af i j sh).force =
      ⟨(pairContact m env su af i j sh).del.c0 * (pairContact m env su af i j sh).ccel +
          (pairContact m env su af i j sh).fs.c0,
        (pairContact m env su af i j sh).del.c1 * (pairContact m env su af i j sh).ccel +
          (pairContact m env su af i j sh).fs.c1,
        (pairContact m env su af i j sh).del.c2 * (pairContact m env su af i j sh).ccel +
          (pairContact m env su af i j sh).fs.c2⟩ := rfl

theorem Vec3.norm_zero : Vec3.norm ⟨0, 0, 0⟩ = 0 := by
  simp [Vec3.norm]

/-- With zero shear and zero tangential velocity the Coulomb stage returns zero
shear and zero force, whichever branch it takes. -/
theorem coulombStage_zero (kt gammat xmu ccel r : ℝ) :
    coulombStage realMath kt gammat xmu ccel r ⟨0, 0, 0⟩ ⟨0, 0, 0⟩ = (⟨0, 0, 0⟩, ⟨0, 0, 0⟩) := by
  rw [coulombStage_real]
  have ht : trialForce kt (⟨0, 0, 0⟩ : Vec3 ℝ) = ⟨0, 0, 0⟩ := by simp [trialForce]
  rw [ht]
  by_cases h : Vec3.norm ⟨0, 0, 0⟩ > xmu * |ccel * r|
  · rw [if_pos h, if_neg (by rw [Vec3.norm_zero]; simp)]
  · rw [if_neg h]
    simp

theorem shearIntegrate_zero {α : Type} [LinearOrderedField α] (dt rsqinv : α) (del : Vec3 α) :
    shearIntegrate ⟨0, 0, 0⟩ dt rsqinv del ⟨0, 0, 0⟩ = ⟨0, 0, 0⟩ := by
  simp [shearIntegrate]

/-- A sum of three real squares that vanishes has vanishing terms. -/
theorem sq_sum_zero (a b c : ℝ) (h : a * a + b * b + c * c = 0) : a = 0 ∧ b = 0 ∧ c = 0 := by
  have ha := mul_self_nonneg a
  have hb := mul_self_nonneg b
  have hc := mul_self_nonneg c
  refine ⟨?_, ?_, ?_⟩ <;> · apply mul_self_eq_zero.mp; linarith

/-- Head-on contact: with the relative velocity a multiple of `del` and no
spin, the relative tangential velocity is zero. -/
theorem pairContact_vtr_headOn (env : PairEnv ℝ) (su af : Int) (i j : Nat) (sh : Vec3 ℝ)
    (lam : ℝ)
    (hv : vectorSubtract3D (env.v i) (env.v j) =
      vectorScalarMult3D (vectorSubtract3D (env.x i) (env.x j)) lam)
    (hoi : env.omega i = ⟨0, 0, 0⟩) (hoj : env.omega j = ⟨0, 0, 0⟩) :
    (pairContact realMath env su af i j sh).vtr = ⟨0, 0, 0⟩ := by
  rw [pairContact_vtr, hv, hoi, hoj, pairContact_rsq]
  have hd : (pairContact realMath env su af i j sh).del = vectorSubtract3D (env.x i) (env.x j) :=
    rfl
  rw [hd]
  generalize vectorSubtract3D (env.x i) (env.x j) = d
  simp only [vectorScalarMult3D, Vec3.dot, Vec3.mk.injEq]
  by_cases h0 : d.c0 * d.c0 + d.c1 * d.c1 + d.c2 * d.c2 = 0
  · obtain ⟨h1, h2, h3⟩ := sq_sum_zero _ _ _ h0
    simp [h1, h2, h3]
  · refine ⟨?_, ?_, ?_⟩ <;> · field_simp; ring

/-- A non-negative multiple of `w`, with its part along `del` removed, has a
non-negative dot product with `w`. -/
theorem removeNormalPart_dot_self (w del : Vec3 ℝ) (k rsq : ℝ) (hk : 0 ≤ k)
    (hrsq : rsq = del.c0 * del.c0 + del.c1 * del.c1 + del.c2 * del.c2) :
    0 ≤ (removeNormalPart (vectorScalarMult3D w k) del (1 / rsq)).dot w := by
  have e : (removeNormalPart (vectorScalarMult3D w k) del (1 / rsq)).dot w =
      k * ((w.c0 * w.c0 + w.c1 * w.c1 + w.c2 * w.c2) -
        (w.c0 * del.c0 + w.c1 * del.c1 + w.c2 * del.c2) ^ 2 * (1 / rsq)) := by
    simp only [removeNormalPart, vectorScalarMult3D, vectorSubtract3D, Vec3.dot]
    ring
  rw [e]
  apply mul_nonneg hk
  have hcs : (w.c0 * del.c0 + w.c1 * del.c1 + w.c2 * del.c2) ^ 2 ≤
      (w.c0 * w.c0 + w.c1 * w.c1 + w.c2 * w.c2) * rsq := by
    rw [hrsq]
    nlinarith [sq_nonneg (w.c0 * del.c1 - w.c1 * del.c0), sq_nonneg (w.c0 * del.c2 - w.c2 * del.c0),
      sq_nonneg (w.c1 * del.c2 - w.c2 * del.c1)]
  have hww : 0 ≤ w.c0 * w.c0 + w.c1 * w.c1 + w.c2 * w.c2 :=
    add_nonneg (add_nonneg (mul_self_nonneg _) (mul_self_nonneg _)) (mul_self_nonneg _)
  have hr0 : 0 ≤ rsq := by
    rw [hrsq]
    exact add_nonneg (add_nonneg (mul_self_nonneg _) (mul_self_nonneg _)) (mul_self_nonneg _)
  rcases hr0.eq_or_lt with h0 | hpos
  · rw [← h0]
    simpa using hww
  · rw [sub_nonneg, mul_one_div, div_le_iff₀ hpos]
    exact hcs

/-- Head-on contact from zero stored shear: zero shear, tangential force,
tangential torque and rolling torque, and the force is `ccel*del`. -/
theorem pairContact_headOn (env : PairEnv ℝ) (su af : Int) (i j : Nat) (lam : ℝ)
    (hv : vectorSubtract3D (env.v i) (env.v j) =
      vectorScalarMult3D (vectorSubtract3D (env.x i) (env.x j)) lam)
    (hoi : env.omega i = ⟨0, 0, 0⟩) (hoj : env.omega j = ⟨0, 0, 0⟩) :
    (pairContact realMath env su af i j ⟨0, 0, 0⟩).shear = ⟨0, 0, 0⟩ ∧
      (pairContact realMath env su af i j ⟨0, 0, 0⟩).fs = ⟨0, 0, 0⟩ ∧
      (pairContact realMath env su af i j ⟨0, 0, 0⟩).tor = ⟨0, 0, 0⟩ ∧
      (pairContact realMath env su af i j ⟨0, 0, 0⟩).r_torque = ⟨0, 0, 0⟩ ∧
      (pairContact realMath env su af i j ⟨0, 0, 0⟩).force =
        ⟨(pairContact realMath env su af i j ⟨0, 0, 0⟩).del.c0 *
            (pairContact realMath env su af i j ⟨0, 0, 0⟩).ccel,
          (pairContact realMath env su af i j ⟨0, 0, 0⟩).del.c1 *
            (pairContact realMath env su af i j ⟨0, 0, 0⟩).ccel,
          (pairContact realMath env su af i j ⟨0, 0, 0⟩).del.c2 *
            (pairContact realMath env su af i j ⟨0, 0, 0⟩).ccel⟩ := by
  have hvtr := pairContact_vtr_headOn env su af i j ⟨0, 0, 0⟩ lam hv hoi hoj
  have htr : (pairContact realMath env su af i j ⟨0, 0, 0⟩).shearTrial = ⟨0, 0, 0⟩ := by
    rw [pairContact_shearTrial, hvtr, shearIntegrate_zero]
    simp
  have hst := pairContact_stage realMath env su af i j ⟨0, 0, 0⟩
  rw [hvtr, htr, coulombStage_zero] at hst
  have hsh : (pairContact realMath env su af i j ⟨0, 0, 0⟩).shear = ⟨0, 0, 0⟩ :=
    congrArg Prod.fst hst
  have hfs : (pairContact realMath env su af i j ⟨0, 0, 0⟩).fs = ⟨0, 0, 0⟩ :=
    congrArg Prod.snd hst
  refine ⟨hsh, hfs, ?_, ?_, ?_⟩
  · rw [pairContact_tor, hfs]
    simp
  · rw [pairContact_r_torque, hoi, hoj]
    have hm : ¬ vectorMag3D realMath (vectorSubtract3D (⟨0, 0, 0⟩ : Vec3 ℝ) ⟨0, 0, 0⟩) > 0 := by
      simp [vectorMag3D, vectorSubtract3D, realMath]
    rw [if_neg hm]
    simp [vectorZeroize3D]
  · rw [pairContact_force, hfs]
    simp

/-- Repulsion: for a touching pair with distinct centres, a positive sum of
radii, cohesion off, `kn > 0`, `gamman >= 0` and `v_rel . del <= 0`, the scalar
`ccel` is positive. -/
theorem pairContact_ccel_pos (env : PairEnv ℝ) (su af : Int) (i j : Nat) (sh : Vec3 ℝ)
    (hcoh : env.cohesionflag = 0)
    (hrsq : 0 < (pairContact realMath env su af i j sh).rsq)
    (ht : (pairContact realMath env su af i j sh).rsq <
      (env.radius i + env.radius j) * (env.radius i + env.radius j))
    (hrad : 0 < env.radius i + env.radius j)
    (hvn : (vectorSubtract3D (env.v i) (env.v j)).dot (pairContact realMath env su af i j sh).del
      ≤ 0)
    (hkn : 0 < (pairContact realMath env su af i j sh).p.kn)
    (hg : 0 ≤ (pairContact realMath env su af i j sh).p.gamman) :
    0 < (pairContact realMath env su af i j sh).ccel := by
  have hr : 0 < (pairContact realMath env su af i j sh).r := by
    rw [pairContact_r]
    exact Real.sqrt_pos.mpr hrsq
  have hlt : (pairContact realMath env su af i j sh).r < env.radius i + env.radius j := by
    rw [pairContact_r, Real.sqrt_lt' hrad, sq]
    exact ht
  rw [pairContact_ccel, if_neg (by simpa using hcoh)]
  have h1 : 0 < (pairContact realMath env su af i j sh).p.kn *
      (env.radius i + env.radius j - (pairContact realMath env su af i j sh).r) *
      (1 / (pairContact realMath env su af i j sh).r) :=
    mul_pos (mul_pos hkn (by linarith)) (one_div_pos.mpr hr)
  have h2 : (pairContact realMath env su af i j sh).p.gamman *
      ((vectorSubtract3D (env.v i) (env.v j)).dot (pairContact realMath env su af i j sh).del) *
      (1 / (pairContact realMath env su af i j sh).rsq) ≤ 0 :=
    mul_nonpos_of_nonpos_of_nonneg (mul_nonpos_of_nonneg_of_nonpos hg hvn)
      (one_div_pos.mpr hrsq).le
  linarith

/-- Over the reals `rsq = r*r` in the pair routine. -/
theorem pairContact_rsq_eq (env : PairEnv ℝ) (su af : Int) (i j : Nat) (sh : Vec3 ℝ) :
    (pairContact realMath env su af i j sh).rsq =
      (pairContact realMath env su af i j sh).r * (pairContact realMath env su af i j sh).r := by
  rw [pairContact_r]
  exact (Real.mul_self_sqrt (by
    rw [pairContact_rsq]
    exact add_nonneg (add_nonneg (mul_self_nonneg _) (mul_self_nonneg _))
      (mul_self_nonneg _))).symm

/-- The algebra behind the relative tangential velocity: the code's
`vt - wr x del` is the part orthogonal to `n = d/r` of the difference of the
contact-point velocities. -/
theorem vtr_identity (vi vj oi oj d : Vec3 ℝ) (r cri crj : ℝ) :
    (Vec3.mk
      (((vectorSubtract3D vi vj).c0 - d.c0 * ((vectorSubtract3D vi vj).dot d) * (1 / (r * r))) -
        (d.c2 * ((cri * oi.c1 + crj * oj.c1) * (1 / r)) -
          d.c1 * ((cri * oi.c2 + crj * oj.c2) * (1 / r))))
      (((vectorSubtract3D vi vj).c1 - d.c1 * ((vectorSubtract3D vi vj).dot d) * (1 / (r * r))) -
        (d.c0 * ((cri * oi.c2 + crj * oj.c2) * (1 / r)) -
          d.c2 * ((cri * oi.c0 + crj * oj.c0) * (1 / r))))
      (((vectorSubtract3D vi vj).c2 - d.c2 * ((vectorSubtract3D vi vj).dot d) * (1 / (r * r))) -
        (d.c1 * ((cri * oi.c0 + crj * oj.c0) * (1 / r)) -
          d.c0 * ((cri * oi.c1 + crj * oj.c1) * (1 / r))))) =
      vectorSubtract3D
        (vectorSubtract3D (vi.add (oi.cross (vectorScalarMult3D (vectorScalarMult3D d (1 / r)) (-cri))))
          (vj.add (oj.cross (vectorScalarMult3D (vectorScalarMult3D d (1 / r)) crj))))
        (vectorScalarMult3D (vectorScalarMult3D d (1 / r))
          ((vectorSubtract3D (vi.add (oi.cross (vectorScalarMult3D (vectorScalarMult3D d (1 / r)) (-cri))))
            (vj.add (oj.cross (vectorScalarMult3D (vectorScalarMult3D d (1 / r)) crj)))).dot
            (vectorScalarMult3D d (1 / r)))) := by
  rw [← one_div_mul_one_div r r]
  generalize 1 / r = q
  simp only [vectorSubtract3D, vectorScalarMult3D, Vec3.add, Vec3.cross, Vec3.dot, Vec3.mk.injEq]
  refine ⟨by ring, by ring, by ring⟩

/-- The torque entries of `i` and `j` after the loop body for a touching pair
of distinct atoms in direct-integration mode with `j < nlocal`. -/
theorem pairBody_torque {α : Type} [LinearOrderedField α] (m : LibM α) (env : PairEnv α)
    (su af : Int) (i jj jraw : Nat) (s : PairState α) (haf : af ≠ 0)
    (hj : jraw &&& env.NEIGHMASK < env.nlocal)
    (ht : pairRsq env i (jraw &&& env.NEIGHMASK) <
      (env.radius i + env.radius (jraw &&& env.NEIGHMASK)) *
        (env.radius i + env.radius (jraw &&& env.NEIGHMASK)))
    (hij : i ≠ jraw &&& env.NEIGHMASK) :
    (pairBody m env su af i jj jraw s).torque i =
        ⟨(s.torque i).c0 -
            ((pairContact m env su af i (jraw &&& env.NEIGHMASK) (s.shear i jj)).cri *
              (pairContact m env su af i (jraw &&& env.NEIGHMASK) (s.shear i jj)).tor.c0 +
              (pairContact m env su af i (jraw &&& env.NEIGHMASK) (s.shear i jj)).r_torque.c0),
          (s.torque i).c1 -
            ((pairContact m env su af i (jraw &&& env.NEIGHMASK) (s.shear i jj)).cri *
              (pairContact m env su af i (jraw &&& env.NEIGHMASK) (s.shear i jj)).tor.c1 +
              (pairContact m env su af i (jraw &&& env.NEIGHMASK) (s.shear i jj)).r_torque.c1),
          (s.torque i).c2 -
            ((pairContact m env su af i (jraw &&& env.NEIGHMASK) (s.shear i jj)).cri *
              (pairContact m env su af i (jraw &&& env.NEIGHMASK) (s.shear i jj)).tor.c2 +
              (pairContact m env su af i (jraw &&& env.NEIGHMASK) (s.shear i jj)).r_torque.c2)⟩ ∧
      (pairBody m env su af i jj jraw s).torque (jraw &&& env.NEIGHMASK) =
        ⟨(s.torque (jraw &&& env.NEIGHMASK)).c0 -
            ((pairContact m env su af i (jraw &&& env.NEIGHMASK) (s.shear i jj)).crj *
              (pairContact m env su af i (jraw &&& env.NEIGHMASK) (s.shear i jj)).tor.c0 -
              (pairContact m env su af i (jraw &&& env.NEIGHMASK) (s.shear i jj)).r_torque.c0),
          (s.torque (jraw &&& env.NEIGHMASK)).c1 -
            ((pairContact m env su af i (jraw &&& env.NEIGHMASK) (s.shear i jj)).crj *
              (pairContact m env su af i (jraw &&& env.NEIGHMASK) (s.shear i jj)).tor.c1 -
              (pairContact m env su af i (jraw &&& env.NEIGHMASK) (s.shear i jj)).r_torque.c1),
          (s.torque (jraw &&& env.NEIGHMASK)).c2 -
            ((pairContact m env su af i (jraw &&& env.NEIGHMASK) (s.shear i jj)).crj *
              (pairContact m env su af i (jraw &&& env.NEIGHMASK) (s.shear i jj)).tor.c2 -
              (pairContact m env su af i (jraw &&& env.NEIGHMASK) (s.shear i jj)).r_torque.c2)⟩ ∧
      (∀ k, k ≠ i → k ≠ jraw &&& env.NEIGHMASK →
        (pairBody m env su af i jj jraw s).torque k = s.torque k) := by
  have hji : jraw &&& env.NEIGHMASK ≠ i := fun h => hij h.symm
  unfold pairBody
  simp only []
  rw [if_neg (not_le.mpr ht)]
  simp only [haf, hj, ne_eq, not_false_eq_true, and_self, if_true, not_true_eq_false, and_false,
    if_false]
  refine ⟨?_, ?_, fun k hki hkj => ?_⟩
  · rw [setAt_other _ _ _ _ hij, setAt_self]
  · rw [setAt_self, setAt_other _ _ _ _ hji]
  · rw [setAt_other _ _ _ _ hkj, setAt_other _ _ _ _ hki]

/-- The code's `cri*tor` is minus the torque of `fs` about the lever arm
`-cri*n`, and `crj*tor` is minus the torque of `-fs` about `crj*n`,
`n = d*(1/r)`. -/
theorem lever_arm_cross {α : Type} [LinearOrderedField α] (d fs : Vec3 α) (rinv cr : α) :
    (vectorScalarMult3D (vectorScalarMult3D d rinv) (-cr)).cross fs =
        ⟨-(cr * (rinv * (d.c1 * fs.c2 - d.c2 * fs.c1))),
          -(cr * (rinv * (d.c2 * fs.c0 - d.c0 * fs.c2))),
          -(cr * (rinv * (d.c0 * fs.c1 - d.c1 * fs.c0)))⟩ ∧
      (vectorScalarMult3D (vectorScalarMult3D d rinv) cr).cross fs.neg =
        ⟨-(cr * (rinv * (d.c1 * fs.c2 - d.c2 * fs.c1))),
          -(cr * (rinv * (d.c2 * fs.c0 - d.c0 * fs.c2))),
          -(cr * (rinv * (d.c0 * fs.c1 - d.c1 * fs.c0)))⟩ := by
  simp only [vectorScalarMult3D, Vec3.cross, Vec3.neg, Vec3.mk.injEq]
  refine ⟨⟨by ring, by ring, by ring⟩, ⟨by ring, by ring, by ring⟩⟩

/-- Unfolding of `coulombStageGuarded` over the reals in terms of `trialForce`
and `Vec3.norm`. -/
theorem coulombStageGuarded_real (kt gammat xmu ccel r : ℝ) (vtr sh : Vec3 ℝ) :
    coulombStageGuarded realMath kt gammat xmu ccel r vtr sh =
      if (trialForce kt sh).norm > xmu * |ccel * r| then
        if sh.norm ≠ 0 then
          if (trialForce kt sh).norm = 0 then none
          else
            if kt = 0 then none
            else some
              (⟨-((trialForce kt sh).c0 * (xmu * |ccel * r| / (trialForce kt sh).norm)) / kt,
                -((trialForce kt sh).c1 * (xmu * |ccel * r| / (trialForce kt sh).norm)) / kt,
                -((trialForce kt sh).c2 * (xmu * |ccel * r| / (trialForce kt sh).norm)) / kt⟩,
               ⟨(trialForce kt sh).c0 * (xmu * |ccel * r| / (trialForce kt sh).norm),
                (trialForce kt sh).c1 * (xmu * |ccel * r| / (trialForce kt sh).norm),
                (trialForce kt sh).c2 * (xmu * |ccel * r| / (trialForce kt sh).norm)⟩)
        else some (sh, ⟨0, 0, 0⟩)
      else
        some (sh, ⟨(trialForce kt sh).c0 - gammat * vtr.c0,
          (trialForce kt sh).c1 - gammat * vtr.c1, (trialForce kt sh).c2 - gammat * vtr.c2⟩) := rfl

/-- The division guard of the Coulomb stage: for `kt != 0` no quotient with a
zero divisor is evaluated; with a non-zero shear the divisor `fs` is
`|kt|*shrmag != 0`; a trial force above the limit at zero shear gives zero
force and keeps the shear; for `xmu >= 0` that case does not occur. -/
theorem coulombStage_guard (kt gammat xmu ccel r : ℝ) (vtr sh : Vec3 ℝ) (hkt : kt ≠ 0) :
    coulombStageGuarded realMath kt gammat xmu ccel r vtr sh =
        some (coulombStage realMath kt gammat xmu ccel r vtr sh) ∧
      (sh.norm ≠ 0 →
        (trialForce kt sh).norm = |kt| * sh.norm ∧ (trialForce kt sh).norm ≠ 0) ∧
      ((trialForce kt sh).norm > xmu * |ccel * r| → sh.norm = 0 →
        coulombStage realMath kt gammat xmu ccel r vtr sh = (sh, ⟨0, 0, 0⟩)) ∧
      (0 ≤ xmu → ¬ ((trialForce kt sh).norm > xmu * |ccel * r| ∧ sh.norm = 0)) := by
  have hne : sh.norm ≠ 0 → (trialForce kt sh).norm ≠ 0 := by
    intro h
    rw [norm_trialForce]
    exact mul_ne_zero (abs_ne_zero.mpr hkt) h
  refine ⟨?_, fun h => ⟨norm_trialForce kt sh, hne h⟩, fun h1 h2 => ?_, fun hx h => ?_⟩
  · rw [coulombStageGuarded_real, coulombStage_real]
    by_cases h1 : (trialForce kt sh).norm > xmu * |ccel * r|
    · by_cases h2 : sh.norm ≠ 0
      · rw [if_pos h1, if_pos h2, if_neg (hne h2), if_neg hkt, if_pos h1, if_pos h2]
      · rw [if_pos h1, if_neg h2, if_pos h1, if_neg h2]
    · rw [if_neg h1, if_neg h1]
  · rw [coulombStage_real, if_pos h1, if_neg (not_not.mpr h2)]
  · obtain ⟨h1, h2⟩ := h
    rw [norm_trialForce, h2, mul_zero] at h1
    exact absurd h1 (not_lt.mpr (mul_nonneg hx (abs_nonneg _)))

/-- Negating the shear and the tangential velocity negates both results of the
Coulomb stage. -/
theorem coulombStage_neg {α : Type} [LinearOrderedField α] (m : LibM α)
    (kt gammat xmu ccel r : α) (vtr sh : Vec3 α) :
    coulombStage m kt gammat xmu ccel r vtr.neg sh.neg =
      ((coulombStage m kt gammat xmu ccel r vtr sh).1.neg,
        (coulombStage m kt gammat xmu ccel r vtr sh).2.neg) := by
  have e1 : -sh.c0 * -sh.c0 + -sh.c1 * -sh.c1 + -sh.c2 * -sh.c2 =
      sh.c0 * sh.c0 + sh.c1 * sh.c1 + sh.c2 * sh.c2 := by ring
  have e2 : -(kt * -sh.c0) * -(kt * -sh.c0) + -(kt * -sh.c1) * -(kt * -sh.c1) +
      -(kt * -sh.c2) * -(kt * -sh.c2) =
      -(kt * sh.c0) * -(kt * sh.c0) + -(kt * sh.c1) * -(kt * sh.c1) +
        -(kt * sh.c2) * -(kt * sh.c2) := by ring
  simp only [coulombStage, Vec3.neg, e1, e2]
  by_cases h1 : m.sqrt (-(kt * sh.c0) * -(kt * sh.c0) + -(kt * sh.c1) * -(kt * sh.c1) +
      -(kt * sh.c2) * -(kt * sh.c2)) > xmu * |ccel * r|
  · by_cases h2 : m.sqrt (sh.c0 * sh.c0 + sh.c1 * sh.c1 + sh.c2 * sh.c2) ≠ 0
    · simp only [if_pos h1, if_pos h2, Prod.mk.injEq, Vec3.mk.injEq]
      refine ⟨⟨by ring, by ring, by ring⟩, ⟨by ring, by ring, by ring⟩⟩
    · simp only [if_pos h1, if_neg h2, Prod.mk.injEq, Vec3.mk.injEq, neg_zero, and_self]
  · simp only [if_neg h1, Prod.mk.injEq, Vec3.mk.injEq, true_and, and_self]
    refine ⟨by ring, by ring, by ring⟩

/-- Negating the shear and the tangential velocity and reversing `del` negates
the integrated shear. -/
theorem shearIntegrate_neg {α : Type} [LinearOrderedField α] (vtr del sh : Vec3 α)
    (dt rsqinv : α) :
    shearIntegrate vtr.neg dt rsqinv del.neg sh.neg = (shearIntegrate vtr dt rsqinv del sh).neg := by
  simp only [shearIntegrate, Vec3.neg, Vec3.mk.injEq]
  refine ⟨by ring, by ring, by ring⟩

/-- The model parameters do not depend on the order of the two atoms when the
tables `Yeff`, `coeffRestLog`, `coeffFrict` are symmetric at their types;
`rmu` apart, which needs `coeffRollFrict`. -/
theorem derive_swap_force {α : Type} [LinearOrderedField α] (m : LibM α) (env : PairEnv α)
    (ip jp : Nat) (meff d1 d2 rmu : α)
    (hY : env.Yeff (env.type ip) (env.type jp) = env.Yeff (env.type jp) (env.type ip))
    (hR : env.coeffRestLog (env.type ip) (env.type jp) =
      env.coeffRestLog (env.type jp) (env.type ip))
    (hF : env.coeffFrict (env.type ip) (env.type jp) =
      env.coeffFrict (env.type jp) (env.type ip)) :
    (deriveContactModelParams m env jp ip meff d1 rmu).kn =
        (deriveContactModelParams m env ip jp meff d2 rmu).kn ∧
      (deriveContactModelParams m env jp ip meff d1 rmu).kt =
        (deriveContactModelParams m env ip jp meff d2 rmu).kt ∧
      (deriveContactModelParams m env jp ip meff d1 rmu).gamman =
        (deriveContactModelParams m env ip jp meff d2 rmu).gamman ∧
      (deriveContactModelParams m env jp ip meff d1 rmu).gammat =
        (deriveContactModelParams m env ip jp meff d2 rmu).gammat ∧
      (deriveContactModelParams m env jp ip meff d1 rmu).xmu =
        (deriveContactModelParams m env ip jp meff d2 rmu).xmu := by
  obtain ⟨a, b, c, d, e⟩ := derive_swap m env ip jp meff d2 rmu hY hR hF
  exact ⟨a.symm, b.symm, c.symm, d.symm, e.symm⟩

/-- The effective mass of the pair routine (lines 273-275). -/
theorem pairContact_meff {α : Type} [LinearOrderedField α] (m : LibM α) (env : PairEnv α)
    (su af : Int) (i j : Nat) (sh : Vec3 α) :
    (pairContact m env su af i j sh).meff =
      if env.mask j &&& env.freeze_group_bit ≠ 0 then bodyMass env i
      else if env.mask i &&& env.freeze_group_bit ≠ 0 then bodyMass env j
      else bodyMass env i * bodyMass env j / (bodyMass env i + bodyMass env j) := rfl

/-- With at most one of the two atoms frozen, the effective mass does not
depend on their order. -/
theorem pairContact_meff_swap {α : Type} [LinearOrderedField α] (m : LibM α) (env : PairEnv α)
    (su af : Int) (i j : Nat) (sh sh' : Vec3 α)
    (hfr : ¬ (env.mask i &&& env.freeze_group_bit ≠ 0 ∧ env.mask j &&& env.freeze_group_bit ≠ 0)) :
    (pairContact m env su af j i sh').meff = (pairContact m env su af i j sh).meff := by
  rw [pairContact_meff, pairContact_meff]
  by_cases hi : env.mask i &&& env.freeze_group_bit ≠ 0
  · have hj : ¬ env.mask j &&& env.freeze_group_bit ≠ 0 := fun hj => hfr ⟨hi, hj⟩
    rw [if_pos hi, if_neg hj, if_pos hi]
  · by_cases hj : env.mask j &&& env.freeze_group_bit ≠ 0
    · rw [if_neg hi, if_pos hj, if_pos hj]
    · rw [if_neg hi, if_neg hj, if_neg hj, if_neg hi, mul_comm, add_comm]

/-- The parameters the pair routine holds are those of
`deriveContactModelParams` at its `meff` and `deltan`. -/
theorem pairContact_p {α : Type} [LinearOrderedField α] (m : LibM α) (env : PairEnv α)
    (su af : Int) (i j : Nat) (sh : Vec3 α) :
    (pairContact m env su af i j sh).p =
      deriveContactModelParams m env i j (pairContact m env su af i j sh).meff
        (pairContact m env su af i j sh).deltan env.rmu0 := rfl

/-- `r = sqrt(rsq)` in the pair routine, for any `math.h`. -/
theorem pairContact_r_sqrt {α : Type} [LinearOrderedField α] (m : LibM α) (env : PairEnv α)
    (su af : Int) (i j : Nat) (sh : Vec3 α) :
    (pairContact m env su af i j sh).r = m.sqrt (pairContact m env su af i j sh).rsq := rfl

/-- Geometry of the pair routine with the two atoms exchanged. -/
theorem pairContact_swap_geometry {α : Type} [LinearOrderedField α] (m : LibM α)
    (env : PairEnv α) (su af : Int) (i j : Nat) (sh sh' : Vec3 α) :
    (pairContact m env su af j i sh').del = (pairContact m env su af i j sh).del.neg ∧
      (pairContact m env su af j i sh').rsq = (pairContact m env su af i j sh).rsq ∧
      (pairContact m env su af j i sh').r = (pairContact m env su af i j sh).r ∧
      (pairContact m env su af j i sh').deltan = (pairContact m env su af i j sh).deltan ∧
      (pairContact m env su af j i sh').cri = (pairContact m env su af i j sh).crj ∧
      (pairContact m env su af j i sh').crj = (pairContact m env su af i j sh).cri := by
  have hdel : (pairContact m env su af j i sh').del = (pairContact m env su af i j sh).del.neg := by
    rw [pairContact_del, pairContact_del]
    simp only [Vec3.neg, Vec3.mk.injEq]
    refine ⟨by ring, by ring, by ring⟩
  have hrsq : (pairContact m env su af j i sh').rsq = (pairContact m env su af i j sh).rsq := by
    rw [pairContact_rsq, pairContact_rsq, hdel]
    simp only [Vec3.dot, Vec3.neg]
    ring
  have hr : (pairContact m env su af j i sh').r = (pairContact m env su af i j sh).r := by
    rw [pairContact_r_sqrt, pairContact_r_sqrt, hrsq]
  obtain ⟨a1, a2, a3⟩ := pairContact_cr m env su af i j sh
  obtain ⟨b1, b2, b3⟩ := pairContact_cr m env su af j i sh'
  have hd : (pairContact m env su af j i sh').deltan = (pairContact m env su af i j sh).deltan := by
    rw [a1, b1, hr, add_comm]
  exact ⟨hdel, hrsq, hr, hd, by rw [b2, a3, hd], by rw [b3, a2, hd]⟩

/-- The cohesion force does not depend on the order of the two atoms when the
energy density is symmetric at their types. -/
theorem addCohesionForce_swap {α : Type} [LinearOrderedField α] (m : LibM α) (env : PairEnv α)
    (ip jp : Nat) (r : α)
    (hC : env.cohEnergyDens (env.type ip) (env.type jp) =
      env.cohEnergyDens (env.type jp) (env.type ip)) :
    addCohesionForce m env jp ip r = addCohesionForce m env ip jp r := by
  simp only [addCohesionForce, hC]
  ring

/-- With the two atoms exchanged the relative tangential velocity changes
sign. -/
theorem pairContact_vtr_swap {α : Type} [LinearOrderedField α] (m : LibM α) (env : PairEnv α)
    (su af : Int) (i j : Nat) (sh sh' : Vec3 α) :
    (pairContact m env su af j i sh').vtr = (pairContact m env su af i j sh).vtr.neg := by
  obtain ⟨hdel, hrsq, hr, -, hcri, hcrj⟩ := pairContact_swap_geometry m env su af i j sh sh'
  rw [pairContact_vtr, pairContact_vtr, hdel, hrsq, hr, hcri, hcrj]
  simp only [vectorSubtract3D, Vec3.dot, Vec3.neg, Vec3.mk.injEq]
  refine ⟨by ring, by ring, by ring⟩

/-- With symmetric tables and at most one atom frozen, exchanging the two
atoms leaves `kn`, `kt`, `gamman`, `gammat`, `xmu` and `ccel` unchanged. -/
theorem pairContact_scalars_swap {α : Type} [LinearOrderedField α] (m : LibM α)
    (env : PairEnv α) (su af : Int) (i j : Nat) (sh sh' : Vec3 α)
    (hY : env.Yeff (env.type i) (env.type j) = env.Yeff (env.type j) (env.type i))
    (hR : env.coeffRestLog (env.type i) (env.type j) =
      env.coeffRestLog (env.type j) (env.type i))
    (hF : env.coeffFrict (env.type i) (env.type j) = env.coeffFrict (env.type j) (env.type i))
    (hC : env.cohesionflag ≠ 0 → env.cohEnergyDens (env.type i) (env.type j) =
      env.cohEnergyDens (env.type j) (env.type i))
    (hfr : ¬ (env.mask i &&& env.freeze_group_bit ≠ 0 ∧ env.mask j &&& env.freeze_group_bit ≠ 0)) :
    (pairContact m env su af j i sh').p.kt = (pairContact m env su af i j sh).p.kt ∧
      (pairContact m env su af j i sh').p.gammat = (pairContact m env su af i j sh).p.gammat ∧
      (pairContact m env su af j i sh').p.xmu = (pairContact m env su af i j sh).p.xmu ∧
      (pairContact m env su af j i sh').ccel = (pairContact m env su af i j sh).ccel := by
  obtain ⟨hdel, hrsq, hr, -, -, -⟩ := pairContact_swap_geometry m env su af i j sh sh'
  have hm := pairContact_meff_swap m env su af i j sh sh' hfr
  obtain ⟨hkn, hkt, hgn, hgt, hxmu⟩ := derive_swap_force m env i j
    (pairContact m env su af i j sh).meff (pairContact m env su af j i sh').deltan
    (pairContact m env su af i j sh).deltan env.rmu0 hY hR hF
  have hp := pairContact_p m env su af j i sh'
  rw [hm] at hp
  have hq := pairContact_p m env su af i j sh
  refine ⟨by rw [hp, hq, hkt], by rw [hp, hq, hgt], by rw [hp, hq, hxmu], ?_⟩
  have hkn' : (pairContact m env su af j i sh').p.kn = (pairContact m env su af i j sh).p.kn := by
    rw [hp, hq, hkn]
  have hgn' : (pairContact m env su af j i sh').p.gamman =
      (pairContact m env su af i j sh).p.gamman := by
    rw [hp, hq, hgn]
  have hvn : (vectorSubtract3D (env.v j) (env.v i)).dot (pairContact m env su af i j sh).del.neg =
      (vectorSubtract3D (env.v i) (env.v j)).dot (pairContact m env su af i j sh).del := by
    simp only [vectorSubtract3D, Vec3.dot, Vec3.neg]
    ring
  rw [pairContact_ccel m env su af j i sh', pairContact_ccel m env su af i j sh, hkn', hgn', hdel,
    hrsq, hr, hvn, add_comm (env.radius j) (env.radius i)]
  by_cases hc : env.cohesionflag ≠ 0
  · rw [if_pos hc, if_pos hc, addCohesionForce_swap m env i j _ (hC hc)]
  · rw [if_neg hc, if_neg hc]

/-- The relative tangential velocity `(vtr1,vtr2,vtr3)` of the wall routine as
lines 239-261 and 277-279 compute it. -/
theorem wallContact_vtr {α : Type} [LinearOrderedField α] (m : LibM α) (env : WallEnv α)
    (ip : Nat) (deltan rsq meff_wall dx dy dz : α) (vwall ch : Vec3 α) (area_ratio : α) :
    (wallContact m env ip deltan rsq meff_wall dx dy dz vwall ch area_ratio).vtr =
      ⟨((vectorSubtract3D (env.v ip) vwall).c0 -
          dx * ((vectorSubtract3D (env.v ip) vwall).dot ⟨dx, dy, dz⟩) * (1 / rsq)) -
        (dz * (wallWr env ip deltan
            (wallContact m env ip deltan rsq meff_wall dx dy dz vwall ch area_ratio).r).c1 -
          dy * (wallWr env ip deltan
            (wallContact m env ip deltan rsq meff_wall dx dy dz vwall ch area_ratio).r).c2),
       ((vectorSubtract3D (env.v ip) vwall).c1 -
          dy * ((vectorSubtract3D (env.v ip) vwall).dot ⟨dx, dy, dz⟩) * (1 / rsq)) -
        (dx * (wallWr env ip deltan
            (wallContact m env ip deltan rsq meff_wall dx dy dz vwall ch area_ratio).r).c2 -
          dz * (wallWr env ip deltan
            (wallContact m env ip deltan rsq meff_wall dx dy dz vwall ch area_ratio).r).c0),
       ((vectorSubtract3D (env.v ip) vwall).c2 -
          dz * ((vectorSubtract3D (env.v ip) vwall).dot ⟨dx, dy, dz⟩) * (1 / rsq)) -
        (dy * (wallWr env ip deltan
            (wallContact m env ip deltan rsq meff_wall dx dy dz vwall ch area_ratio).r).c0 -
          dx * (wallWr env ip deltan
            (wallContact m env ip deltan rsq meff_wall dx dy dz vwall ch area_ratio).r).c1)⟩ := rfl

/-- The code's `vt - wr x d` is orthogonal to `d` when `rsq = d.d` is non-zero. -/
theorem vtr_dot {α : Type} [LinearOrderedField α] (vr d w : Vec3 α) (rsq : α)
    (hrsq : rsq = d.c0 * d.c0 + d.c1 * d.c1 + d.c2 * d.c2) (h0 : rsq ≠ 0) :
    (Vec3.mk ((vr.c0 - d.c0 * (vr.dot d) * (1 / rsq)) - (d.c2 * w.c1 - d.c1 * w.c2))
      ((vr.c1 - d.c1 * (vr.dot d) * (1 / rsq)) - (d.c0 * w.c2 - d.c2 * w.c0))
      ((vr.c2 - d.c2 * (vr.dot d) * (1 / rsq)) - (d.c1 * w.c0 - d.c0 * w.c1))).dot d = 0 := by
  simp only [Vec3.dot]
  have e : (vr.c0 - d.c0 * (vr.c0 * d.c0 + vr.c1 * d.c1 + vr.c2 * d.c2) * (1 / rsq) -
        (d.c2 * w.c1 - d.c1 * w.c2)) * d.c0 +
      (vr.c1 - d.c1 * (vr.c0 * d.c0 + vr.c1 * d.c1 + vr.c2 * d.c2) * (1 / rsq) -
        (d.c0 * w.c2 - d.c2 * w.c0)) * d.c1 +
      (vr.c2 - d.c2 * (vr.c0 * d.c0 + vr.c1 * d.c1 + vr.c2 * d.c2) * (1 / rsq) -
        (d.c1 * w.c0 - d.c0 * w.c1)) * d.c2 =
      (vr.c0 * d.c0 + vr.c1 * d.c1 + vr.c2 * d.c2) *
        (1 - (d.c0 * d.c0 + d.c1 * d.c1 + d.c2 * d.c2) * (1 / rsq)) := by ring
  rw [e, ← hrsq, mul_one_div, div_self h0, sub_self, mul_zero]

/-- `coulombStage` returns a tangential force orthogonal to `del` when the
shear entering it and `vtr` are. -/
theorem coulombStage_force_dot {α : Type} [LinearOrderedField α] (m : LibM α)
    (kt gammat xmu ccel r : α) (vtr sh del : Vec3 α) (hs : sh.dot del = 0)
    (hv : vtr.dot del = 0) :
    (coulombStage m kt gammat xmu ccel r vtr sh).2.dot del = 0 := by
  unfold coulombStage
  simp only []
  simp only [Vec3.dot] at hs hv
  split_ifs
  · simp only [Vec3.dot]
    have e : ∀ k : α, -(kt * sh.c0) * k * del.c0 + -(kt * sh.c1) * k * del.c1 +
        -(kt * sh.c2) * k * del.c2 =
        -(kt * k) * (sh.c0 * del.c0 + sh.c1 * del.c1 + sh.c2 * del.c2) := by
      intro k; ring
    rw [e, hs, mul_zero]
  · simp [Vec3.dot]
  · simp only [Vec3.dot]
    have e : (-(kt * sh.c0) - gammat * vtr.c0) * del.c0 +
        (-(kt * sh.c1) - gammat * vtr.c1) * del.c1 + (-(kt * sh.c2) - gammat * vtr.c2) * del.c2 =
        -kt * (sh.c0 * del.c0 + sh.c1 * del.c1 + sh.c2 * del.c2) -
          gammat * (vtr.c0 * del.c0 + vtr.c1 * del.c1 + vtr.c2 * del.c2) := by ring
    rw [e, hs, hv, mul_zero, mul_zero, sub_zero]

/-- The component of `d*ccel + fs` along `d*(1/r)` is `ccel*r` when `fs` is
orthogonal to `d` and `d.d = r*r` with `r` non-zero. -/
theorem normal_component {α : Type} [LinearOrderedField α] (d fs : Vec3 α) (ccel r : α)
    (hfs : fs.dot d = 0) (hdd : d.c0 * d.c0 + d.c1 * d.c1 + d.c2 * d.c2 = r * r) (hr : r ≠ 0) :
    (Vec3.mk (d.c0 * ccel + fs.c0) (d.c1 * ccel + fs.c1) (d.c2 * ccel + fs.c2)).dot
      (vectorScalarMult3D d (1 / r)) = ccel * r := by
  simp only [Vec3.dot, vectorScalarMult3D] at hfs ⊢
  have e : (d.c0 * ccel + fs.c0) * (d.c0 * (1 / r)) + (d.c1 * ccel + fs.c1) * (d.c1 * (1 / r)) +
      (d.c2 * ccel + fs.c2) * (d.c2 * (1 / r)) =
      (ccel * (d.c0 * d.c0 + d.c1 * d.c1 + d.c2 * d.c2) +
        (fs.c0 * d.c0 + fs.c1 * d.c1 + fs.c2 * d.c2)) * (1 / r) := by ring
  rw [e, hfs, hdd, add_zero, mul_one_div, mul_div_assoc, mul_div_cancel_left₀ _ hr]

/-- A real triple of zero length is zero. -/
theorem Vec3.eq_zero_of_norm (a : Vec3 ℝ) (h : a.norm = 0) : a = ⟨0, 0, 0⟩ := by
  have h0 : a.c0 * a.c0 + a.c1 * a.c1 + a.c2 * a.c2 = 0 :=
    (Real.sqrt_eq_zero (add_nonneg (add_nonneg (mul_self_nonneg _) (mul_self_nonneg _))
      (mul_self_nonneg _))).mp h
  obtain ⟨h1, h2, h3⟩ := sq_sum_zero _ _ _ h0
  cases a
  simp only [Vec3.mk.injEq]
  exact ⟨h1, h2, h3⟩

/-- When the trial force exceeds the limit, the shear leaving the Coulomb
stage is `-fs/kt` of the force leaving it. -/
theorem coulombStage_clamp_shear (kt gammat xmu ccel r : ℝ) (vtr sh : Vec3 ℝ)
    (h : (trialForce kt sh).norm > xmu * |ccel * r|) :
    (coulombStage realMath kt gammat xmu ccel r vtr sh).1 =
      ⟨-(coulombStage realMath kt gammat xmu ccel r vtr sh).2.c0 / kt,
        -(coulombStage realMath kt gammat xmu ccel r vtr sh).2.c1 / kt,
        -(coulombStage realMath kt gammat xmu ccel r vtr sh).2.c2 / kt⟩ := by
  rw [coulombStage_real, if_pos h]
  by_cases h2 : sh.norm ≠ 0
  · rw [if_pos h2]
  · rw [if_neg h2, Vec3.eq_zero_of_norm sh (not_not.mp h2)]
    simp

/-- The collector call of the loop body for a touching pair in diagnostic
mode. -/
theorem pairBody_collected {α : Type} [LinearOrderedField α] (m : LibM α) (env : PairEnv α)
    (su : Int) (i jj jraw : Nat) (s : PairState α)
    (ht : pairRsq env i (jraw &&& env.NEIGHMASK) <
      (env.radius i + env.radius (jraw &&& env.NEIGHMASK)) *
        (env.radius i + env.radius (jraw &&& env.NEIGHMASK))) :
    (pairBody m env su 0 i jj jraw s).collected =
      if env.cpl = true then
        s.collected ++ [⟨i, jraw &&& env.NEIGHMASK,
          (pairContact m env su 0 i (jraw &&& env.NEIGHMASK) (s.shear i jj)).force,
          (pairContact m env su 0 i (jraw &&& env.NEIGHMASK) (s.shear i jj)).tor,
          (pairContact m env su 0 i (jraw &&& env.NEIGHMASK) (s.shear i jj)).shear⟩]
      else s.collected := by
  unfold pairBody
  simp only []
  rw [if_neg (not_le.mpr ht)]
  by_cases hc : env.cpl = true <;> simp [hc]

/-- The collector call of `compute_force` in diagnostic mode. -/
theorem compute_force_collected {α : Type} [LinearOrderedField α] (m : LibM α) (env : WallEnv α)
    (ip : Nat) (deltan rsq meff_wall dx dy dz : α) (vwall ch : Vec3 α) (area_ratio : α)
    (s : WallState α) (h : env.addflag_ = 0) :
    (compute_force m env ip deltan rsq meff_wall dx dy dz vwall ch area_ratio s).2.collected =
      if env.cwl_ = true then
        s.collected ++ [WallRecord.wall_2 ip
          (wallContact m env ip deltan rsq meff_wall dx dy dz vwall ch area_ratio).force
          ⟨(wallContact m env ip deltan rsq meff_wall dx dy dz vwall ch area_ratio).tor.c0 *
              area_ratio,
            (wallContact m env ip deltan rsq meff_wall dx dy dz vwall ch area_ratio).tor.c1 *
              area_ratio,
            (wallContact m env ip deltan rsq meff_wall dx dy dz vwall ch area_ratio).tor.c2 *
              area_ratio⟩
          (wallContact m env ip deltan rsq meff_wall dx dy dz vwall ch area_ratio).c_history rsq]
      else s.collected := by
  unfold compute_force
  by_cases hc : env.cwl_ = true <;> simp [h, hc]

/-- The head-on demo pair with restitution 1: no normal damping, so
`ccel = kn*deltan/r = 48`. -/
theorem elasticPair_eval (su af : Int) (sh : Vec3 ℝ) :
    (pairContact realMath (elasticPairEnv realMath) su af 0 1 sh).p.gamman = 0 ∧
      (pairContact realMath (elasticPairEnv realMath) su af 0 1 sh).ccel = 48 := by
  norm_num [pairContact, elasticPairEnv, headOnEnv, demoPairEnv, realMath,
    deriveContactModelParams, dampQuotient]

/-! ## Claims -/

/-- C1 (counterexample): in the demo pair contact (touching, `xmu = 1/4 >= 0`,
`kt = 16 > 0`, tangential damping on, zero stored shear, no integration) the
tangential force entering the net force is `(0, -2*sqrt 512, 0)`, longer than
the Coulomb limit `xmu*|ccel*r| = 12`. -/
theorem C1_counterexample :
    pairRsq (demoPairEnv realMath) 0 1 <
        ((demoPairEnv realMath).radius 0 + (demoPairEnv realMath).radius 1) *
          ((demoPairEnv realMath).radius 0 + (demoPairEnv realMath).radius 1) ∧
      0 ≤ (pairContact realMath (demoPairEnv realMath) 0 1 0 1 ⟨0, 0, 0⟩).p.xmu ∧
      0 < (pairContact realMath (demoPairEnv realMath) 0 1 0 1 ⟨0, 0, 0⟩).p.kt ∧
      ¬ ((pairContact realMath (demoPairEnv realMath) 0 1 0 1 ⟨0, 0, 0⟩).fs.norm ≤
        (pairContact realMath (demoPairEnv realMath) 0 1 0 1 ⟨0, 0, 0⟩).p.xmu *
          |(pairContact realMath (demoPairEnv realMath) 0 1 0 1 ⟨0, 0, 0⟩).ccel *
            (pairContact realMath (demoPairEnv realMath) 0 1 0 1 ⟨0, 0, 0⟩).r|) := by
  obtain ⟨hp, hc, hr, -, hf, -⟩ := demoPair_eval 1
  rw [hp, hc, hr, hf]
  have h22 : (22 : ℝ) ≤ Real.sqrt 512 :=
    (Real.le_sqrt' (by norm_num)).mpr (by norm_num)
  refine ⟨by norm_num [pairRsq, demoPairEnv], by norm_num, by norm_num, ?_⟩
  have hn : Vec3.norm ⟨0, -(Real.sqrt 512 * 2), 0⟩ = Real.sqrt 512 * 2 := by
    have h := Vec3.norm_scale ⟨0, 1, 0⟩ (-(Real.sqrt 512 * 2))
    have h1 : Vec3.norm ⟨0, 1, 0⟩ = 1 := by simp [Vec3.norm]
    rw [h1, abs_neg, abs_of_nonneg (by positivity), one_mul] at h
    simpa using h
  rw [hn]
  norm_num
  linarith

/-- C1 (amended): for every contact evaluated by the pair or the wall routine
with friction coefficient `xmu >= 0`, the tangential force `(fs1,fs2,fs3)` that
enters the net force satisfies `|fs| <= xmu*|ccel*r|` when tangential damping
is off (`dampflag = 0`), has `|fs| = xmu*|ccel*r|` when the trial force
`-kt*shear` exceeds that limit, and in every case satisfies
`|fs| <= xmu*|ccel*r| + |gammat|*|vtr|`. -/
theorem C1_coulomb_bound_damping_off :
    (∀ (env : PairEnv ℝ) (shearupdate addflag : Int) (i j : Nat) (shear : Vec3 ℝ),
      let c := pairContact realMath env shearupdate addflag i j shear
      0 ≤ c.p.xmu →
        (env.dampflag = 0 → c.fs.norm ≤ c.p.xmu * |c.ccel * c.r|) ∧
        ((trialForce c.p.kt c.shearTrial).norm > c.p.xmu * |c.ccel * c.r| →
          c.fs.norm = c.p.xmu * |c.ccel * c.r|) ∧
        c.fs.norm ≤ c.p.xmu * |c.ccel * c.r| + |c.p.gammat| * c.vtr.norm) ∧
    (∀ (env : WallEnv ℝ) (ip : Nat) (deltan rsq meff_wall dx dy dz : ℝ)
        (vwall c_history : Vec3 ℝ) (area_ratio : ℝ),
      let c := wallContact realMath env ip deltan rsq meff_wall dx dy dz vwall c_history area_ratio
      0 ≤ c.p.xmu →
        (env.dampflag = 0 → c.fs.norm ≤ c.p.xmu * |c.ccel * c.r|) ∧
        ((trialForce c.p.kt c.shearTrial).norm > c.p.xmu * |c.ccel * c.r| →
          c.fs.norm = c.p.xmu * |c.ccel * c.r|) ∧
        c.fs.norm ≤ c.p.xmu * |c.ccel * c.r| + |c.p.gammat| * c.vtr.norm) := by
  constructor
  · intro env su af i j sh c hx
    have hst := pairContact_stage realMath env su af i j sh
    have hfs : c.fs = (coulombStage realMath c.p.kt c.p.gammat c.p.xmu c.ccel c.r c.vtr
        c.shearTrial).2 := congrArg Prod.snd hst
    obtain ⟨h1, h2, h3⟩ := coulombStage_force_bound c.p.kt c.p.gammat c.p.xmu c.ccel c.r c.vtr
      c.shearTrial hx
    rw [hfs]
    exact ⟨fun hd => h2 (pair_gammat_of_dampflag realMath env su af i j sh hd), h1, h3⟩
  · intro env ip deltan rsq meff_wall dx dy dz vwall ch ar c hx
    have hst := wallContact_stage realMath env ip deltan rsq meff_wall dx dy dz vwall ch ar
    have hfs : c.fs = (coulombStage realMath c.p.kt c.p.gammat c.p.xmu c.ccel c.r c.vtr
        c.shearTrial).2 := congrArg Prod.snd hst
    obtain ⟨h1, h2, h3⟩ := coulombStage_force_bound c.p.kt c.p.gammat c.p.xmu c.ccel c.r c.vtr
      c.shearTrial hx
    rw [hfs]
    exact ⟨fun hd => h2 (wall_gammat_of_dampflag realMath env ip deltan rsq meff_wall dx dy dz
      vwall ch ar hd), h1, h3⟩

/-- C1 (witness): the demo pair and the demo wall sphere, zero stored shear. -/
theorem C1_coulomb_bound_damping_off_witness :
    (pairContact realMath (demoPairEnv realMath) 0 1 0 1 ⟨0, 0, 0⟩).fs.norm ≤
        (pairContact realMath (demoPairEnv realMath) 0 1 0 1 ⟨0, 0, 0⟩).p.xmu *
          |(pairContact realMath (demoPairEnv realMath) 0 1 0 1 ⟨0, 0, 0⟩).ccel *
            (pairContact realMath (demoPairEnv realMath) 0 1 0 1 ⟨0, 0, 0⟩).r| +
        |(pairContact realMath (demoPairEnv realMath) 0 1 0 1 ⟨0, 0, 0⟩).p.gammat| *
          (pairContact realMath (demoPairEnv realMath) 0 1 0 1 ⟨0, 0, 0⟩).vtr.norm ∧
      (wallContact realMath (demoWallEnv realMath) 0 3 1 32 0 0 1 ⟨0, 0, 0⟩ ⟨0, 0, 0⟩ 1).fs.norm ≤
        (wallContact realMath (demoWallEnv realMath) 0 3 1 32 0 0 1 ⟨0, 0, 0⟩ ⟨0, 0, 0⟩ 1).p.xmu *
          |(wallContact realMath (demoWallEnv realMath) 0 3 1 32 0 0 1 ⟨0, 0, 0⟩ ⟨0, 0, 0⟩ 1).ccel *
            (wallContact realMath (demoWallEnv realMath) 0 3 1 32 0 0 1 ⟨0, 0, 0⟩ ⟨0, 0, 0⟩ 1).r| +
        |(wallContact realMath (demoWallEnv realMath) 0 3 1 32 0 0 1 ⟨0, 0, 0⟩ ⟨0, 0, 0⟩ 1).p.gammat| *
          (wallContact realMath (demoWallEnv realMath) 0 3 1 32 0 0 1 ⟨0, 0, 0⟩ ⟨0, 0, 0⟩ 1).vtr.norm :=
  ⟨(C1_coulomb_bound_damping_off.1 (demoPairEnv realMath) 0 1 0 1 ⟨0, 0, 0⟩
      (by rw [(demoPair_eval_shear 1 ⟨0, 0, 0⟩).1]; norm_num)).2.2,
    (C1_coulomb_bound_damping_off.2 (demoWallEnv realMath) 0 3 1 32 0 0 1 ⟨0, 0, 0⟩ ⟨0, 0, 0⟩ 1
      (by rw [(demoWall_eval ⟨0, 0, 0⟩).1]; norm_num)).2.2⟩

/-- C2: a call of `compute` leaves the stored shear of every listed neighbour
pair with `rsq >= (radi+radj)^2` at exactly `(0,0,0)`, whatever the previous
state, `addflag` and the step counter (hence `shearupdate`) are; and in a run
of `compute` calls at each of which the pair is listed and not touching, the
stored shear is `(0,0,0)` after the first call and after every later one. -/
theorem C2_history_reset {α : Type} [LinearOrderedField α] (m : LibM α) :
    (∀ (env : PairEnv α) (ntimestep addflag : Int) (s : PairState α) (i jj jraw : Nat),
      i ∈ env.ilist → (env.firstneigh i)[jj]? = some jraw →
      pairRsq env i (jraw &&& env.NEIGHMASK) ≥
        (env.radius i + env.radius (jraw &&& env.NEIGHMASK)) *
          (env.radius i + env.radius (jraw &&& env.NEIGHMASK)) →
      (compute m env ntimestep addflag s).shear i jj = ⟨0, 0, 0⟩) ∧
    (∀ (calls : List (PairCall α)) (s : PairState α) (i jj : Nat),
      (∀ c ∈ calls, i ∈ c.env.ilist ∧ ∃ jraw, (c.env.firstneigh i)[jj]? = some jraw ∧
        pairRsq c.env i (jraw &&& c.env.NEIGHMASK) ≥
          (c.env.radius i + c.env.radius (jraw &&& c.env.NEIGHMASK)) *
            (c.env.radius i + c.env.radius (jraw &&& c.env.NEIGHMASK))) →
      ∀ n, 0 < n → n ≤ calls.length →
        (computeSeq m (calls.take n) s).shear i jj = ⟨0, 0, 0⟩) := by
  refine ⟨fun env nt af s i jj jraw hi hj hnt => compute_reset m env nt af s i jj jraw hi hj hnt,
    fun calls s i jj hall n hn hle => ?_⟩
  apply computeSeq_reset m i jj (calls.take n) s
  · intro h
    have hl : (calls.take n).length = 0 := by rw [h]; rfl
    rw [List.length_take] at hl
    omega
  · intro c hc
    exact hall c (List.mem_of_mem_take hc)

/-- C2 (witness): the far-apart demo pair with a non-zero stored shear, one
call and a run of two calls. -/
theorem C2_history_reset_witness :
    (compute realMath (farPairEnv realMath) 1 1
        { (zeroPairState : PairState ℝ) with shear := fun _ _ => ⟨1, 2, 3⟩ }).shear 0 0 = ⟨0, 0, 0⟩ ∧
      (computeSeq realMath
        (List.take 2 [⟨farPairEnv realMath, 1, 1⟩, ⟨farPairEnv realMath, 2, 0⟩])
        { (zeroPairState : PairState ℝ) with shear := fun _ _ => ⟨1, 2, 3⟩ }).shear 0 0 =
          ⟨0, 0, 0⟩ := by
  have hfar : pairRsq (farPairEnv realMath) 0 (1 &&& (farPairEnv realMath).NEIGHMASK) ≥
      ((farPairEnv realMath).radius 0 + (farPairEnv realMath).radius
          (1 &&& (farPairEnv realMath).NEIGHMASK)) *
        ((farPairEnv realMath).radius 0 + (farPairEnv realMath).radius
          (1 &&& (farPairEnv realMath).NEIGHMASK)) := by
    norm_num [pairRsq, farPairEnv, demoPairEnv]
  have hi : 0 ∈ (farPairEnv realMath).ilist := by simp [farPairEnv, demoPairEnv]
  have hj : ((farPairEnv realMath).firstneigh 0)[0]? = some 1 := by
    simp [farPairEnv, demoPairEnv]
  refine ⟨(C2_history_reset realMath).1 _ 1 1 _ 0 0 1 hi hj hfar,
    (C2_history_reset realMath).2 _ _ 0 0 ?_ 2 (by norm_num) (by simp)⟩
  intro c hc
  simp only [List.mem_cons, List.mem_singleton, List.not_mem_nil, or_false] at hc
  rcases hc with h | h <;> subst h <;> exact ⟨hi, 1, hj, hfar⟩

/-- C3: after `compute`, the touch flag of every listed neighbour pair is 1 if
`rsq < (radi+radj)^2` and 0 otherwise; it is the same for every previous
state, step counter and `addflag`; and for a non-negative sum of radii it is 1
exactly when the centre distance `sqrt(rsq)` is below the sum of radii, so an
overlap `radsum - r <= 0` gives touch 0. -/
theorem C3_touch_flag (env : PairEnv ℝ) (ntimestep addflag : Int) (s : PairState ℝ)
    (i jj jraw : Nat) (hi : i ∈ env.ilist) (hj : (env.firstneigh i)[jj]? = some jraw) :
    ((compute realMath env ntimestep addflag s).touch i jj =
      if pairRsq env i (jraw &&& env.NEIGHMASK) <
        (env.radius i + env.radius (jraw &&& env.NEIGHMASK)) *
          (env.radius i + env.radius (jraw &&& env.NEIGHMASK)) then 1 else 0) ∧
    (∀ (ntimestep' addflag' : Int) (s' : PairState ℝ),
      (compute realMath env ntimestep' addflag' s').touch i jj =
        (compute realMath env ntimestep addflag s).touch i jj) ∧
    (0 ≤ env.radius i + env.radius (jraw &&& env.NEIGHMASK) →
      ((compute realMath env ntimestep addflag s).touch i jj = 1 ↔
        Real.sqrt (pairRsq env i (jraw &&& env.NEIGHMASK)) <
          env.radius i + env.radius (jraw &&& env.NEIGHMASK)) ∧
      (env.radius i + env.radius (jraw &&& env.NEIGHMASK) -
          Real.sqrt (pairRsq env i (jraw &&& env.NEIGHMASK)) ≤ 0 →
        (compute realMath env ntimestep addflag s).touch i jj = 0)) := by
  have ht := compute_touch realMath env ntimestep addflag s i jj jraw hi hj
  refine ⟨ht, fun nt' af' s' => ?_, fun hr => ?_⟩
  · rw [ht, compute_touch realMath env nt' af' s' i jj jraw hi hj]
  · have hiff := Real.sqrt_lt (pairRsq_nonneg env i (jraw &&& env.NEIGHMASK)) hr
    rw [sq] at hiff
    constructor
    · rw [ht, hiff]
      constructor
      · intro h
        by_contra hn
        rw [if_neg hn] at h
        exact absurd h (by norm_num)
      · intro h
        rw [if_pos h]
    · intro hov
      have hge : ¬ Real.sqrt (pairRsq env i (jraw &&& env.NEIGHMASK)) <
          env.radius i + env.radius (jraw &&& env.NEIGHMASK) := by
        rw [not_lt]; linarith
      rw [hiff] at hge
      rw [ht, if_neg hge]

/-- C3 (witness): the touching demo pair gets flag 1 from a state holding 0. -/
theorem C3_touch_flag_witness :
    (compute realMath (demoPairEnv realMath) 1 1 zeroPairState).touch 0 0 = 1 := by
  have hi : 0 ∈ (demoPairEnv realMath).ilist := by simp [demoPairEnv]
  have hj : ((demoPairEnv realMath).firstneigh 0)[0]? = some 1 := by simp [demoPairEnv]
  have h := (C3_touch_flag (demoPairEnv realMath) 1 1 zeroPairState 0 0 1 hi hj).1
  rw [h]
  norm_num [pairRsq, demoPairEnv]

/-- C4: for a touching pair processed with `addflag` set and `j < nlocal`, the
loop body adds the contact force `(fx,fy,fz)` to `f[i]` and subtracts the same
vector from `f[j]` (for `i` and `j` distinct), touches no other entry of `f`,
and leaves each component of `f[i] + f[j]` unchanged. -/
theorem C4_newton_third_law {α : Type} [LinearOrderedField α] (m : LibM α) (env : PairEnv α)
    (shearupdate addflag : Int) (i jj jraw : Nat) (s : PairState α) (haf : addflag ≠ 0)
    (hj : jraw &&& env.NEIGHMASK < env.nlocal)
    (ht : pairRsq env i (jraw &&& env.NEIGHMASK) <
      (env.radius i + env.radius (jraw &&& env.NEIGHMASK)) *
        (env.radius i + env.radius (jraw &&& env.NEIGHMASK))) :
    let j := jraw &&& env.NEIGHMASK
    let c := pairContact m env shearupdate addflag i j (s.shear i jj)
    let s' := pairBody m env shearupdate addflag i jj jraw s
    (i ≠ j →
      s'.f i = ⟨(s.f i).c0 + c.force.c0, (s.f i).c1 + c.force.c1, (s.f i).c2 + c.force.c2⟩ ∧
      s'.f j = ⟨(s.f j).c0 - c.force.c0, (s.f j).c1 - c.force.c1, (s.f j).c2 - c.force.c2⟩) ∧
    (∀ k, k ≠ i → k ≠ j → s'.f k = s.f k) ∧
    (s'.f i).c0 + (s'.f j).c0 = (s.f i).c0 + (s.f j).c0 ∧
    (s'.f i).c1 + (s'.f j).c1 = (s.f i).c1 + (s.f j).c1 ∧
    (s'.f i).c2 + (s'.f j).c2 = (s.f i).c2 + (s.f j).c2 := by
  intro j c s'
  have hf : s'.f = _ := pairBody_f m env shearupdate addflag i jj jraw s haf hj ht
  refine ⟨fun hij => ?_, fun k hki hkj => ?_, ?_⟩
  · rw [hf]
    constructor
    · rw [setAt_other _ _ _ _ hij, setAt_self]
    · rw [setAt_self, setAt_other _ _ _ _ (Ne.symm hij)]
  · rw [hf, setAt_other _ _ _ _ hkj, setAt_other _ _ _ _ hki]
  · by_cases hij : i = j
    · have hj' : j = i := hij.symm
      rw [hf]
      simp only [j] at hj' ⊢
      simp only [hj', setAt_self]
      refine ⟨by ring, by ring, by ring⟩
    · rw [hf]
      simp only [setAt_self, setAt_other _ _ _ _ hij, setAt_other _ _ _ _ (Ne.symm hij)]
      refine ⟨by ring, by ring, by ring⟩

/-- C4 (witness): the loop body on the demo pair. -/
theorem C4_newton_third_law_witness :
    ((pairBody realMath (demoPairEnv realMath) 1 1 0 0 1 zeroPairState).f 0).c1 +
      ((pairBody realMath (demoPairEnv realMath) 1 1 0 0 1 zeroPairState).f
        (1 &&& (demoPairEnv realMath).NEIGHMASK)).c1 =
      ((zeroPairState : PairState ℝ).f 0).c1 +
        ((zeroPairState : PairState ℝ).f (1 &&& (demoPairEnv realMath).NEIGHMASK)).c1 :=
  (C4_newton_third_law realMath (demoPairEnv realMath) 1 1 0 0 1 zeroPairState (by decide)
    (by decide) (by norm_num [pairRsq, demoPairEnv])).2.2.2.1

/-- C5: the rolling-resistance torque `r_torque` that `compute` and
`compute_force` hold after the `remove normal part` step (zero when rolling
friction is off or the relative spin vanishes) has zero dot product with the
contact normal: with `(delx,dely,delz)` in the pair routine whenever `rsq > 0`,
and with `(dx,dy,dz)` in the wall routine whenever `rsq > 0` is the squared
length of `(dx,dy,dz)`, as its caller passes it. -/
theorem C5_rolling_torque_orthogonal :
    (∀ (env : PairEnv ℝ) (shearupdate addflag : Int) (i j : Nat) (shear : Vec3 ℝ),
      let c := pairContact realMath env shearupdate addflag i j shear
      0 < c.rsq → c.r_torque.dot c.del = 0) ∧
    (∀ (env : WallEnv ℝ) (ip : Nat) (deltan rsq meff_wall dx dy dz : ℝ)
        (vwall c_history : Vec3 ℝ) (area_ratio : ℝ),
      let c := wallContact realMath env ip deltan rsq meff_wall dx dy dz vwall c_history area_ratio
      0 < rsq → rsq = dx * dx + dy * dy + dz * dz → c.r_torque.dot ⟨dx, dy, dz⟩ = 0) := by
  constructor
  · intro env su af i j sh c h
    have hr : c.rsq = c.del.c0 * c.del.c0 + c.del.c1 * c.del.c1 + c.del.c2 * c.del.c2 := rfl
    show (if env.rollingflag ≠ 0 then
        if vectorMag3D realMath (vectorSubtract3D (env.omega i) (env.omega j)) > 0 then
          removeNormalPart _ c.del (1 / c.rsq)
        else vectorZeroize3D
      else vectorZeroize3D).dot c.del = 0
    by_cases h1 : env.rollingflag ≠ 0
    · by_cases h2 : vectorMag3D realMath (vectorSubtract3D (env.omega i) (env.omega j)) > 0
      · rw [if_pos h1, if_pos h2]
        exact removeNormalPart_dot _ _ _ hr h.ne'
      · rw [if_pos h1, if_neg h2]
        exact zero_dot _
    · rw [if_neg h1]
      exact zero_dot _
  · intro env ip deltan rsq meff_wall dx dy dz vwall ch ar c h hr
    show (if env.rollingflag ≠ 0 then
        if realMath.sqrt (c.cr * (env.omega ip).c0 * (1 / c.r) * (c.cr * (env.omega ip).c0 * (1 / c.r)) +
            c.cr * (env.omega ip).c1 * (1 / c.r) * (c.cr * (env.omega ip).c1 * (1 / c.r)) +
            c.cr * (env.omega ip).c2 * (1 / c.r) * (c.cr * (env.omega ip).c2 * (1 / c.r))) > 0 then
          removeNormalPart _ ⟨dx, dy, dz⟩ (1 / rsq)
        else vectorZeroize3D
      else vectorZeroize3D).dot ⟨dx, dy, dz⟩ = 0
    by_cases h1 : env.rollingflag ≠ 0
    · by_cases h2 : realMath.sqrt (c.cr * (env.omega ip).c0 * (1 / c.r) * (c.cr * (env.omega ip).c0 * (1 / c.r)) +
            c.cr * (env.omega ip).c1 * (1 / c.r) * (c.cr * (env.omega ip).c1 * (1 / c.r)) +
            c.cr * (env.omega ip).c2 * (1 / c.r) * (c.cr * (env.omega ip).c2 * (1 / c.r))) > 0
      · rw [if_pos h1, if_pos h2]
        exact removeNormalPart_dot _ _ _ hr h.ne'
      · rw [if_pos h1, if_neg h2]
        exact zero_dot _
    · rw [if_neg h1]
      exact zero_dot _

/-- C5 (witness): the spinning demo pair, whose rolling torque is
`(0, 16/5, 16/5)`, and the spinning demo wall sphere, rolling friction on. -/
theorem C5_rolling_torque_orthogonal_witness :
    (spinPairEnv realMath).rollingflag ≠ 0 ∧
      (pairContact realMath (spinPairEnv realMath) 1 1 0 1 ⟨0, 0, 0⟩).r_torque =
        ⟨0, 16 / 5, 16 / 5⟩ ∧
      (pairContact realMath (spinPairEnv realMath) 1 1 0 1 ⟨0, 0, 0⟩).r_torque.dot
        (pairContact realMath (spinPairEnv realMath) 1 1 0 1 ⟨0, 0, 0⟩).del = 0 ∧
      (wallContact realMath (spinWallEnv realMath) 0 3 1 32 0 0 1 ⟨0, 0, 0⟩ ⟨0, 0, 0⟩
        1).r_torque.dot ⟨0, 0, 1⟩ = 0 :=
  ⟨by decide, spinPair_r_torque,
    C5_rolling_torque_orthogonal.1 (spinPairEnv realMath) 1 1 0 1 ⟨0, 0, 0⟩
      (by norm_num [pairContact, spinPairEnv, demoPairEnv]),
    C5_rolling_torque_orthogonal.2 (spinWallEnv realMath) 0 3 1 32 0 0 1 ⟨0, 0, 0⟩ ⟨0, 0, 0⟩ 1
      (by norm_num) (by norm_num)⟩

/-- C7: for `xmu >= 0` and `kt > 0`, the shear stored after the evaluation of a
touching pair by the loop body of `compute`, and the shear `compute_force`
leaves in `c_history`, satisfy `kt*|shear| <= xmu*|ccel*r|`, whether or not the
Coulomb rescaling fired and whether or not the shear was integrated. -/
theorem C7_bounded_shear :
    (∀ (env : PairEnv ℝ) (shearupdate addflag : Int) (i jj jraw : Nat) (s : PairState ℝ),
      let j := jraw &&& env.NEIGHMASK
      let c := pairContact realMath env shearupdate addflag i j (s.shear i jj)
      pairRsq env i j < (env.radius i + env.radius j) * (env.radius i + env.radius j) →
      0 ≤ c.p.xmu → 0 < c.p.kt →
        c.p.kt * ((pairBody realMath env shearupdate addflag i jj jraw s).shear i jj).norm ≤
          c.p.xmu * |c.ccel * c.r|) ∧
    (∀ (env : WallEnv ℝ) (ip : Nat) (deltan rsq meff_wall dx dy dz : ℝ)
        (vwall c_history : Vec3 ℝ) (area_ratio : ℝ) (s : WallState ℝ),
      let c := wallContact realMath env ip deltan rsq meff_wall dx dy dz vwall c_history area_ratio
      0 ≤ c.p.xmu → 0 < c.p.kt →
        c.p.kt * ((compute_force realMath env ip deltan rsq meff_wall dx dy dz vwall c_history
          area_ratio s).1).norm ≤ c.p.xmu * |c.ccel * c.r|) := by
  constructor
  · intro env su af i jj jraw s j c ht hx hk
    rw [pairBody_shear_touching realMath env su af i jj jraw s ht,
      pairContact_shear realMath env su af i j (s.shear i jj)]
    exact coulombStage_shear_bound _ _ _ _ _ _ _ hx hk
  · intro env ip deltan rsq meff_wall dx dy dz vwall ch ar s c hx hk
    rw [compute_force_history, wallContact_c_history]
    exact coulombStage_shear_bound _ _ _ _ _ _ _ hx hk

/-- C7 (witness): the demo pair and the demo wall sphere with stored shear
`(0,3,0)`. -/
theorem C7_bounded_shear_witness :
    (pairContact realMath (demoPairEnv realMath) 0 1 0 (1 &&& (demoPairEnv realMath).NEIGHMASK)
          ⟨0, 3, 0⟩).p.kt *
        ((pairBody realMath (demoPairEnv realMath) 0 1 0 0 1
          { (zeroPairState : PairState ℝ) with shear := fun _ _ => ⟨0, 3, 0⟩ }).shear 0 0).norm ≤
      (pairContact realMath (demoPairEnv realMath) 0 1 0 (1 &&& (demoPairEnv realMath).NEIGHMASK)
          ⟨0, 3, 0⟩).p.xmu *
        |(pairContact realMath (demoPairEnv realMath) 0 1 0 (1 &&& (demoPairEnv realMath).NEIGHMASK)
            ⟨0, 3, 0⟩).ccel *
          (pairContact realMath (demoPairEnv realMath) 0 1 0
            (1 &&& (demoPairEnv realMath).NEIGHMASK) ⟨0, 3, 0⟩).r| ∧
    (wallContact realMath (demoWallEnv realMath) 0 3 1 32 0 0 1 ⟨0, 0, 0⟩ ⟨0, 3, 0⟩ 1).p.kt *
        ((compute_force realMath (demoWallEnv realMath) 0 3 1 32 0 0 1 ⟨0, 0, 0⟩ ⟨0, 3, 0⟩ 1
          zeroWallState).1).norm ≤
      (wallContact realMath (demoWallEnv realMath) 0 3 1 32 0 0 1 ⟨0, 0, 0⟩ ⟨0, 3, 0⟩ 1).p.xmu *
        |(wallContact realMath (demoWallEnv realMath) 0 3 1 32 0 0 1 ⟨0, 0, 0⟩ ⟨0, 3, 0⟩ 1).ccel *
          (wallContact realMath (demoWallEnv realMath) 0 3 1 32 0 0 1 ⟨0, 0, 0⟩ ⟨0, 3, 0⟩ 1).r| := by
  have hm : (1 &&& (demoPairEnv realMath).NEIGHMASK) = 1 := by decide
  constructor
  · refine C7_bounded_shear.1 (demoPairEnv realMath) 0 1 0 0 1
      { (zeroPairState : PairState ℝ) with shear := fun _ _ => ⟨0, 3, 0⟩ } ?_ ?_ ?_
    · norm_num [pairRsq, demoPairEnv]
    · simp only [hm]; rw [(demoPair_eval_shear 1 ⟨0, 3, 0⟩).1]; norm_num
    · simp only [hm]; rw [(demoPair_eval_shear 1 ⟨0, 3, 0⟩).1]; norm_num
  · refine C7_bounded_shear.2 (demoWallEnv realMath) 0 3 1 32 0 0 1 ⟨0, 0, 0⟩ ⟨0, 3, 0⟩ 1
      zeroWallState ?_ ?_
    · rw [(demoWall_eval ⟨0, 3, 0⟩).1]; norm_num
    · rw [(demoWall_eval ⟨0, 3, 0⟩).1]; norm_num

/-- C8: on an evaluation with `shearupdate` and `addflag` both set and
`rsq > 0`, the shear used for the trial force is `P(s + vtr*dt)` for the
previously stored shear `s`, it is orthogonal to the normal, and so is the
shear stored at the end of the evaluation, Coulomb rescaling included; in the
pair routine with `del = (delx,dely,delz)`, in the wall routine with
`(dx,dy,dz)` when `rsq` is its squared length, as the caller passes it. -/
theorem C8_shear_reprojection :
    (∀ (env : PairEnv ℝ) (shearupdate addflag : Int) (i jj jraw : Nat) (s : PairState ℝ),
      let j := jraw &&& env.NEIGHMASK
      let c := pairContact realMath env shearupdate addflag i j (s.shear i jj)
      shearupdate ≠ 0 → addflag ≠ 0 → 0 < c.rsq →
        c.shearTrial = tangentPart
          ⟨(s.shear i jj).c0 + c.vtr.c0 * env.dt, (s.shear i jj).c1 + c.vtr.c1 * env.dt,
            (s.shear i jj).c2 + c.vtr.c2 * env.dt⟩ c.del c.rsq ∧
        c.shearTrial.dot c.del = 0 ∧
        c.shear.dot c.del = 0 ∧
        (pairRsq env i j < (env.radius i + env.radius j) * (env.radius i + env.radius j) →
          ((pairBody realMath env shearupdate addflag i jj jraw s).shear i jj).dot c.del = 0)) ∧
    (∀ (env : WallEnv ℝ) (ip : Nat) (deltan rsq meff_wall dx dy dz : ℝ)
        (vwall c_history : Vec3 ℝ) (area_ratio : ℝ) (s : WallState ℝ),
      let c := wallContact realMath env ip deltan rsq meff_wall dx dy dz vwall c_history area_ratio
      env.shearupdate_ ≠ 0 → env.addflag_ ≠ 0 → 0 < rsq → rsq = dx * dx + dy * dy + dz * dz →
        c.shearTrial = tangentPart
          ⟨c_history.c0 + c.vtr.c0 * env.dt_, c_history.c1 + c.vtr.c1 * env.dt_,
            c_history.c2 + c.vtr.c2 * env.dt_⟩ ⟨dx, dy, dz⟩ rsq ∧
        c.shearTrial.dot ⟨dx, dy, dz⟩ = 0 ∧
        ((compute_force realMath env ip deltan rsq meff_wall dx dy dz vwall c_history
          area_ratio s).1).dot ⟨dx, dy, dz⟩ = 0) := by
  constructor
  · intro env su af i jj jraw s j c hsu haf hr
    have hrsq : c.rsq = c.del.c0 * c.del.c0 + c.del.c1 * c.del.c1 + c.del.c2 * c.del.c2 := rfl
    have h1 : c.shearTrial = tangentPart
          ⟨(s.shear i jj).c0 + c.vtr.c0 * env.dt, (s.shear i jj).c1 + c.vtr.c1 * env.dt,
            (s.shear i jj).c2 + c.vtr.c2 * env.dt⟩ c.del c.rsq := by
      rw [show c.shearTrial = _ from pairContact_shearTrial realMath env su af i j (s.shear i jj),
        if_pos ⟨hsu, haf⟩]
      exact shearIntegrate_eq _ _ _ _ _
    have h2 : c.shearTrial.dot c.del = 0 := by
      rw [h1]; exact tangentPart_dot _ _ _ hrsq hr.ne'
    have h3 : c.shear.dot c.del = 0 := by
      rw [show c.shear = _ from pairContact_shear realMath env su af i j (s.shear i jj)]
      exact coulombStage_shear_dot _ _ _ _ _ _ _ _ _ h2
    refine ⟨h1, h2, h3, fun ht => ?_⟩
    rw [pairBody_shear_touching realMath env su af i jj jraw s ht]
    exact h3
  · intro env ip deltan rsq meff_wall dx dy dz vwall ch ar s c hsu haf hr hrsq
    have h1 : c.shearTrial = tangentPart
          ⟨ch.c0 + c.vtr.c0 * env.dt_, ch.c1 + c.vtr.c1 * env.dt_,
            ch.c2 + c.vtr.c2 * env.dt_⟩ ⟨dx, dy, dz⟩ rsq := by
      rw [show c.shearTrial = _ from wallContact_shearTrial realMath env ip deltan rsq meff_wall
        dx dy dz vwall ch ar, if_pos ⟨hsu, haf⟩]
      exact shearIntegrate_eq _ _ _ _ _
    have h2 : c.shearTrial.dot ⟨dx, dy, dz⟩ = 0 := by
      rw [h1]; exact tangentPart_dot _ _ _ hrsq hr.ne'
    refine ⟨h1, h2, ?_⟩
    rw [compute_force_history, wallContact_c_history]
    exact coulombStage_shear_dot _ _ _ _ _ _ _ _ _ h2

/-- C8 (witness): the demo pair and the demo wall sphere, integrating, from
the stored shear `(1,2,3)`, which has a component along the normal. -/
theorem C8_shear_reprojection_witness :
    (pairContact realMath (demoPairEnv realMath) 1 1 0 (1 &&& (demoPairEnv realMath).NEIGHMASK)
        ⟨1, 2, 3⟩).shear.dot
      (pairContact realMath (demoPairEnv realMath) 1 1 0 (1 &&& (demoPairEnv realMath).NEIGHMASK)
        ⟨1, 2, 3⟩).del = 0 ∧
    ((compute_force realMath { demoWallEnv realMath with shearupdate_ := 1 } 0 3 1 32 0 0 1
      ⟨0, 0, 0⟩ ⟨1, 2, 3⟩ 1 zeroWallState).1).dot ⟨0, 0, 1⟩ = 0 :=
  ⟨(C8_shear_reprojection.1 (demoPairEnv realMath) 1 1 0 0 1
      { (zeroPairState : PairState ℝ) with shear := fun _ _ => ⟨1, 2, 3⟩ } (by decide) (by decide)
      (by norm_num [pairContact, demoPairEnv])).2.2.1,
    (C8_shear_reprojection.2 { demoWallEnv realMath with shearupdate_ := 1 } 0 3 1 32 0 0 1
      ⟨0, 0, 0⟩ ⟨1, 2, 3⟩ 1 zeroWallState (by decide) (by decide) (by norm_num)
      (by norm_num)).2.2⟩

/-- C9: `compute` sets the member `shearupdate` to 1 if the step counter is
strictly greater than `laststep` and to 0 otherwise, runs its whole loop with
that one value, and sets `laststep` to the step counter; so a second call at
the same step counter runs its loop with `shearupdate = 0`; with
`shearupdate = 0` no contact has `vtr*dt` added to its shear, and the stored
shear of a touching contact whose trial force does not exceed the Coulomb
limit is left exactly as it was. -/
theorem C9_no_shear_update_switch :
    (∀ (env : PairEnv ℝ) (ntimestep addflag : Int) (s : PairState ℝ),
      ((compute realMath env ntimestep addflag s).shearupdate = 1 ↔ ntimestep > s.laststep) ∧
      ((compute realMath env ntimestep addflag s).shearupdate = 0 ↔ ¬ ntimestep > s.laststep) ∧
      (compute realMath env ntimestep addflag s).laststep = ntimestep ∧
      compute realMath env ntimestep addflag s =
        { iloop realMath env (compute realMath env ntimestep addflag s).shearupdate addflag
            env.ilist { s with shearupdate := (compute realMath env ntimestep addflag s).shearupdate }
          with laststep := ntimestep }) ∧
    (∀ (env env' : PairEnv ℝ) (ntimestep addflag addflag' : Int) (s : PairState ℝ),
      (compute realMath env' ntimestep addflag' (compute realMath env ntimestep addflag s)).shearupdate
          = 0 ∧
      compute realMath env' ntimestep addflag' (compute realMath env ntimestep addflag s) =
        { iloop realMath env' 0 addflag' env'.ilist
            { compute realMath env ntimestep addflag s with shearupdate := 0 }
          with laststep := ntimestep }) ∧
    (∀ (env : PairEnv ℝ) (addflag : Int) (i j : Nat) (shear : Vec3 ℝ),
      (pairContact realMath env 0 addflag i j shear).shearTrial = shear) ∧
    (∀ (env : PairEnv ℝ) (addflag : Int) (i jj jraw : Nat) (s : PairState ℝ),
      let j := jraw &&& env.NEIGHMASK
      let c := pairContact realMath env 0 addflag i j (s.shear i jj)
      pairRsq env i j < (env.radius i + env.radius j) * (env.radius i + env.radius j) →
      (trialForce c.p.kt (s.shear i jj)).norm ≤ c.p.xmu * |c.ccel * c.r| →
        (pairBody realMath env 0 addflag i jj jraw s).shear i jj = s.shear i jj) := by
  have hsu : ∀ (env : PairEnv ℝ) (nt af : Int) (s : PairState ℝ),
      (compute realMath env nt af s).shearupdate = if nt > s.laststep then 1 else 0 := by
    intro env nt af s
    rw [compute_eq]
    exact (iloop_flags realMath env _ af env.ilist _).1
  have htrial : ∀ (env : PairEnv ℝ) (af : Int) (i j : Nat) (sh : Vec3 ℝ),
      (pairContact realMath env 0 af i j sh).shearTrial = sh := by
    intro env af i j sh
    rw [pairContact_shearTrial, if_neg (fun h => h.1 rfl)]
  refine ⟨fun env nt af s => ⟨?_, ?_, rfl, ?_⟩, fun env env' nt af af' s => ?_, htrial, ?_⟩
  · rw [hsu]
    by_cases h : nt > s.laststep
    · simp [h]
    · simp [h]
  · rw [hsu]
    by_cases h : nt > s.laststep
    · simp [h]
    · simp [h]
  · rw [hsu]
    exact compute_eq realMath env nt af s
  · have hl : (compute realMath env nt af s).laststep = nt := rfl
    have h0 : (if nt > (compute realMath env nt af s).laststep then (1 : Int) else 0) = 0 := by
      rw [hl, if_neg (lt_irrefl nt)]
    constructor
    · rw [hsu, h0]
    · rw [compute_eq realMath env' nt af' (compute realMath env nt af s), h0]
  · intro env af i jj jraw s j c ht hst
    rw [pairBody_shear_touching realMath env 0 af i jj jraw s ht,
      pairContact_shear realMath env 0 af i j (s.shear i jj),
      htrial env af i j (s.shear i jj)]
    have hst' : (trialForce (pairContact realMath env 0 af i j (s.shear i jj)).p.kt
        (s.shear i jj)).norm ≤
        (pairContact realMath env 0 af i j (s.shear i jj)).p.xmu *
          |(pairContact realMath env 0 af i j (s.shear i jj)).ccel *
            (pairContact realMath env 0 af i j (s.shear i jj)).r| := hst
    rw [coulombStage_static _ _ _ _ _ _ _ hst']

/-- C9 (witness): two calls at step counter 5 on the demo pair, whose stored
shear `(0,1/2,0)` gives a trial force of length 8 below the limit 12. -/
theorem C9_no_shear_update_switch_witness :
    (compute realMath (demoPairEnv realMath) 5 1
        (compute realMath (demoPairEnv realMath) 5 1 zeroPairState)).shearupdate = 0 ∧
      (pairBody realMath (demoPairEnv realMath) 0 1 0 0 1
        { (zeroPairState : PairState ℝ) with shear := fun _ _ => ⟨0, 1 / 2, 0⟩ }).shear 0 0 =
          ⟨0, 1 / 2, 0⟩ := by
  have hm : (1 &&& (demoPairEnv realMath).NEIGHMASK) = 1 := by decide
  refine ⟨(C9_no_shear_update_switch.2.1 (demoPairEnv realMath) (demoPairEnv realMath) 5 1 1
      zeroPairState).1,
    C9_no_shear_update_switch.2.2.2 (demoPairEnv realMath) 1 0 0 1
      { (zeroPairState : PairState ℝ) with shear := fun _ _ => ⟨0, 1 / 2, 0⟩ } ?_ ?_⟩
  · norm_num [pairRsq, demoPairEnv]
  · simp only [hm]
    obtain ⟨hp, hc, hr, -, -⟩ := demoPair_eval_shear 1 ⟨0, 1 / 2, 0⟩
    rw [hp, hc, hr, norm_trialForce]
    have hn : Vec3.norm ⟨0, 1 / 2, 0⟩ = 1 / 2 := by
      have h := Vec3.norm_scale ⟨0, 1, 0⟩ (1 / 2)
      have h1 : Vec3.norm ⟨0, 1, 0⟩ = 1 := by simp [Vec3.norm]
      rw [h1] at h
      norm_num at h
      rw [h]
      norm_num [abs_of_pos]
    rw [hn]
    norm_num

/-- C10: with `addflag = 0`, `compute` leaves every entry of `f` and `torque`
as it was; with `addflag_ = 0`, `compute_force` leaves `f` and `torque` as they
were and `addHeatFlux` leaves `heatflux` and `Q_add` as they were, for every
input. -/
theorem C10_diagnostic_mode_frame {α : Type} [LinearOrderedField α] (m : LibM α) :
    (∀ (env : PairEnv α) (ntimestep : Int) (s : PairState α),
      (compute m env ntimestep 0 s).f = s.f ∧ (compute m env ntimestep 0 s).torque = s.torque) ∧
    (∀ (env : WallEnv α) (ip : Nat) (deltan rsq meff_wall dx dy dz : α)
        (vwall c_history : Vec3 α) (area_ratio : α) (s : WallState α),
      env.addflag_ = 0 →
        (compute_force m env ip deltan rsq meff_wall dx dy dz vwall c_history area_ratio s).2.f
          = s.f ∧
        (compute_force m env ip deltan rsq meff_wall dx dy dz vwall c_history area_ratio s).2.torque
          = s.torque) ∧
    (∀ (env : WallEnv α) (mesh : Option α) (ip : Nat) (rsq area_ratio : α) (s : WallState α),
      env.addflag_ = 0 →
        (addHeatFlux m env mesh ip rsq area_ratio s).heatflux = s.heatflux ∧
        (addHeatFlux m env mesh ip rsq area_ratio s).Q_add = s.Q_add) := by
  refine ⟨fun env nt s => ?_, ?_, ?_⟩
  · rw [compute_eq]
    exact iloop_frame m env _ env.ilist _
  · intro env ip deltan rsq meff_wall dx dy dz vwall ch ar s h
    unfold compute_force
    simp only [h, ne_eq, not_true_eq_false, if_false]
    split_ifs <;> exact ⟨rfl, rfl⟩
  · intro env mesh ip rsq ar s h
    unfold addHeatFlux
    simp only [h, ne_eq, not_true_eq_false, if_false]
    cases mesh <;> split_ifs <;> exact ⟨rfl, rfl⟩

/-- C10 (witness): the demo pair, the demo wall sphere and its heat flux in
diagnostic mode, starting from non-zero accumulators. -/
theorem C10_diagnostic_mode_frame_witness :
    (compute realMath (demoPairEnv realMath) 1 0
        { (zeroPairState : PairState ℝ) with f := fun _ => ⟨1, 2, 3⟩ }).f = (fun _ => ⟨1, 2, 3⟩) ∧
      (compute_force realMath { demoWallEnv realMath with addflag_ := 0 } 0 3 1 32 0 0 1
        ⟨0, 0, 0⟩ ⟨0, 3, 0⟩ 1 { (zeroWallState : WallState ℝ) with f := fun _ => ⟨1, 2, 3⟩ }).2.f =
          (fun _ => ⟨1, 2, 3⟩) ∧
      (addHeatFlux realMath { demoWallEnv realMath with addflag_ := 0 } (some 350) 0 1 1
        { (zeroWallState : WallState ℝ) with Q_add := 7 }).Q_add = 7 :=
  ⟨((C10_diagnostic_mode_frame realMath).1 (demoPairEnv realMath) 1
      { (zeroPairState : PairState ℝ) with f := fun _ => ⟨1, 2, 3⟩ }).1,
    ((C10_diagnostic_mode_frame realMath).2.1 { demoWallEnv realMath with addflag_ := 0 } 0 3 1 32
      0 0 1 ⟨0, 0, 0⟩ ⟨0, 3, 0⟩ 1 { (zeroWallState : WallState ℝ) with f := fun _ => ⟨1, 2, 3⟩ }
      rfl).1,
    ((C10_diagnostic_mode_frame realMath).2.2 { demoWallEnv realMath with addflag_ := 0 } (some 350)
      0 1 1 { (zeroWallState : WallState ℝ) with Q_add := 7 } rfl).2⟩

/-- C11 (counterexample): the demo wall sphere with cohesion on (energy density
1) and `area_ratio = 2`: `ccel*r = 96 - 30*pi`, while the right-hand side
with `Fn_coh = cohEnergyDens*Acont` is `96 - 15*pi`. -/
theorem C11_counterexample :
    0 < (wallContact realMath (cohWallEnv realMath) 0 3 1 32 0 0 1 ⟨0, 0, 0⟩ ⟨0, 0, 0⟩ 2).r ∧
      (cohWallEnv realMath).cohesionflag ≠ 0 ∧
      (wallContact realMath (cohWallEnv realMath) 0 3 1 32 0 0 1 ⟨0, 0, 0⟩ ⟨0, 0, 0⟩ 2).ccel *
          (wallContact realMath (cohWallEnv realMath) 0 3 1 32 0 0 1 ⟨0, 0, 0⟩ ⟨0, 0, 0⟩ 2).r ≠
        (wallContact realMath (cohWallEnv realMath) 0 3 1 32 0 0 1 ⟨0, 0, 0⟩ ⟨0, 0, 0⟩ 2).p.kn *
            ((cohWallEnv realMath).radius 0 -
              (wallContact realMath (cohWallEnv realMath) 0 3 1 32 0 0 1 ⟨0, 0, 0⟩ ⟨0, 0, 0⟩ 2).r) -
          (wallContact realMath (cohWallEnv realMath) 0 3 1 32 0 0 1 ⟨0, 0, 0⟩ ⟨0, 0, 0⟩
              2).p.gamman *
            ((vectorSubtract3D ((cohWallEnv realMath).v 0) ⟨0, 0, 0⟩).dot
              ⟨0 / (wallContact realMath (cohWallEnv realMath) 0 3 1 32 0 0 1 ⟨0, 0, 0⟩ ⟨0, 0, 0⟩
                  2).r,
                0 / (wallContact realMath (cohWallEnv realMath) 0 3 1 32 0 0 1 ⟨0, 0, 0⟩ ⟨0, 0, 0⟩
                  2).r,
                1 / (wallContact realMath (cohWallEnv realMath) 0 3 1 32 0 0 1 ⟨0, 0, 0⟩ ⟨0, 0, 0⟩
                  2).r⟩) -
          (cohWallEnv realMath).cohEnergyDens ((cohWallEnv realMath).type 0)
              (cohWallEnv realMath).atom_type_wall_ *
            wallAcont realMath (cohWallEnv realMath) 0
              (wallContact realMath (cohWallEnv realMath) 0 3 1 32 0 0 1 ⟨0, 0, 0⟩ ⟨0, 0, 0⟩
                2).r := by
  have hr : (wallContact realMath (cohWallEnv realMath) 0 3 1 32 0 0 1 ⟨0, 0, 0⟩ ⟨0, 0, 0⟩ 2).r
      = 1 := by
    norm_num [wallContact, realMath]
  have hc : (wallContact realMath (cohWallEnv realMath) 0 3 1 32 0 0 1 ⟨0, 0, 0⟩ ⟨0, 0, 0⟩
      2).ccel = 96 - 30 * Real.pi := by
    norm_num [wallContact, cohWallEnv, demoWallEnv, realMath, wallDeriveContactModelParams,
    dampQuotient, Real.pi_ne_zero,
      wallAddCohesionForce, pi_div_neg_pi, sqrt_four]
    ring
  have hp : (wallContact realMath (cohWallEnv realMath) 0 3 1 32 0 0 1 ⟨0, 0, 0⟩ ⟨0, 0, 0⟩
      2).p.kn = 32 := by
    norm_num [wallContact, cohWallEnv, demoWallEnv, realMath, wallDeriveContactModelParams,
    dampQuotient, Real.pi_ne_zero,
      sqrt_four]
  rw [hr, hc, hp]
  refine ⟨by norm_num, by decide, ?_⟩
  have hpi := Real.pi_pos
  norm_num [cohWallEnv, demoWallEnv, wallAcont, realMath, vectorSubtract3D, Vec3.dot]
  intro h
  linarith

/-- C11 (amended): for every pair contact with `r > 0`, `ccel*r = kn*delta -
gamman*(v_rel . n) - Fn_coh` with `delta = radsum - r`, `n = del/r` and
`Fn_coh = cohEnergyDens[itype][jtype]*Acont` when `cohesionflag` is set, 0
otherwise, and the normal part of the force on body `i` is that scalar times
`n`; the wall routine satisfies the identity with `delta = radius - r`,
`v_rel = v - vwall`, `n = (dx,dy,dz)/r` and
`Fn_coh = cohEnergyDens[itype][atom_type_wall_]*Acont*area_ratio`. -/
theorem C11_normal_force_law :
    (∀ (env : PairEnv ℝ) (shearupdate addflag : Int) (i j : Nat) (shear : Vec3 ℝ),
      let c := pairContact realMath env shearupdate addflag i j shear
      let n : Vec3 ℝ := ⟨c.del.c0 / c.r, c.del.c1 / c.r, c.del.c2 / c.r⟩
      let Fn_coh := if env.cohesionflag ≠ 0 then
          env.cohEnergyDens (env.type i) (env.type j) * pairAcont realMath env i j c.r
        else 0
      0 < c.r →
        c.deltan = env.radius i + env.radius j - c.r ∧
        c.ccel * c.r = c.p.kn * c.deltan -
          c.p.gamman * ((vectorSubtract3D (env.v i) (env.v j)).dot n) - Fn_coh ∧
        c.force.c0 - c.fs.c0 = c.ccel * c.r * n.c0 ∧
        c.force.c1 - c.fs.c1 = c.ccel * c.r * n.c1 ∧
        c.force.c2 - c.fs.c2 = c.ccel * c.r * n.c2) ∧
    (∀ (env : WallEnv ℝ) (ip : Nat) (deltan rsq meff_wall dx dy dz : ℝ)
        (vwall c_history : Vec3 ℝ) (area_ratio : ℝ),
      let c := wallContact realMath env ip deltan rsq meff_wall dx dy dz vwall c_history area_ratio
      let n : Vec3 ℝ := ⟨dx / c.r, dy / c.r, dz / c.r⟩
      let Fn_coh := if env.cohesionflag ≠ 0 then
          env.cohEnergyDens (env.type ip) env.atom_type_wall_ * wallAcont realMath env ip c.r *
            area_ratio
        else 0
      0 < c.r →
        c.ccel * c.r = c.p.kn * (env.radius ip - c.r) -
          c.p.gamman * ((vectorSubtract3D (env.v ip) vwall).dot n) - Fn_coh ∧
        c.force.c0 - c.fs.c0 = c.ccel * c.r * n.c0 ∧
        c.force.c1 - c.fs.c1 = c.ccel * c.r * n.c1 ∧
        c.force.c2 - c.fs.c2 = c.ccel * c.r * n.c2) := by
  constructor
  · intro env su af i j sh c n Fn_coh hr
    have hrsq : c.r * c.r = c.rsq := by
      rw [show c.r = _ from pairContact_r env su af i j sh]
      exact Real.mul_self_sqrt (by
        rw [pairContact_rsq]
        exact add_nonneg (add_nonneg (mul_self_nonneg _) (mul_self_nonneg _))
          (mul_self_nonneg _))
    have hcc : c.ccel * c.r = c.p.kn * c.deltan -
        c.p.gamman * ((vectorSubtract3D (env.v i) (env.v j)).dot n) - Fn_coh := by
      rw [show c.ccel = _ from pairContact_ccel realMath env su af i j sh, dot_div]
      by_cases hco : env.cohesionflag ≠ 0
      · simp only [Fn_coh, if_pos hco, addCohesionForce_eq]
        exact ccel_mul_r _ _ _ _ _ _ _ hr.ne' hrsq
      · simp only [Fn_coh, if_neg hco]
        have h := ccel_mul_r c.p.kn (env.radius i + env.radius j - c.r) c.p.gamman
          ((vectorSubtract3D (env.v i) (env.v j)).dot c.del) 0 c.r c.rsq hr.ne' hrsq
        simpa using h
    have hf : ∀ d : ℝ, d * c.ccel = c.ccel * c.r * (d / c.r) := by
      intro d
      field_simp
      ring
    refine ⟨rfl, hcc, ?_, ?_, ?_⟩
    · show c.del.c0 * c.ccel + c.fs.c0 - c.fs.c0 = _
      rw [add_sub_cancel_right]; exact hf _
    · show c.del.c1 * c.ccel + c.fs.c1 - c.fs.c1 = _
      rw [add_sub_cancel_right]; exact hf _
    · show c.del.c2 * c.ccel + c.fs.c2 - c.fs.c2 = _
      rw [add_sub_cancel_right]; exact hf _
  · intro env ip deltan rsq meff_wall dx dy dz vwall ch ar c n Fn_coh hr
    have hr' : 0 < Real.sqrt rsq := hr
    have hrsq : c.r * c.r = rsq := by
      rw [show c.r = _ from wallContact_r env ip deltan rsq meff_wall dx dy dz vwall ch ar]
      exact Real.mul_self_sqrt (Real.sqrt_pos.mp hr').le
    have hcc : c.ccel * c.r = c.p.kn * (env.radius ip - c.r) -
        c.p.gamman * ((vectorSubtract3D (env.v ip) vwall).dot n) - Fn_coh := by
      rw [show c.ccel = _ from wallContact_ccel realMath env ip deltan rsq meff_wall dx dy dz
        vwall ch ar]
      have hd := dot_div (vectorSubtract3D (env.v ip) vwall) ⟨dx, dy, dz⟩ c.r
      simp only [] at hd
      rw [show (vectorSubtract3D (env.v ip) vwall).dot n = _ from hd]
      by_cases hco : env.cohesionflag ≠ 0
      · simp only [Fn_coh, if_pos hco, wallAddCohesionForce_eq]
        exact ccel_mul_r _ _ _ _ _ _ _ hr.ne' hrsq
      · simp only [Fn_coh, if_neg hco]
        have h := ccel_mul_r c.p.kn (env.radius ip - c.r) c.p.gamman
          ((vectorSubtract3D (env.v ip) vwall).dot ⟨dx, dy, dz⟩) 0 c.r rsq hr.ne' hrsq
        simpa using h
    have hf : ∀ d : ℝ, d * c.ccel = c.ccel * c.r * (d / c.r) := by
      intro d
      field_simp
      ring
    refine ⟨hcc, ?_, ?_, ?_⟩
    · show dx * c.ccel + c.fs.c0 - c.fs.c0 = _
      rw [add_sub_cancel_right]; exact hf _
    · show dy * c.ccel + c.fs.c1 - c.fs.c1 = _
      rw [add_sub_cancel_right]; exact hf _
    · show dz * c.ccel + c.fs.c2 - c.fs.c2 = _
      rw [add_sub_cancel_right]; exact hf _

/-- C11 (witness): the demo pair (`r = 1`) and the cohesive demo wall sphere
with `area_ratio = 2`. -/
theorem C11_normal_force_law_witness :
    (pairContact realMath (demoPairEnv realMath) 0 1 0 1 ⟨0, 0, 0⟩).deltan =
        (demoPairEnv realMath).radius 0 + (demoPairEnv realMath).radius 1 -
          (pairContact realMath (demoPairEnv realMath) 0 1 0 1 ⟨0, 0, 0⟩).r ∧
      (wallContact realMath (cohWallEnv realMath) 0 3 1 32 0 0 1 ⟨0, 0, 0⟩ ⟨0, 0, 0⟩ 2).force.c2 -
          (wallContact realMath (cohWallEnv realMath) 0 3 1 32 0 0 1 ⟨0, 0, 0⟩ ⟨0, 0, 0⟩ 2).fs.c2 =
        (wallContact realMath (cohWallEnv realMath) 0 3 1 32 0 0 1 ⟨0, 0, 0⟩ ⟨0, 0, 0⟩ 2).ccel *
          (wallContact realMath (cohWallEnv realMath) 0 3 1 32 0 0 1 ⟨0, 0, 0⟩ ⟨0, 0, 0⟩ 2).r *
          (1 / (wallContact realMath (cohWallEnv realMath) 0 3 1 32 0 0 1 ⟨0, 0, 0⟩ ⟨0, 0, 0⟩
            2).r) :=
  ⟨(C11_normal_force_law.1 (demoPairEnv realMath) 0 1 0 1 ⟨0, 0, 0⟩
      (by rw [(demoPair_eval 1).2.2.1]; norm_num)).1,
    (C11_normal_force_law.2 (cohWallEnv realMath) 0 3 1 32 0 0 1 ⟨0, 0, 0⟩ ⟨0, 0, 0⟩ 2
      (by norm_num [wallContact, realMath])).2.2.2⟩

/-- C12 (counterexample): the demo spheres (radii 2, masses 32, `kn = 16`,
`gamman = sqrt 512`, no cohesion) with sphere 0 approaching sphere 1 along the
line of centres with speed 1: at overlap 1 the normal force is
`ccel*r = 16 + sqrt 512`, and as the overlap tends to 0 from above `|ccel*r|`
does not tend to 0 (it tends to `sqrt 512`). -/
theorem C12_counterexample :
    (pairContact realMath (placeAt (headOnEnv realMath) 0 1 ⟨1, 0, 0⟩ 1) 0 1 0 1 ⟨0, 0, 0⟩).ccel *
        (pairContact realMath (placeAt (headOnEnv realMath) 0 1 ⟨1, 0, 0⟩ 1) 0 1 0 1
          ⟨0, 0, 0⟩).r = 16 + Real.sqrt 512 ∧
      ¬ Filter.Tendsto
        (fun delta : ℝ =>
          |(pairContact realMath (placeAt (headOnEnv realMath) 0 1 ⟨1, 0, 0⟩ delta) 0 1 0 1
              ⟨0, 0, 0⟩).ccel *
            (pairContact realMath (placeAt (headOnEnv realMath) 0 1 ⟨1, 0, 0⟩ delta) 0 1 0 1
              ⟨0, 0, 0⟩).r|)
        (nhdsWithin 0 (Set.Ioi 0)) (nhds 0) := by
  have hu : (Vec3.mk (1 : ℝ) 0 0).dot ⟨1, 0, 0⟩ = 1 := by norm_num [Vec3.dot]
  have hR : (0 : ℝ) < (headOnEnv realMath).radius 0 + (headOnEnv realMath).radius 1 := by
    norm_num [headOnEnv, demoPairEnv]
  constructor
  · rw [placeAt_normal_force (headOnEnv realMath) 0 1 0 1 ⟨1, 0, 0⟩ 1 ⟨0, 0, 0⟩ (by decide) hu
      (by norm_num [headOnEnv, demoPairEnv]), headOn_gamman, headOn_vrel,
      if_neg (by decide)]
    ring
  · intro h
    have hlim := placeAt_tendsto (headOnEnv realMath) 0 1 0 1 ⟨1, 0, 0⟩ ⟨0, 0, 0⟩ (by decide)
      hu hR
    rw [headOn_gamman, headOn_vrel] at hlim
    have he := tendsto_nhds_unique h hlim
    simp only [mul_neg, mul_one, abs_neg] at he
    have hpos : (0 : ℝ) < Real.sqrt 512 := Real.sqrt_pos.mpr (by norm_num)
    rw [abs_of_pos hpos] at he
    linarith

/-- C12 (amended): for fixed material parameters, radii with positive sum,
masses and velocities, as the overlap `delta = radsum - r` tends to 0 from
above with the line of centres along a fixed unit vector `u`, the normal force
magnitude `|ccel*r|` tends to `|gamman*(v_rel . u)|`, the magnitude of the
normal damping force; it tends to 0 exactly when `gamman*(v_rel . u) = 0`. -/
theorem C12_first_touch_limit (env : PairEnv ℝ) (shearupdate addflag : Int) (i j : Nat)
    (u shear : Vec3 ℝ) (hij : i ≠ j) (hu : u.dot u = 1)
    (hR : 0 < env.radius i + env.radius j) :
    Filter.Tendsto
      (fun delta : ℝ =>
        |(pairContact realMath (placeAt env i j u delta) shearupdate addflag i j shear).ccel *
          (pairContact realMath (placeAt env i j u delta) shearupdate addflag i j shear).r|)
      (nhdsWithin 0 (Set.Ioi 0))
      (nhds |(pairContact realMath env shearupdate addflag i j shear).p.gamman *
        ((vectorSubtract3D (env.v i) (env.v j)).dot u)|) ∧
    (Filter.Tendsto
      (fun delta : ℝ =>
        |(pairContact realMath (placeAt env i j u delta) shearupdate addflag i j shear).ccel *
          (pairContact realMath (placeAt env i j u delta) shearupdate addflag i j shear).r|)
      (nhdsWithin 0 (Set.Ioi 0)) (nhds 0) ↔
      (pairContact realMath env shearupdate addflag i j shear).p.gamman *
        ((vectorSubtract3D (env.v i) (env.v j)).dot u) = 0) ∧
    (∀ delta : ℝ, delta < env.radius i + env.radius j →
      (pairContact realMath (placeAt env i j u delta) shearupdate addflag i j shear).deltan =
        delta) := by
  have hlim := placeAt_tendsto env shearupdate addflag i j u shear hij hu hR
  refine ⟨hlim, ⟨fun h => ?_, fun h => ?_⟩, fun delta hd => ?_⟩
  · have he := tendsto_nhds_unique h hlim
    exact abs_eq_zero.mp he.symm
  · rw [h, abs_zero] at hlim
    exact hlim
  · have hdn : (pairContact realMath (placeAt env i j u delta) shearupdate addflag i j
        shear).deltan = env.radius i + env.radius j -
        (pairContact realMath (placeAt env i j u delta) shearupdate addflag i j shear).r := rfl
    rw [hdn, placeAt_r env shearupdate addflag i j u delta shear hij hu hd]
    ring

/-- C12 (witness): the demo pair sliding sideways (`v_rel . u = 0`): the normal
force magnitude tends to 0 at first touch. -/
theorem C12_first_touch_limit_witness :
    Filter.Tendsto
      (fun delta : ℝ =>
        |(pairContact realMath (placeAt (demoPairEnv realMath) 0 1 ⟨1, 0, 0⟩ delta) 0 1 0 1
            ⟨0, 0, 0⟩).ccel *
          (pairContact realMath (placeAt (demoPairEnv realMath) 0 1 ⟨1, 0, 0⟩ delta) 0 1 0 1
            ⟨0, 0, 0⟩).r|)
      (nhdsWithin 0 (Set.Ioi 0)) (nhds 0) :=
  (C12_first_touch_limit (demoPairEnv realMath) 0 1 0 1 ⟨1, 0, 0⟩ ⟨0, 0, 0⟩ (by decide)
    (by norm_num [Vec3.dot]) (by norm_num [demoPairEnv])).2.1.mpr
    (by norm_num [vectorSubtract3D, Vec3.dot, demoPairEnv])

/-- C13: for radii `ri, rj > 0` and centre distance `r > 0`, the `Acont` of the
pair `addCohesionForce` is `pi*a^2` with
`a^2 = ri^2 - ((r^2 + ri^2 - rj^2)/(2r))^2`; with `d = (r^2+ri^2-rj^2)/(2r)` the
circle of radius `a` at axial distance `d` from centre `i` lies on both sphere
surfaces (`a^2 + d^2 = ri^2`, `a^2 + (r-d)^2 = rj^2`); `Acont >= 0` whenever
`|ri - rj| <= r <= ri + rj`; and the `Acont` of the wall `addCohesionForce` is
`pi*(ri^2 - r^2)`. In both routines `Fn_coh` is the energy density times that
area (times `area_ratio` for the wall). -/
theorem C13_cohesion_contact_area :
    (∀ (env : PairEnv ℝ) (ip jp : Nat) (r : ℝ),
      0 < env.radius ip → 0 < env.radius jp → 0 < r →
        pairAcont realMath env ip jp r = Real.pi * (env.radius ip ^ 2 -
          ((r ^ 2 + env.radius ip ^ 2 - env.radius jp ^ 2) / (2 * r)) ^ 2) ∧
        (env.radius ip ^ 2 - ((r ^ 2 + env.radius ip ^ 2 - env.radius jp ^ 2) / (2 * r)) ^ 2) +
          ((r ^ 2 + env.radius ip ^ 2 - env.radius jp ^ 2) / (2 * r)) ^ 2 = env.radius ip ^ 2 ∧
        (env.radius ip ^ 2 - ((r ^ 2 + env.radius ip ^ 2 - env.radius jp ^ 2) / (2 * r)) ^ 2) +
          (r - (r ^ 2 + env.radius ip ^ 2 - env.radius jp ^ 2) / (2 * r)) ^ 2 =
            env.radius jp ^ 2 ∧
        (|env.radius ip - env.radius jp| ≤ r → r ≤ env.radius ip + env.radius jp →
          0 ≤ pairAcont realMath env ip jp r) ∧
        addCohesionForce realMath env ip jp r =
          env.cohEnergyDens (env.type ip) (env.type jp) * pairAcont realMath env ip jp r) ∧
    (∀ (env : WallEnv ℝ) (ip : Nat) (r area_ratio : ℝ),
      wallAcont realMath env ip r = Real.pi * (env.radius ip ^ 2 - r ^ 2) ∧
      wallAddCohesionForce realMath env ip r area_ratio =
        env.cohEnergyDens (env.type ip) env.atom_type_wall_ * wallAcont realMath env ip r *
          area_ratio) := by
  constructor
  · intro env ip jp r hi hj hr
    have hA : pairAcont realMath env ip jp r = Real.pi * (env.radius ip ^ 2 -
          ((r ^ 2 + env.radius ip ^ 2 - env.radius jp ^ 2) / (2 * r)) ^ 2) := by
      simp only [pairAcont, realMath]
      field_simp
      ring
    refine ⟨hA, by ring, ?_, ?_, rfl⟩
    · field_simp
      ring
    · intro h1 h2
      obtain ⟨h3, h4⟩ := abs_le.mp h1
      simp only [pairAcont, realMath]
      have hp := Real.pi_pos
      have e : -Real.pi / 4 * ((r - env.radius ip - env.radius jp) * (r + env.radius ip -
          env.radius jp) * (r - env.radius ip + env.radius jp) *
          (r + env.radius ip + env.radius jp)) / (r * r) =
          Real.pi / 4 * ((env.radius ip + env.radius jp - r) * (r + env.radius ip -
          env.radius jp) * (r - env.radius ip + env.radius jp) *
          (r + env.radius ip + env.radius jp)) / (r * r) := by ring
      rw [e]
      apply div_nonneg _ (mul_self_nonneg r)
      apply mul_nonneg (by positivity)
      apply mul_nonneg (mul_nonneg (mul_nonneg _ _) _) _ <;> linarith
  · intro env ip r ar
    refine ⟨?_, rfl⟩
    simp only [wallAcont, realMath]
    ring

/-- C13 (witness): radii 2 and 2 at distance 1 (`Acont = 15*pi/4`). -/
theorem C13_cohesion_contact_area_witness :
    pairAcont realMath (demoPairEnv realMath) 0 1 1 = Real.pi * ((demoPairEnv realMath).radius 0 ^ 2 -
      ((1 ^ 2 + (demoPairEnv realMath).radius 0 ^ 2 - (demoPairEnv realMath).radius 1 ^ 2) /
        (2 * 1)) ^ 2) ∧
    pairAcont realMath (demoPairEnv realMath) 0 1 1 = 15 * Real.pi / 4 := by
  have h := (C13_cohesion_contact_area.1 (demoPairEnv realMath) 0 1 1
    (by norm_num [demoPairEnv]) (by norm_num [demoPairEnv]) (by norm_num)).1
  refine ⟨h, ?_⟩
  rw [h]
  norm_num [demoPairEnv]
  ring

/-- C14: the pair `deriveContactModelParams` returns
`kn = kt = K(ri*rj/(ri+rj))/nktv2p` and the wall one `kn = kt = K(ri)`, with
`K(reff) = (16/15)*sqrt(reff)*Yeff*(15*meff*charVel^2/(16*sqrt(reff)*Yeff))^0.2`;
neither value changes with the argument `deltan`, and the values the contact
routines use do not change with the velocities and spins of the bodies (nor
with the wall velocity). -/
theorem C14_normal_stiffness :
    (∀ (env : PairEnv ℝ) (ip jp : Nat) (meff deltan rmu : ℝ),
      (deriveContactModelParams realMath env ip jp meff deltan rmu).kn =
        stiffnessK (env.Yeff (env.type ip) (env.type jp)) meff env.charVel
          (env.radius ip * env.radius jp / (env.radius ip + env.radius jp)) / env.nktv2p ∧
      (deriveContactModelParams realMath env ip jp meff deltan rmu).kt =
        (deriveContactModelParams realMath env ip jp meff deltan rmu).kn ∧
      (∀ deltan' : ℝ,
        (deriveContactModelParams realMath env ip jp meff deltan' rmu).kn =
          (deriveContactModelParams realMath env ip jp meff deltan rmu).kn) ∧
      (∀ (v' omega' : Nat → Vec3 ℝ) (su af : Int) (sh : Vec3 ℝ),
        (pairContact realMath { env with v := v', omega := omega' } su af ip jp sh).p.kn =
          (pairContact realMath env su af ip jp sh).p.kn ∧
        (pairContact realMath { env with v := v', omega := omega' } su af ip jp sh).p.kt =
          (pairContact realMath env su af ip jp sh).p.kt)) ∧
    (∀ (env : WallEnv ℝ) (ip : Nat) (deltan meff_wall rmu : ℝ),
      (wallDeriveContactModelParams realMath env ip deltan meff_wall rmu).kn =
        stiffnessK (env.Yeff (env.type ip) env.atom_type_wall_) meff_wall env.charVel
          (env.radius ip) ∧
      (wallDeriveContactModelParams realMath env ip deltan meff_wall rmu).kt =
        (wallDeriveContactModelParams realMath env ip deltan meff_wall rmu).kn ∧
      (∀ deltan' : ℝ,
        (wallDeriveContactModelParams realMath env ip deltan' meff_wall rmu).kn =
          (wallDeriveContactModelParams realMath env ip deltan meff_wall rmu).kn) ∧
      (∀ (v' omega' : Nat → Vec3 ℝ) (rsq dx dy dz : ℝ) (vwall vwall' sh : Vec3 ℝ)
          (area_ratio : ℝ),
        (wallContact realMath { env with v := v', omega := omega' } ip deltan rsq meff_wall
            dx dy dz vwall' sh area_ratio).p.kn =
          (wallContact realMath env ip deltan rsq meff_wall dx dy dz vwall sh area_ratio).p.kn ∧
        (wallContact realMath { env with v := v', omega := omega' } ip deltan rsq meff_wall
            dx dy dz vwall' sh area_ratio).p.kt =
          (wallContact realMath env ip deltan rsq meff_wall dx dy dz vwall sh area_ratio).p.kt)) := by
  have h02 : (2 / 10 : ℝ) = 0.2 := by norm_num
  constructor
  · intro env ip jp meff deltan rmu
    refine ⟨?_, rfl, fun _ => rfl, fun _ _ _ _ _ => ⟨rfl, rfl⟩⟩
    simp only [deriveContactModelParams, stiffnessK, realMath, h02]
    have e : 15 * meff * env.charVel * env.charVel = 15 * meff * env.charVel ^ 2 := by ring
    rw [e]
  · intro env ip deltan meff_wall rmu
    refine ⟨?_, rfl, fun _ => rfl, fun _ _ _ _ _ _ _ _ _ _ => ⟨rfl, rfl⟩⟩
    simp only [wallDeriveContactModelParams, stiffnessK, realMath, h02]
    have e : 15 * meff_wall * env.charVel * env.charVel = 15 * meff_wall * env.charVel ^ 2 := by
      ring
    rw [e]

/-- C14 (witness): the demo pair (`K = 16`, `nktv2p = 1`) and the demo wall
sphere (`K = 32`). -/
theorem C14_normal_stiffness_witness :
    (deriveContactModelParams realMath (demoPairEnv realMath) 0 1 16 3 0).kn = 16 ∧
      (wallDeriveContactModelParams realMath (demoWallEnv realMath) 0 3 32 0).kn = 32 := by
  constructor
  · rw [(C14_normal_stiffness.1 (demoPairEnv realMath) 0 1 16 3 0).1]
    norm_num [stiffnessK, demoPairEnv]
  · rw [(C14_normal_stiffness.2 (demoWallEnv realMath) 0 3 32 0).1]
    norm_num [stiffnessK, demoWallEnv, sqrt_four]

/-- C15 (counterexample): the demo pair with `nktv2p = 2`: the call returns
`kn = 8` and `gamman = sqrt 512`, while `sqrt(4*meff*kn/(1 + (pi/lnE)^2))` with
`meff = 16`, `lnE = -pi` is `sqrt 256 = 16`. -/
theorem C15_counterexample :
    (pairContact realMath (convPairEnv realMath) 0 1 0 1 ⟨0, 0, 0⟩).p.gamman ≠
      Real.sqrt (4 * (pairContact realMath (convPairEnv realMath) 0 1 0 1 ⟨0, 0, 0⟩).meff *
        (pairContact realMath (convPairEnv realMath) 0 1 0 1 ⟨0, 0, 0⟩).p.kn /
        (1 + (Real.pi / (convPairEnv realMath).coeffRestLog ((convPairEnv realMath).type 0)
          ((convPairEnv realMath).type 1)) ^ 2)) := by
  obtain ⟨hp, hm⟩ := convPair_eval
  rw [hp, hm]
  have hl : (convPairEnv realMath).coeffRestLog ((convPairEnv realMath).type 0)
      ((convPairEnv realMath).type 1) = -Real.pi := rfl
  rw [hl, pi_div_neg_pi]
  intro h
  have h1 : Real.sqrt 512 ^ 2 = 512 := Real.sq_sqrt (by norm_num)
  have h2 : Real.sqrt (4 * 16 * 8 / (1 + (-1) ^ 2)) ^ 2 = 4 * 16 * 8 / (1 + (-1) ^ 2) :=
    Real.sq_sqrt (by norm_num)
  simp only [] at h
  rw [h, h2] at h1
  norm_num at h1

/-- C15 (amended): with `lnE = coeffRestLog` of the type pair non-zero, the pair
`deriveContactModelParams` returns
`gamman = sqrt(4*meff*kn0/(1 + (pi/lnE)^2))` where `kn0` is the stiffness before
the unit conversion, `kn0 = kn*nktv2p` for the returned `kn` (so the stated
formula holds for `nktv2p = 1`), and the wall one returns
`gamman = sqrt(4*meff*kn/(1 + (pi/lnE)^2))` for its returned `kn`; with
`lnE = 0` (restitution 1), where `pi/lnE` is infinite, both return
`gamman = 0`; in both, `gammat = gamman` when `dampflag` is non-zero and
`gammat = 0` when it is 0. -/
theorem C15_damping_coefficients :
    (∀ (env : PairEnv ℝ) (ip jp : Nat) (meff deltan rmu : ℝ),
      let p := deriveContactModelParams realMath env ip jp meff deltan rmu
      let lnE := env.coeffRestLog (env.type ip) (env.type jp)
      (lnE ≠ 0 →
        p.gamman = Real.sqrt (4 * meff *
          stiffnessK (env.Yeff (env.type ip) (env.type jp)) meff env.charVel
            (env.radius ip * env.radius jp / (env.radius ip + env.radius jp)) /
          (1 + (Real.pi / lnE) ^ 2))) ∧
      (lnE ≠ 0 → env.nktv2p ≠ 0 →
        p.gamman = Real.sqrt (4 * meff * (p.kn * env.nktv2p) / (1 + (Real.pi / lnE) ^ 2))) ∧
      (lnE ≠ 0 → env.nktv2p = 1 →
        p.gamman = Real.sqrt (4 * meff * p.kn / (1 + (Real.pi / lnE) ^ 2))) ∧
      (lnE = 0 → p.gamman = 0) ∧
      (env.dampflag ≠ 0 → p.gammat = p.gamman) ∧
      (env.dampflag = 0 → p.gammat = 0)) ∧
    (∀ (env : WallEnv ℝ) (ip : Nat) (deltan meff_wall rmu : ℝ),
      let p := wallDeriveContactModelParams realMath env ip deltan meff_wall rmu
      let lnE := env.coeffRestLog (env.type ip) env.atom_type_wall_
      (lnE ≠ 0 → p.gamman = Real.sqrt (4 * meff_wall * p.kn / (1 + (Real.pi / lnE) ^ 2))) ∧
      (lnE = 0 → p.gamman = 0) ∧
      (env.dampflag ≠ 0 → p.gammat = p.gamman) ∧
      (env.dampflag = 0 → p.gammat = 0)) := by
  have h02 : (2 / 10 : ℝ) = 0.2 := by norm_num
  constructor
  · intro env ip jp meff deltan rmu p lnE
    have hk : stiffnessK (env.Yeff (env.type ip) (env.type jp)) meff env.charVel
        (env.radius ip * env.radius jp / (env.radius ip + env.radius jp)) =
        16 / 15 * Real.sqrt (env.radius ip * env.radius jp / (env.radius ip + env.radius jp)) *
          env.Yeff (env.type ip) (env.type jp) *
          (15 * meff * env.charVel * env.charVel /
            (16 * Real.sqrt (env.radius ip * env.radius jp / (env.radius ip + env.radius jp)) *
              env.Yeff (env.type ip) (env.type jp))) ^ (2 / 10 : ℝ) := by
      simp only [stiffnessK, h02]
      have e : 15 * meff * env.charVel * env.charVel = 15 * meff * env.charVel ^ 2 := by ring
      rw [e]
    have hq : p.gamman = Real.sqrt (dampQuotient realMath (4 * meff *
          stiffnessK (env.Yeff (env.type ip) (env.type jp)) meff env.charVel
            (env.radius ip * env.radius jp / (env.radius ip + env.radius jp))) lnE) := by
      rw [hk]
      rfl
    have hg : lnE ≠ 0 → p.gamman = Real.sqrt (4 * meff *
          stiffnessK (env.Yeff (env.type ip) (env.type jp)) meff env.charVel
            (env.radius ip * env.radius jp / (env.radius ip + env.radius jp)) /
          (1 + (Real.pi / lnE) ^ 2)) := by
      intro hl
      rw [hq, dampQuotient, if_neg hl, sq]
      rfl
    have hkn : p.kn = stiffnessK (env.Yeff (env.type ip) (env.type jp)) meff env.charVel
        (env.radius ip * env.radius jp / (env.radius ip + env.radius jp)) / env.nktv2p := by
      rw [hk]
      rfl
    refine ⟨hg, fun hl hn => ?_, fun hl h1 => ?_, fun hl => ?_, fun hd => ?_, fun hd => ?_⟩
    · rw [hg hl, hkn, div_mul_cancel₀ _ hn]
    · rw [hg hl, hkn, h1, div_one]
    · rw [hq, dampQuotient, if_pos hl, Real.sqrt_zero]
    · show (if env.dampflag = 0 then (0 : ℝ) else _) = _
      rw [if_neg hd]
      rfl
    · show (if env.dampflag = 0 then (0 : ℝ) else _) = _
      rw [if_pos hd]
  · intro env ip deltan meff_wall rmu p lnE
    have hq : p.gamman = Real.sqrt (dampQuotient realMath (4 * meff_wall * p.kn) lnE) := rfl
    refine ⟨fun hl => ?_, fun hl => ?_, fun hd => ?_, fun hd => ?_⟩
    · rw [hq, dampQuotient, if_neg hl, sq]
      rfl
    · rw [hq, dampQuotient, if_pos hl, Real.sqrt_zero]
    · show (if env.dampflag = 0 then (0 : ℝ) else _) = _
      rw [if_neg hd]
      rfl
    · show (if env.dampflag = 0 then (0 : ℝ) else _) = _
      rw [if_pos hd]

/-- C15 (witness): the demo pair under the conversion factor 2 (`lnE = -pi`),
the demo pair with restitution 1 (`lnE = 0`, normal force `ccel*r = 48`
without damping) and the demo wall sphere. -/
theorem C15_damping_coefficients_witness :
    (deriveContactModelParams realMath (convPairEnv realMath) 0 1 16 3 0).gamman =
        Real.sqrt (4 * 16 *
          ((deriveContactModelParams realMath (convPairEnv realMath) 0 1 16 3 0).kn *
            (convPairEnv realMath).nktv2p) /
          (1 + (Real.pi / (convPairEnv realMath).coeffRestLog ((convPairEnv realMath).type 0)
            ((convPairEnv realMath).type 1)) ^ 2)) ∧
      (deriveContactModelParams realMath (elasticPairEnv realMath) 0 1 16 3 0).gamman = 0 ∧
      (pairContact realMath (elasticPairEnv realMath) 0 1 0 1 ⟨0, 0, 0⟩).ccel = 48 ∧
      (wallDeriveContactModelParams realMath (demoWallEnv realMath) 0 3 32 0).gammat =
        (wallDeriveContactModelParams realMath (demoWallEnv realMath) 0 3 32 0).gamman :=
  ⟨(C15_damping_coefficients.1 (convPairEnv realMath) 0 1 16 3 0).2.1
      (by norm_num [convPairEnv, demoPairEnv, realMath, Real.pi_ne_zero])
      (by norm_num [convPairEnv]),
    (C15_damping_coefficients.1 (elasticPairEnv realMath) 0 1 16 3 0).2.2.2.1 rfl,
    (elasticPair_eval 0 1 ⟨0, 0, 0⟩).2,
    (C15_damping_coefficients.2 (demoWallEnv realMath) 0 3 32 0).2.2.1 (by decide)⟩

/-- C16: in the touching branch of `compute`, with `mi`, `mj` the masses of the
two bodies (per-atom or per-type mass, replaced by the rigid-body total mass
for a body that belongs to a rigid body), `meff = mi*mj/(mi+mj)` when neither
body is in the frozen group, `meff = mj` when only body `i` is, and
`meff = mi` when body `j` is (also when both are). -/
theorem C16_effective_mass {α : Type} [LinearOrderedField α] (m : LibM α) (env : PairEnv α)
    (shearupdate addflag : Int) (i j : Nat) (shear : Vec3 α) :
    (env.mask i &&& env.freeze_group_bit = 0 → env.mask j &&& env.freeze_group_bit = 0 →
      (pairContact m env shearupdate addflag i j shear).meff =
        bodyMass env i * bodyMass env j / (bodyMass env i + bodyMass env j)) ∧
    (env.mask i &&& env.freeze_group_bit ≠ 0 → env.mask j &&& env.freeze_group_bit = 0 →
      (pairContact m env shearupdate addflag i j shear).meff = bodyMass env j) ∧
    (env.mask j &&& env.freeze_group_bit ≠ 0 →
      (pairContact m env shearupdate addflag i j shear).meff = bodyMass env i) ∧
    (bodyMass env i =
      if env.fix_rigid = true ∧ env.body i ≥ 0 then env.masstotal (env.body i).toNat
      else match env.rmass with
        | some rmass => rmass i
        | none => env.mass (env.type i)) := by
  have hm : (pairContact m env shearupdate addflag i j shear).meff =
      if env.mask j &&& env.freeze_group_bit ≠ 0 then bodyMass env i
      else if env.mask i &&& env.freeze_group_bit ≠ 0 then bodyMass env j
      else bodyMass env i * bodyMass env j / (bodyMass env i + bodyMass env j) := rfl
  refine ⟨fun hi hj => ?_, fun hi hj => ?_, fun hj => ?_, rfl⟩
  · rw [hm, if_neg (not_not.mpr hj), if_neg (not_not.mpr hi)]
  · rw [hm, if_neg (not_not.mpr hj), if_pos hi]
  · rw [hm, if_pos hj]

/-- C16 (witness): the demo pair with sphere 1 frozen: `meff` is the mass 32 of
sphere 0. -/
theorem C16_effective_mass_witness :
    (frozenPairEnv realMath).mask 1 &&& (frozenPairEnv realMath).freeze_group_bit ≠ 0 ∧
      (pairContact realMath (frozenPairEnv realMath) 0 1 0 1 ⟨0, 0, 0⟩).meff =
        bodyMass (frozenPairEnv realMath) 0 ∧
      bodyMass (frozenPairEnv realMath) 0 = 32 :=
  ⟨by decide,
    (C16_effective_mass realMath (frozenPairEnv realMath) 0 1 0 1 ⟨0, 0, 0⟩).2.2.1 (by decide),
    by norm_num [bodyMass, frozenPairEnv, demoPairEnv]⟩

/-- C17: after `init_granular`, for all types `i, j` in `1..max_type`,
`Yeff[i][j] = 1/((1-vi^2)/Yi + (1-vj^2)/Yj)` and
`Geff[i][j] = 1/(2(2-vi)(1+vi)/Yi + 2(2-vj)(1+vj)/Yj)`, so for non-zero
denominators `1/Yeff[i][j]` and `1/Geff[i][j]` are those sums;
`coeffRestLog[i][j] = ln(restitution(i-1,j-1))` and
`coeffFrict[i][j] = friction(i-1,j-1)`, with `Y`, `v` read at `i-1`, `j-1`. -/
theorem C17_material_resolution (src : MaterialSources ℝ)
    (rollingflag cohesionflag charVelflag : Int) (t0 : MaterialTables ℝ) (i j : Nat)
    (hi1 : 1 ≤ i) (hi2 : i ≤ src.max_type) (hj1 : 1 ≤ j) (hj2 : j ≤ src.max_type) :
    let t := init_granular realMath src rollingflag cohesionflag charVelflag t0
    let Yi := src.Y1 (i - 1)
    let Yj := src.Y1 (j - 1)
    let vi := src.v1 (i - 1)
    let vj := src.v1 (j - 1)
    t.Yeff i j = 1 / ((1 - vi ^ 2) / Yi + (1 - vj ^ 2) / Yj) ∧
    ((1 - vi ^ 2) / Yi + (1 - vj ^ 2) / Yj ≠ 0 →
      1 / t.Yeff i j = (1 - vi ^ 2) / Yi + (1 - vj ^ 2) / Yj) ∧
    t.Geff i j = 1 / (2 * (2 - vi) * (1 + vi) / Yi + 2 * (2 - vj) * (1 + vj) / Yj) ∧
    (2 * (2 - vi) * (1 + vi) / Yi + 2 * (2 - vj) * (1 + vj) / Yj ≠ 0 →
      1 / t.Geff i j = 2 * (2 - vi) * (1 + vi) / Yi + 2 * (2 - vj) * (1 + vj) / Yj) ∧
    t.coeffRestLog i j = Real.log (src.coeffRest1 (i - 1) (j - 1)) ∧
    t.coeffFrict i j = src.coeffFrict1 (i - 1) (j - 1) := by
  intro t Yi Yj vi vj
  obtain ⟨h1, h2, h3, -, h5, -, -⟩ :=
    init_granular_resolved realMath src rollingflag cohesionflag charVelflag t0 i j hi1 hi2 hj1 hj2
  have hp : ∀ x : ℝ, realMath.pow x 2 = x ^ 2 := fun x => Real.rpow_two x
  rw [hp, hp] at h1
  refine ⟨h1, fun _ => ?_, h2, fun _ => ?_, h3, h5⟩
  · rw [show t.Yeff i j = _ from h1, one_div_one_div]
  · rw [show t.Geff i j = _ from h2, one_div_one_div]

/-- C17 (witness): the two demo types, entry `[1][2]`:
`1/Yeff = (1 - 1/4)/10 + (1 - 1/4)/20`. -/
theorem C17_material_resolution_witness :
    (init_granular realMath demoSources 0 0 1 zeroTables).Yeff 1 2 =
        1 / ((1 - (demoSources : MaterialSources ℝ).v1 (1 - 1) ^ 2) /
            (demoSources : MaterialSources ℝ).Y1 (1 - 1) +
          (1 - (demoSources : MaterialSources ℝ).v1 (2 - 1) ^ 2) /
            (demoSources : MaterialSources ℝ).Y1 (2 - 1)) ∧
      (init_granular realMath demoSources 0 0 1 zeroTables).coeffFrict 1 2 =
        (demoSources : MaterialSources ℝ).coeffFrict1 (1 - 1) (2 - 1) :=
  ⟨(C17_material_resolution demoSources 0 0 1 zeroTables 1 2 (by decide) (by decide)
      (by decide) (by decide)).1,
    (C17_material_resolution demoSources 0 0 1 zeroTables 1 2 (by decide) (by decide)
      (by decide) (by decide)).2.2.2.2.2⟩

/-- C18 (counterexample): the two demo types with cohesion on: the restitution
and friction sources are symmetric, yet after `init_granular`
`cohEnergyDens[1][2] = 1` and `cohEnergyDens[2][1] = 2`. -/
theorem C18_counterexample :
    (∀ k l : Nat, (demoSources : MaterialSources ℝ).coeffRest1 k l =
        (demoSources : MaterialSources ℝ).coeffRest1 l k) ∧
      (∀ k l : Nat, (demoSources : MaterialSources ℝ).coeffFrict1 k l =
        (demoSources : MaterialSources ℝ).coeffFrict1 l k) ∧
      (∀ k l : Nat, (demoSources : MaterialSources ℝ).coeffRollFrict1 k l =
        (demoSources : MaterialSources ℝ).coeffRollFrict1 l k) ∧
      (init_granular realMath demoSources 0 1 1 zeroTables).cohEnergyDens 1 2 = 1 ∧
      (init_granular realMath demoSources 0 1 1 zeroTables).cohEnergyDens 2 1 = 2 ∧
      (init_granular realMath demoSources 0 1 1 zeroTables).cohEnergyDens 1 2 ≠
        (init_granular realMath demoSources 0 1 1 zeroTables).cohEnergyDens 2 1 := by
  have h12 := (init_granular_resolved realMath demoSources 0 1 1 zeroTables 1 2 (by decide)
    (by decide) (by decide) (by decide)).2.2.2.2.2.2 (by decide)
  have h21 := (init_granular_resolved realMath demoSources 0 1 1 zeroTables 2 1 (by decide)
    (by decide) (by decide) (by decide)).2.2.2.2.2.2 (by decide)
  have e12 : (init_granular realMath demoSources 0 1 1 zeroTables).cohEnergyDens 1 2 = 1 := by
    rw [h12]; simp [demoSources]
  have e21 : (init_granular realMath demoSources 0 1 1 zeroTables).cohEnergyDens 2 1 = 2 := by
    rw [h21]; simp [demoSources]
  refine ⟨fun _ _ => rfl, fun _ _ => rfl, fun _ _ => rfl, e12, e21, ?_⟩
  rw [e12, e21]
  norm_num

/-- C18 (amended): after `init_granular`, `Yeff` and `Geff` are symmetric on the
types `1..max_type`; where the source restitution table is symmetric so are
`coeffRestLog` and `betaeff`, where the source friction table is symmetric so
is `coeffFrict`; `coeffRollFrict` and `cohEnergyDens` (resolved under
`rollingflag`, `cohesionflag`) are symmetric where their own source tables
are; and with symmetric restitution and friction sources
`deriveContactModelParams` returns the same `(kn, kt, gamman, gammat, xmu)` for
`(ip,jp)` as for `(jp,ip)`. -/
theorem C18_unordered_type_pair (src : MaterialSources ℝ)
    (rollingflag cohesionflag charVelflag : Int) (t0 : MaterialTables ℝ) :
    let t := init_granular realMath src rollingflag cohesionflag charVelflag t0
    (∀ i j : Nat, 1 ≤ i → i ≤ src.max_type → 1 ≤ j → j ≤ src.max_type →
      t.Yeff i j = t.Yeff j i ∧ t.Geff i j = t.Geff j i ∧
      (src.coeffRest1 (i - 1) (j - 1) = src.coeffRest1 (j - 1) (i - 1) →
        t.coeffRestLog i j = t.coeffRestLog j i ∧ t.betaeff i j = t.betaeff j i) ∧
      (src.coeffFrict1 (i - 1) (j - 1) = src.coeffFrict1 (j - 1) (i - 1) →
        t.coeffFrict i j = t.coeffFrict j i) ∧
      (rollingflag ≠ 0 →
        src.coeffRollFrict1 (i - 1) (j - 1) = src.coeffRollFrict1 (j - 1) (i - 1) →
        t.coeffRollFrict i j = t.coeffRollFrict j i) ∧
      (cohesionflag ≠ 0 →
        src.cohEnergyDens1 (i - 1) (j - 1) = src.cohEnergyDens1 (j - 1) (i - 1) →
        t.cohEnergyDens i j = t.cohEnergyDens j i)) ∧
    (∀ (env : PairEnv ℝ) (ip jp : Nat) (meff deltan rmu : ℝ),
      1 ≤ env.type ip → env.type ip ≤ src.max_type →
      1 ≤ env.type jp → env.type jp ≤ src.max_type →
      (∀ k l : Nat, src.coeffRest1 k l = src.coeffRest1 l k) →
      (∀ k l : Nat, src.coeffFrict1 k l = src.coeffFrict1 l k) →
        (deriveContactModelParams realMath (withTables env t) ip jp meff deltan rmu).kn =
          (deriveContactModelParams realMath (withTables env t) jp ip meff deltan rmu).kn ∧
        (deriveContactModelParams realMath (withTables env t) ip jp meff deltan rmu).kt =
          (deriveContactModelParams realMath (withTables env t) jp ip meff deltan rmu).kt ∧
        (deriveContactModelParams realMath (withTables env t) ip jp meff deltan rmu).gamman =
          (deriveContactModelParams realMath (withTables env t) jp ip meff deltan rmu).gamman ∧
        (deriveContactModelParams realMath (withTables env t) ip jp meff deltan rmu).gammat =
          (deriveContactModelParams realMath (withTables env t) jp ip meff deltan rmu).gammat ∧
        (deriveContactModelParams realMath (withTables env t) ip jp meff deltan rmu).xmu =
          (deriveContactModelParams realMath (withTables env t) jp ip meff deltan rmu).xmu) := by
  intro t
  have hsym : ∀ i j : Nat, 1 ≤ i → i ≤ src.max_type → 1 ≤ j → j ≤ src.max_type →
      t.Yeff i j = t.Yeff j i ∧ t.Geff i j = t.Geff j i ∧
      (src.coeffRest1 (i - 1) (j - 1) = src.coeffRest1 (j - 1) (i - 1) →
        t.coeffRestLog i j = t.coeffRestLog j i ∧ t.betaeff i j = t.betaeff j i) ∧
      (src.coeffFrict1 (i - 1) (j - 1) = src.coeffFrict1 (j - 1) (i - 1) →
        t.coeffFrict i j = t.coeffFrict j i) ∧
      (rollingflag ≠ 0 →
        src.coeffRollFrict1 (i - 1) (j - 1) = src.coeffRollFrict1 (j - 1) (i - 1) →
        t.coeffRollFrict i j = t.coeffRollFrict j i) ∧
      (cohesionflag ≠ 0 →
        src.cohEnergyDens1 (i - 1) (j - 1) = src.cohEnergyDens1 (j - 1) (i - 1) →
        t.cohEnergyDens i j = t.cohEnergyDens j i) := by
    intro i j hi1 hi2 hj1 hj2
    obtain ⟨a1, a2, a3, a4, a5, a6, a7⟩ := init_granular_resolved realMath src rollingflag
      cohesionflag charVelflag t0 i j hi1 hi2 hj1 hj2
    obtain ⟨b1, b2, b3, b4, b5, b6, b7⟩ := init_granular_resolved realMath src rollingflag
      cohesionflag charVelflag t0 j i hj1 hj2 hi1 hi2
    refine ⟨?_, ?_, fun h => ⟨?_, ?_⟩, fun h => ?_, fun hr h => ?_, fun hc h => ?_⟩
    · rw [show t.Yeff i j = _ from a1, show t.Yeff j i = _ from b1, add_comm]
    · rw [show t.Geff i j = _ from a2, show t.Geff j i = _ from b2, add_comm]
    · rw [show t.coeffRestLog i j = _ from a3, show t.coeffRestLog j i = _ from b3, h]
    · rw [show t.betaeff i j = _ from a4, show t.betaeff j i = _ from b4, h]
    · rw [show t.coeffFrict i j = _ from a5, show t.coeffFrict j i = _ from b5, h]
    · rw [show t.coeffRollFrict i j = _ from a6 hr, show t.coeffRollFrict j i = _ from b6 hr, h]
    · rw [show t.cohEnergyDens i j = _ from a7 hc, show t.cohEnergyDens j i = _ from b7 hc, h]
  refine ⟨hsym, fun env ip jp meff deltan rmu h1 h2 h3 h4 hR hF => ?_⟩
  obtain ⟨s1, -, s3, s4, -, -⟩ := hsym (env.type ip) (env.type jp) h1 h2 h3 h4
  exact derive_swap realMath (withTables env t) ip jp meff deltan rmu s1 (s3 (hR _ _)).1
    (s4 (hF _ _))

/-- C18 (witness): the two demo types and two atoms of types 1 and 2. -/
theorem C18_unordered_type_pair_witness :
    (deriveContactModelParams realMath
        (withTables { demoPairEnv realMath with type := fun k => k + 1 }
          (init_granular realMath demoSources 0 1 1 zeroTables)) 0 1 16 3 0).kn =
      (deriveContactModelParams realMath
        (withTables { demoPairEnv realMath with type := fun k => k + 1 }
          (init_granular realMath demoSources 0 1 1 zeroTables)) 1 0 16 3 0).kn :=
  ((C18_unordered_type_pair demoSources 0 1 1 zeroTables).2
    { demoPairEnv realMath with type := fun k => k + 1 } 0 1 16 3 0 (by decide) (by decide)
    (by decide) (by decide) (fun _ _ => rfl) (fun _ _ => rfl)).1

/-- C19: for every argument list made of the keywords `cohesion`,
`rolling_friction`, `tangential_damping`, each followed by a value, `settings`
aborts with an error if some value is not one of the two words allowed after
its keyword, aborts with the dimension error if all values are allowed and the
resulting `cohesionflag` is 1 while the dimension is not 3, and otherwise
returns with the flags equal to the defaults `(1,0,0)` overridden by the last
occurrence of each keyword. -/
theorem C19_settings_errors (pairMatch : Bool) (dimension : Int)
    (pairs : List (String × String)) (hk : knownKeywords pairs) :
    (¬ allowedValues pairs →
      ∃ e, settings pairMatch dimension (flattenArgs pairs) = Except.error e ∧
        (e = SettingsError.cohesionValue ∨ e = SettingsError.rollingValue ∨
          e = SettingsError.dampingValue)) ∧
    (allowedValues pairs → (overrideFlags pairs ⟨1, 0, 0⟩).cohesionflag = 1 → dimension ≠ 3 →
      settings pairMatch dimension (flattenArgs pairs) =
        Except.error SettingsError.cohesionDimension) ∧
    (allowedValues pairs →
      ¬ ((overrideFlags pairs ⟨1, 0, 0⟩).cohesionflag = 1 ∧ dimension ≠ 3) →
      settings pairMatch dimension (flattenArgs pairs) =
        Except.ok (overrideFlags pairs ⟨1, 0, 0⟩)) := by
  obtain ⟨hok, herr⟩ := settingsLoop_flatten pairMatch pairs ⟨1, 0, 0⟩ hk
  refine ⟨fun h => ?_, fun h hc hd => ?_, fun h hn => ?_⟩
  · obtain ⟨e, he, hcase⟩ := herr h
    exact ⟨e, by simp only [settings, he], hcase⟩
  · have hne : (overrideFlags pairs ⟨1, 0, 0⟩).cohesionflag ≠ 0 := by rw [hc]; decide
    simp only [settings, hok h]
    rw [if_pos ⟨hne, hd⟩]
  · have hcond : ¬ ((overrideFlags pairs ⟨1, 0, 0⟩).cohesionflag ≠ 0 ∧ dimension ≠ 3) := by
      rintro ⟨h0, hd⟩
      rcases overrideFlags_cohesionflag pairs with h' | h'
      · exact h0 h'
      · exact hn ⟨h', hd⟩
    simp only [settings, hok h]
    rw [if_neg hcond]

/-- C19 (witness): `cohesion sjkr cohesion off tangential_damping off` in two
dimensions returns `(0,0,0)`; `cohesion sjkr` in two dimensions aborts. -/
theorem C19_settings_errors_witness :
    settings true 2 ["cohesion", "sjkr", "cohesion", "off", "tangential_damping", "off"] =
        Except.ok ⟨0, 0, 0⟩ ∧
      settings true 2 ["cohesion", "sjkr"] = Except.error SettingsError.cohesionDimension := by
  have hk1 : knownKeywords [("cohesion", "sjkr"), ("cohesion", "off"),
      ("tangential_damping", "off")] := by
    unfold knownKeywords; decide
  have ha1 : allowedValues [("cohesion", "sjkr"), ("cohesion", "off"),
      ("tangential_damping", "off")] := by
    unfold allowedValues; decide
  have hk2 : knownKeywords [("cohesion", "sjkr")] := by
    unfold knownKeywords; decide
  have ha2 : allowedValues [("cohesion", "sjkr")] := by
    unfold allowedValues; decide
  exact ⟨(C19_settings_errors true 2 _ hk1).2.2 ha1 (by decide),
    (C19_settings_errors true 2 _ hk2).2.1 ha2 (by decide) (by decide)⟩

/-- C20 (counterexample): the spinning demo wall sphere with rolling friction
on and `area_ratio = 2`, from zero accumulators: the x component of the torque
changes by `-(2*cr*tor1 + 8)`, not by `2*(-(cr*tor1 + 8))`; the rolling torque
`r_torque = (8,16,0)` enters unweighted. -/
theorem C20_counterexample :
    (spinWallEnv realMath).addflag_ ≠ 0 ∧
      (wallContact realMath (spinWallEnv realMath) 0 3 1 32 0 0 1 ⟨0, 0, 0⟩ ⟨0, 0, 0⟩
        2).r_torque = ⟨8, 16, 0⟩ ∧
      ((compute_force realMath (spinWallEnv realMath) 0 3 1 32 0 0 1 ⟨0, 0, 0⟩ ⟨0, 0, 0⟩ 2
          zeroWallState).2.torque 0).c0 - ((zeroWallState : WallState ℝ).torque 0).c0 ≠
        2 * -((wallContact realMath (spinWallEnv realMath) 0 3 1 32 0 0 1 ⟨0, 0, 0⟩ ⟨0, 0, 0⟩
              2).cr *
            (wallContact realMath (spinWallEnv realMath) 0 3 1 32 0 0 1 ⟨0, 0, 0⟩ ⟨0, 0, 0⟩
              2).tor.c0 +
          (wallContact realMath (spinWallEnv realMath) 0 3 1 32 0 0 1 ⟨0, 0, 0⟩ ⟨0, 0, 0⟩
            2).r_torque.c0) := by
  have hrt := spinWall_r_torque 2
  refine ⟨by decide, hrt, ?_⟩
  rw [(compute_force_direct realMath (spinWallEnv realMath) 0 3 1 32 0 0 1 ⟨0, 0, 0⟩ ⟨0, 0, 0⟩ 2
    zeroWallState (by decide)).2, setAt_self, hrt]
  simp only [zeroWallState]
  intro h
  linarith

/-- C20 (amended): in direct-integration mode `compute_force` adds to `f[ip]`
exactly `area_ratio` times the contact force
`(dx*ccel+fs1, dy*ccel+fs2, dz*ccel+fs3)` and subtracts from `torque[ip]`
exactly `area_ratio*cr*tor + r_torque`: the torque of the tangential force is
weighted by `area_ratio`, the rolling-resistance torque is not. The change of
the torque is `area_ratio` times `-(cr*tor + r_torque)` when rolling resistance
is off (`r_torque = 0`) or `area_ratio = 1`. No other entry of `f` or `torque`
changes. -/
theorem C20_wall_area_weighting (env : WallEnv ℝ) (ip : Nat)
    (deltan rsq meff_wall dx dy dz : ℝ) (vwall c_history : Vec3 ℝ) (area_ratio : ℝ)
    (s : WallState ℝ) (hadd : env.addflag_ ≠ 0) :
    let c := wallContact realMath env ip deltan rsq meff_wall dx dy dz vwall c_history area_ratio
    let s' := (compute_force realMath env ip deltan rsq meff_wall dx dy dz vwall c_history
      area_ratio s).2
    s'.f ip = ⟨(s.f ip).c0 + area_ratio * (dx * c.ccel + c.fs.c0),
      (s.f ip).c1 + area_ratio * (dy * c.ccel + c.fs.c1),
      (s.f ip).c2 + area_ratio * (dz * c.ccel + c.fs.c2)⟩ ∧
    s'.torque ip = ⟨(s.torque ip).c0 - (area_ratio * (c.cr * c.tor.c0) + c.r_torque.c0),
      (s.torque ip).c1 - (area_ratio * (c.cr * c.tor.c1) + c.r_torque.c1),
      (s.torque ip).c2 - (area_ratio * (c.cr * c.tor.c2) + c.r_torque.c2)⟩ ∧
    (env.rollingflag = 0 ∨ area_ratio = 1 →
      s'.torque ip = ⟨(s.torque ip).c0 + area_ratio * -(c.cr * c.tor.c0 + c.r_torque.c0),
        (s.torque ip).c1 + area_ratio * -(c.cr * c.tor.c1 + c.r_torque.c1),
        (s.torque ip).c2 + area_ratio * -(c.cr * c.tor.c2 + c.r_torque.c2)⟩) ∧
    (∀ k, k ≠ ip → s'.f k = s.f k ∧ s'.torque k = s.torque k) := by
  intro c s'
  obtain ⟨hf, ht⟩ := compute_force_direct realMath env ip deltan rsq meff_wall dx dy dz vwall
    c_history area_ratio s hadd
  have hF : s'.f ip = ⟨(s.f ip).c0 + area_ratio * (dx * c.ccel + c.fs.c0),
      (s.f ip).c1 + area_ratio * (dy * c.ccel + c.fs.c1),
      (s.f ip).c2 + area_ratio * (dz * c.ccel + c.fs.c2)⟩ := by
    rw [show s'.f = _ from hf, setAt_self, wallContact_force]
    simp only [Vec3.mk.injEq]
    refine ⟨by ring, by ring, by ring⟩
  have hT : s'.torque ip = ⟨(s.torque ip).c0 - (area_ratio * (c.cr * c.tor.c0) + c.r_torque.c0),
      (s.torque ip).c1 - (area_ratio * (c.cr * c.tor.c1) + c.r_torque.c1),
      (s.torque ip).c2 - (area_ratio * (c.cr * c.tor.c2) + c.r_torque.c2)⟩ := by
    rw [show s'.torque = _ from ht, setAt_self]
    simp only [Vec3.mk.injEq]
    refine ⟨by ring, by ring, by ring⟩
  refine ⟨hF, hT, fun h => ?_, fun k hk => ?_⟩
  · rw [hT]
    rcases h with h | h
    · have h0 := wallContact_r_torque_off realMath env ip deltan rsq meff_wall dx dy dz vwall
        c_history area_ratio h
      rw [show c.r_torque = _ from h0]
      simp only [Vec3.mk.injEq]
      refine ⟨by ring, by ring, by ring⟩
    · rw [h]
      simp only [Vec3.mk.injEq]
      refine ⟨by ring, by ring, by ring⟩
  · rw [show s'.f = _ from hf, show s'.torque = _ from ht, setAt_other _ _ _ _ hk,
      setAt_other _ _ _ _ hk]
    exact ⟨rfl, rfl⟩

/-- C20 (witness): the demo wall sphere (rolling friction off) with
`area_ratio = 2`. -/
theorem C20_wall_area_weighting_witness :
    ((compute_force realMath (demoWallEnv realMath) 0 3 1 32 0 0 1 ⟨0, 0, 0⟩ ⟨0, 0, 0⟩ 2
        zeroWallState).2.f 0).c2 =
      ((zeroWallState : WallState ℝ).f 0).c2 + 2 *
        (1 * (wallContact realMath (demoWallEnv realMath) 0 3 1 32 0 0 1 ⟨0, 0, 0⟩ ⟨0, 0, 0⟩
            2).ccel +
          (wallContact realMath (demoWallEnv realMath) 0 3 1 32 0 0 1 ⟨0, 0, 0⟩ ⟨0, 0, 0⟩
            2).fs.c2) :=
  congrArg Vec3.c2 (C20_wall_area_weighting (demoWallEnv realMath) 0 3 1 32 0 0 1 ⟨0, 0, 0⟩
    ⟨0, 0, 0⟩ 2 zeroWallState (by decide)).1

/-- C21 (counterexample): the spinning demo wall sphere (radius 4, centre
distance 1, `deltan = 3`, `rmu = 1/10`, `kn = 32`, rolling friction on, spin
`(1,2,2)`): the rolling torque before the projection has length 24, which is
`rmu*kn*delta*cr` with `cr = 5/2`, not `rmu*kn*delta*ri = 192/5`. -/
theorem C21_counterexample :
    (spinWallEnv realMath).rollingflag ≠ 0 ∧
      0 < wallWrmag realMath (spinWallEnv realMath) 0 3
        (wallContact realMath (spinWallEnv realMath) 0 3 1 32 0 0 1 ⟨0, 0, 0⟩ ⟨0, 0, 0⟩ 1).r ∧
      0 ≤ (wallContact realMath (spinWallEnv realMath) 0 3 1 32 0 0 1 ⟨0, 0, 0⟩ ⟨0, 0, 0⟩
        1).p.rmu ∧
      0 ≤ (wallContact realMath (spinWallEnv realMath) 0 3 1 32 0 0 1 ⟨0, 0, 0⟩ ⟨0, 0, 0⟩
        1).p.kn ∧
      (spinWallEnv realMath).radius 0 -
        (wallContact realMath (spinWallEnv realMath) 0 3 1 32 0 0 1 ⟨0, 0, 0⟩ ⟨0, 0, 0⟩ 1).r = 3 ∧
      (wallRollTorque realMath (spinWallEnv realMath) 0
          (wallContact realMath (spinWallEnv realMath) 0 3 1 32 0 0 1 ⟨0, 0, 0⟩ ⟨0, 0, 0⟩ 1).p.rmu
          (wallContact realMath (spinWallEnv realMath) 0 3 1 32 0 0 1 ⟨0, 0, 0⟩ ⟨0, 0, 0⟩ 1).p.kn
          3
          (wallContact realMath (spinWallEnv realMath) 0 3 1 32 0 0 1 ⟨0, 0, 0⟩ ⟨0, 0, 0⟩
            1).r).norm ≠
        (wallContact realMath (spinWallEnv realMath) 0 3 1 32 0 0 1 ⟨0, 0, 0⟩ ⟨0, 0, 0⟩ 1).p.rmu *
          (wallContact realMath (spinWallEnv realMath) 0 3 1 32 0 0 1 ⟨0, 0, 0⟩ ⟨0, 0, 0⟩ 1).p.kn *
          3 * (spinWallEnv realMath).radius 0 := by
  obtain ⟨hp, hr, -, hw⟩ := spinWall_eval ⟨0, 0, 0⟩ 1
  have hrad : (spinWallEnv realMath).radius 0 = 4 := rfl
  rw [hp, hr, hrad]
  refine ⟨by decide, by rw [hw]; norm_num, by norm_num, by norm_num, by norm_num, ?_⟩
  rw [wallRollTorque_norm _ _ _ _ _ _ (by rw [hw]; norm_num), hrad]
  norm_num [abs_of_pos]

/-- C21 (amended): with rolling resistance enabled and a non-zero relative spin
(the guard `wr_rollmag > 0`, `wrmag > 0`), the rolling torque before its
normal part is removed has, in `compute`, length `rmu*kn*deltan*reff` with
`reff = ri*rj/(ri+rj)` (for `rmu, kn, deltan >= 0` and non-negative radii), and,
in `compute_force`, length `rmu*kn*(ri - r)*cr` with the contact-plane radius
`cr = ri - deltan/2` in place of `ri` (for `rmu, kn, ri - r, cr >= 0`); the
torque the routines hold is `removeNormalPart` of it. -/
theorem C21_rolling_torque_magnitude :
    (∀ (env : PairEnv ℝ) (shearupdate addflag : Int) (i j : Nat) (shear : Vec3 ℝ),
      let c := pairContact realMath env shearupdate addflag i j shear
      env.rollingflag ≠ 0 →
      0 < vectorMag3D realMath (vectorSubtract3D (env.omega i) (env.omega j)) →
      0 ≤ c.p.rmu → 0 ≤ c.p.kn → 0 ≤ c.deltan → 0 ≤ env.radius i → 0 ≤ env.radius j →
      c.r_torque =
          removeNormalPart (pairRollTorque realMath env i j c.p.rmu c.p.kn c.deltan) c.del
            (1 / c.rsq) ∧
        (pairRollTorque realMath env i j c.p.rmu c.p.kn c.deltan).norm =
          c.p.rmu * c.p.kn * c.deltan *
            (env.radius i * env.radius j / (env.radius i + env.radius j))) ∧
    (∀ (env : WallEnv ℝ) (ip : Nat) (deltan rsq meff_wall dx dy dz : ℝ)
        (vwall c_history : Vec3 ℝ) (area_ratio : ℝ),
      let c := wallContact realMath env ip deltan rsq meff_wall dx dy dz vwall c_history area_ratio
      env.rollingflag ≠ 0 → 0 < wallWrmag realMath env ip deltan c.r →
      0 ≤ c.p.rmu → 0 ≤ c.p.kn → 0 ≤ env.radius ip - c.r → 0 ≤ c.cr →
      c.r_torque =
          removeNormalPart (wallRollTorque realMath env ip c.p.rmu c.p.kn deltan c.r)
            ⟨dx, dy, dz⟩ (1 / rsq) ∧
        c.cr = env.radius ip - deltan / 2 ∧
        (wallRollTorque realMath env ip c.p.rmu c.p.kn deltan c.r).norm =
          c.p.rmu * c.p.kn * (env.radius ip - c.r) * c.cr) := by
  constructor
  · intro env su af i j sh c hroll hw hrmu hkn hd hri hrj
    constructor
    · rw [show c.r_torque = _ from pairContact_r_torque realMath env su af i j sh, if_pos hroll,
        if_pos hw]
    · rw [pairRollTorque_norm env i j _ _ _ hw]
      apply abs_of_nonneg
      have hreff : 0 ≤ env.radius i * env.radius j / (env.radius i + env.radius j) :=
        div_nonneg (mul_nonneg hri hrj) (add_nonneg hri hrj)
      exact mul_nonneg (mul_nonneg (mul_nonneg hrmu hkn) hd) hreff
  · intro env ip deltan rsq meff_wall dx dy dz vwall ch ar c hroll hw hrmu hkn hd hcr
    have hcr' : c.cr = env.radius ip - 1 / 2 * deltan := rfl
    refine ⟨?_, ?_, ?_⟩
    · rw [show c.r_torque = _ from
        wallContact_r_torque realMath env ip deltan rsq meff_wall dx dy dz vwall ch ar,
        if_pos hroll, if_pos hw]
    · rw [hcr']; ring
    · rw [wallRollTorque_norm env ip _ _ _ _ hw, ← hcr']
      exact abs_of_nonneg (mul_nonneg (mul_nonneg (mul_nonneg hrmu hkn) hd) hcr)

/-- C21 (witness): the spinning demo pair (`rmu = 1/10`, `kn = 16`,
`deltan = 3`, radii 2) and the spinning demo wall sphere. -/
theorem C21_rolling_torque_magnitude_witness :
    (pairRollTorque realMath (spinPairEnv realMath) 0 1
        (pairContact realMath (spinPairEnv realMath) 1 1 0 1 ⟨0, 0, 0⟩).p.rmu
        (pairContact realMath (spinPairEnv realMath) 1 1 0 1 ⟨0, 0, 0⟩).p.kn
        (pairContact realMath (spinPairEnv realMath) 1 1 0 1 ⟨0, 0, 0⟩).deltan).norm =
      (pairContact realMath (spinPairEnv realMath) 1 1 0 1 ⟨0, 0, 0⟩).p.rmu *
        (pairContact realMath (spinPairEnv realMath) 1 1 0 1 ⟨0, 0, 0⟩).p.kn *
        (pairContact realMath (spinPairEnv realMath) 1 1 0 1 ⟨0, 0, 0⟩).deltan *
        ((spinPairEnv realMath).radius 0 * (spinPairEnv realMath).radius 1 /
          ((spinPairEnv realMath).radius 0 + (spinPairEnv realMath).radius 1)) ∧
    (wallRollTorque realMath (spinWallEnv realMath) 0
        (wallContact realMath (spinWallEnv realMath) 0 3 1 32 0 0 1 ⟨0, 0, 0⟩ ⟨0, 0, 0⟩ 1).p.rmu
        (wallContact realMath (spinWallEnv realMath) 0 3 1 32 0 0 1 ⟨0, 0, 0⟩ ⟨0, 0, 0⟩ 1).p.kn 3
        (wallContact realMath (spinWallEnv realMath) 0 3 1 32 0 0 1 ⟨0, 0, 0⟩ ⟨0, 0, 0⟩
          1).r).norm =
      (wallContact realMath (spinWallEnv realMath) 0 3 1 32 0 0 1 ⟨0, 0, 0⟩ ⟨0, 0, 0⟩ 1).p.rmu *
        (wallContact realMath (spinWallEnv realMath) 0 3 1 32 0 0 1 ⟨0, 0, 0⟩ ⟨0, 0, 0⟩ 1).p.kn *
        ((spinWallEnv realMath).radius 0 -
          (wallContact realMath (spinWallEnv realMath) 0 3 1 32 0 0 1 ⟨0, 0, 0⟩ ⟨0, 0, 0⟩ 1).r) *
        (wallContact realMath (spinWallEnv realMath) 0 3 1 32 0 0 1 ⟨0, 0, 0⟩ ⟨0, 0, 0⟩ 1).cr := by
  obtain ⟨hp, hd, hw⟩ := spinPair_eval 1 1 ⟨0, 0, 0⟩
  obtain ⟨hq, hr, hcr, hm⟩ := spinWall_eval ⟨0, 0, 0⟩ 1
  have hrad : ∀ k, (spinPairEnv realMath).radius k = 2 := fun _ => rfl
  have hradw : (spinWallEnv realMath).radius 0 = 4 := rfl
  exact ⟨(C21_rolling_torque_magnitude.1 (spinPairEnv realMath) 1 1 0 1 ⟨0, 0, 0⟩ (by decide)
      (by rw [hw]; norm_num) (by rw [hp]; norm_num) (by rw [hp]; norm_num)
      (by rw [hd]; norm_num) (by rw [hrad]; norm_num) (by rw [hrad]; norm_num)).2,
    (C21_rolling_torque_magnitude.2 (spinWallEnv realMath) 0 3 1 32 0 0 1 ⟨0, 0, 0⟩ ⟨0, 0, 0⟩ 1
      (by decide) (by rw [hr, hm]; norm_num) (by rw [hq]; norm_num) (by rw [hq]; norm_num)
      (by rw [hr, hradw]; norm_num) (by rw [hcr]; norm_num)).2.2⟩

/-- C22: for `rmu, kn, deltan >= 0` and non-negative radii (in particular for
every touching pair of spheres with rolling friction on) the rolling torque
`r_torque` of `compute` has a non-negative dot product with the relative spin
`omega[i] - omega[j]`; so the rolling part `-r_torque` of the torque increment
of body `i` has a non-positive and the rolling part `+r_torque` of the
increment of body `j` a non-negative dot product with it. -/
theorem C22_rolling_opposes_spin (env : PairEnv ℝ) (shearupdate addflag : Int) (i j : Nat)
    (shear : Vec3 ℝ) :
    let c := pairContact realMath env shearupdate addflag i j shear
    let w := vectorSubtract3D (env.omega i) (env.omega j)
    0 ≤ c.p.rmu → 0 ≤ c.p.kn → 0 ≤ c.deltan → 0 ≤ env.radius i → 0 ≤ env.radius j →
      (Vec3.mk (-c.r_torque.c0) (-c.r_torque.c1) (-c.r_torque.c2)).dot w ≤ 0 ∧
        0 ≤ c.r_torque.dot w := by
  intro c w hrmu hkn hd hri hrj
  have key : 0 ≤ c.r_torque.dot w := by
    rw [show c.r_torque = _ from pairContact_r_torque realMath env shearupdate addflag i j shear]
    by_cases h1 : env.rollingflag ≠ 0
    · by_cases h2 : vectorMag3D realMath (vectorSubtract3D (env.omega i) (env.omega j)) > 0
      · rw [if_pos h1, if_pos h2]
        have hreff : 0 ≤ env.radius i * env.radius j / (env.radius i + env.radius j) :=
          div_nonneg (mul_nonneg hri hrj) (add_nonneg hri hrj)
        exact removeNormalPart_dot_self w c.del _ c.rsq
          (div_nonneg (mul_nonneg (mul_nonneg (mul_nonneg hrmu hkn) hd) hreff) h2.le) rfl
      · rw [if_pos h1, if_neg h2]
        exact (zero_dot w).ge
    · rw [if_neg h1]
      exact (zero_dot w).ge
  refine ⟨?_, key⟩
  have e : (Vec3.mk (-c.r_torque.c0) (-c.r_torque.c1) (-c.r_torque.c2)).dot w =
      -(c.r_torque.dot w) := by
    simp only [Vec3.dot]
    ring
  rw [e]
  linarith

/-- C22 (witness): the spinning demo pair, rolling friction on, relative spin
`(1,2,2)`, rolling torque `(0, 16/5, 16/5)`. -/
theorem C22_rolling_opposes_spin_witness :
    (spinPairEnv realMath).rollingflag ≠ 0 ∧
      (pairContact realMath (spinPairEnv realMath) 1 1 0 1 ⟨0, 0, 0⟩).r_torque =
        ⟨0, 16 / 5, 16 / 5⟩ ∧
      0 ≤ (pairContact realMath (spinPairEnv realMath) 1 1 0 1 ⟨0, 0, 0⟩).r_torque.dot
        (vectorSubtract3D ((spinPairEnv realMath).omega 0) ((spinPairEnv realMath).omega 1)) := by
  obtain ⟨hp, hd, -⟩ := spinPair_eval 1 1 ⟨0, 0, 0⟩
  have hrad : ∀ k, (spinPairEnv realMath).radius k = 2 := fun _ => rfl
  exact ⟨by decide, spinPair_r_torque,
    (C22_rolling_opposes_spin (spinPairEnv realMath) 1 1 0 1 ⟨0, 0, 0⟩ (by rw [hp]; norm_num)
      (by rw [hp]; norm_num) (by rw [hd]; norm_num) (by rw [hrad]; norm_num)
      (by rw [hrad]; norm_num)).2⟩

/-- C23: head-on contact. For a touching pair whose relative velocity is a
multiple of `del = x_i - x_j`, with both angular velocities zero, zero stored
shear and cohesion off, the loop body of `compute` stores zero shear and holds
`fs = 0`, `tor = 0`, `r_torque = 0` and the force `ccel*del`; and for distinct
centres, radii of positive sum, `v_rel . del <= 0`, `kn > 0` and `gamman >= 0`
the factor `ccel` is positive. -/
theorem C23_head_on_contact (env : PairEnv ℝ) (shearupdate addflag : Int) (i jj jraw : Nat)
    (s : PairState ℝ) (lam : ℝ)
    (ht : pairRsq env i (jraw &&& env.NEIGHMASK) <
      (env.radius i + env.radius (jraw &&& env.NEIGHMASK)) *
        (env.radius i + env.radius (jraw &&& env.NEIGHMASK)))
    (hv : vectorSubtract3D (env.v i) (env.v (jraw &&& env.NEIGHMASK)) =
      vectorScalarMult3D (vectorSubtract3D (env.x i) (env.x (jraw &&& env.NEIGHMASK))) lam)
    (hoi : env.omega i = ⟨0, 0, 0⟩) (hoj : env.omega (jraw &&& env.NEIGHMASK) = ⟨0, 0, 0⟩)
    (hsh : s.shear i jj = ⟨0, 0, 0⟩) (hcoh : env.cohesionflag = 0) :
    let j := jraw &&& env.NEIGHMASK
    let c := pairContact realMath env shearupdate addflag i j (s.shear i jj)
    (pairBody realMath env shearupdate addflag i jj jraw s).shear i jj = ⟨0, 0, 0⟩ ∧
      c.fs = ⟨0, 0, 0⟩ ∧ c.tor = ⟨0, 0, 0⟩ ∧ c.r_torque = ⟨0, 0, 0⟩ ∧
      c.force = ⟨c.del.c0 * c.ccel, c.del.c1 * c.ccel, c.del.c2 * c.ccel⟩ ∧
      (0 < c.rsq → 0 < env.radius i + env.radius j →
        (vectorSubtract3D (env.v i) (env.v j)).dot c.del ≤ 0 → 0 < c.p.kn → 0 ≤ c.p.gamman →
        0 < c.ccel) := by
  intro j c
  have hc : c = pairContact realMath env shearupdate addflag i j ⟨0, 0, 0⟩ := by
    show pairContact realMath env shearupdate addflag i j (s.shear i jj) = _
    rw [hsh]
  obtain ⟨h1, h2, h3, h4, h5⟩ := pairContact_headOn env shearupdate addflag i j lam hv hoi hoj
  rw [← hc] at h1 h2 h3 h4 h5
  refine ⟨?_, h2, h3, h4, h5, fun hrsq hrad hvn hkn hg => ?_⟩
  · rw [pairBody_shear_touching realMath env shearupdate addflag i jj jraw s ht]
    exact h1
  · exact pairContact_ccel_pos env shearupdate addflag i j (s.shear i jj) hcoh hrsq ht hrad hvn
      hkn hg

/-- C23 (witness): the demo pair with sphere 0 moving towards sphere 1 along
the line of centres: `ccel > 0` and the force is `ccel*del`. -/
theorem C23_head_on_contact_witness :
    pairRsq (headOnEnv realMath) 0 (1 &&& (headOnEnv realMath).NEIGHMASK) <
        ((headOnEnv realMath).radius 0 +
            (headOnEnv realMath).radius (1 &&& (headOnEnv realMath).NEIGHMASK)) *
          ((headOnEnv realMath).radius 0 +
            (headOnEnv realMath).radius (1 &&& (headOnEnv realMath).NEIGHMASK)) ∧
      (pairContact realMath (headOnEnv realMath) 1 1 0 (1 &&& (headOnEnv realMath).NEIGHMASK)
        ((zeroPairState : PairState ℝ).shear 0 0)).fs = ⟨0, 0, 0⟩ ∧
      0 < (pairContact realMath (headOnEnv realMath) 1 1 0 (1 &&& (headOnEnv realMath).NEIGHMASK)
        ((zeroPairState : PairState ℝ).shear 0 0)).ccel := by
  have hm : 1 &&& (headOnEnv realMath).NEIGHMASK = 1 := by decide
  have ht : pairRsq (headOnEnv realMath) 0 (1 &&& (headOnEnv realMath).NEIGHMASK) <
      ((headOnEnv realMath).radius 0 +
          (headOnEnv realMath).radius (1 &&& (headOnEnv realMath).NEIGHMASK)) *
        ((headOnEnv realMath).radius 0 +
          (headOnEnv realMath).radius (1 &&& (headOnEnv realMath).NEIGHMASK)) := by
    rw [hm]
    norm_num [pairRsq, headOnEnv, demoPairEnv]
  have h := C23_head_on_contact (headOnEnv realMath) 1 1 0 0 1 zeroPairState (-1) ht
    (by rw [hm]; norm_num [vectorSubtract3D, vectorScalarMult3D, headOnEnv, demoPairEnv])
    rfl rfl rfl rfl
  refine ⟨ht, h.2.1, h.2.2.2.2.2 ?_ ?_ ?_ ?_ ?_⟩
  · rw [hm]; norm_num [pairContact, headOnEnv, demoPairEnv]
  · rw [hm]; norm_num [headOnEnv, demoPairEnv]
  · rw [hm]; norm_num [pairContact, vectorSubtract3D, Vec3.dot, headOnEnv, demoPairEnv]
  · rw [hm, headOn_gamman]; norm_num
  · rw [hm, headOn_gamman]; exact Real.sqrt_nonneg _

/-- C24: in direct mode (`addflag_` set) `addHeatFlux` adds
`(Temp_wall - Temp_p[ip])*hc` to `heatflux[ip]` and that amount times the
timestep to `Q_add`, where `Temp_wall` is the mesh temperature when a mesh is
given, `hc = 4*k1*k2/(k1+k2)*sqrt(Acont)`, `Acont = pi*(ri^2 - r'^2)*area_ratio`,
`r' = ri - ratio*(ri - r)`, `r = sqrt(rsq)`, `ratio = 1` without a calibration
table; with `SMALL = 1e-12`, `hc = 0` and both increments vanish whenever
`|k1| < 1e-12` or `|k2| < 1e-12`. No other entry of `heatflux` changes. -/
theorem C24_wall_heat_flux (env : WallEnv ℝ) (mesh : Option ℝ) (ip : Nat) (rsq area_ratio : ℝ)
    (s : WallState ℝ) (hadd : env.addflag_ ≠ 0) (hsmall : env.SMALL = 1 / 1000000000000) :
    let s' := addHeatFlux realMath env mesh ip rsq area_ratio s
    let Temp_wall := match mesh with
      | some t => t
      | none => s.Temp_wall
    let ri := env.radius ip
    let k1 := env.th_cond (env.type ip - 1)
    let k2 := env.th_cond (env.atom_type_wall_ - 1)
    let ratio := match env.deltan_ratio with
      | some table => table (env.type ip - 1) (env.atom_type_wall_ - 1)
      | none => 1
    let r' := ri - ratio * (ri - Real.sqrt rsq)
    let Acont := Real.pi * (ri ^ 2 - r' ^ 2) * area_ratio
    let hc := if |k1| < 1 / 1000000000000 ∨ |k2| < 1 / 1000000000000 then 0
      else 4 * k1 * k2 / (k1 + k2) * Real.sqrt Acont
    s'.heatflux ip = s.heatflux ip + (Temp_wall - env.Temp_p ip) * hc ∧
      s'.Q_add = s.Q_add + (Temp_wall - env.Temp_p ip) * hc * env.update_dt ∧
      (|k1| < 1 / 1000000000000 ∨ |k2| < 1 / 1000000000000 →
        s'.heatflux ip = s.heatflux ip ∧ s'.Q_add = s.Q_add) ∧
      (∀ k, k ≠ ip → s'.heatflux k = s.heatflux k) := by
  intro s' Temp_wall ri k1 k2 ratio r' Acont hc
  have hA : (addHeatFlux realMath env mesh ip rsq area_ratio s).heatflux = setAt s.heatflux ip
        (s.heatflux ip + (Temp_wall - env.Temp_p ip) * hc) ∧
      (addHeatFlux realMath env mesh ip rsq area_ratio s).Q_add =
        s.Q_add + (Temp_wall - env.Temp_p ip) * hc * env.update_dt := by
    have e1 : ∀ table : Nat → Nat → ℝ,
        (env.radius ip * env.radius ip -
          (env.radius ip - (env.radius ip - Real.sqrt rsq) *
            table (env.type ip - 1) (env.atom_type_wall_ - 1)) *
          (env.radius ip - (env.radius ip - Real.sqrt rsq) *
            table (env.type ip - 1) (env.atom_type_wall_ - 1))) * Real.pi * area_ratio =
        Real.pi * (env.radius ip ^ 2 -
          (env.radius ip - table (env.type ip - 1) (env.atom_type_wall_ - 1) *
            (env.radius ip - Real.sqrt rsq)) ^ 2) * area_ratio := fun table => by ring
    have e2 : (env.radius ip * env.radius ip - Real.sqrt rsq * Real.sqrt rsq) * Real.pi *
        area_ratio =
        Real.pi * (env.radius ip ^ 2 -
          (env.radius ip - 1 * (env.radius ip - Real.sqrt rsq)) ^ 2) * area_ratio := by ring
    simp only [Temp_wall, hc, Acont, r', ratio, ri, k1, k2]
    unfold addHeatFlux
    cases hd : env.deltan_ratio <;> cases mesh <;>
      simp only [if_pos hadd, hsmall, realMath, e1, e2, and_self]
  obtain ⟨h1, h2⟩ := hA
  refine ⟨by rw [show s'.heatflux = _ from h1, setAt_self], h2, fun hk => ?_,
    fun k hk => by rw [show s'.heatflux = _ from h1, setAt_other _ _ _ _ hk]⟩
  have h0 : hc = 0 := if_pos hk
  rw [show s'.heatflux = _ from h1, setAt_self, show s'.Q_add = _ from h2, h0]
  simp

/-- C24 (witness): the demo wall sphere (radius 4, `rsq = 1`, temperature 300,
conductivities 3) on a mesh of temperature 350, from zero accumulators. -/
theorem C24_wall_heat_flux_witness :
    (heatWallEnv realMath).addflag_ ≠ 0 ∧
      (addHeatFlux realMath (heatWallEnv realMath) (some 350) 0 1 1 zeroWallState).Q_add =
        0 + (350 - 300) * (4 * 3 * 3 / (3 + 3) * Real.sqrt (Real.pi * (4 ^ 2 - 1 ^ 2) * 1)) * 1 := by
  refine ⟨by decide, ?_⟩
  have h := (C24_wall_heat_flux (heatWallEnv realMath) (some 350) 0 1 1 zeroWallState
    (by decide) rfl).2.1
  rw [h]
  norm_num [heatWallEnv, demoWallEnv, zeroWallState]

/-- C25: static regime. In `compute` and in `compute_force`, whenever the trial
tangential force `-kt*shear` (with the shear as it enters the clamp) is no
longer than `xmu*|ccel*r|`, the final tangential force is `-kt*shear -
gammat*vtr` and the clamp leaves the shear unchanged; with `dampflag = 0` the
final tangential force is `-kt*shear`. -/
theorem C25_static_regime :
    (∀ (env : PairEnv ℝ) (shearupdate addflag : Int) (i j : Nat) (shear : Vec3 ℝ),
      let c := pairContact realMath env shearupdate addflag i j shear
      (trialForce c.p.kt c.shearTrial).norm ≤ c.p.xmu * |c.ccel * c.r| →
        c.fs = ⟨-(c.p.kt * c.shearTrial.c0) - c.p.gammat * c.vtr.c0,
          -(c.p.kt * c.shearTrial.c1) - c.p.gammat * c.vtr.c1,
          -(c.p.kt * c.shearTrial.c2) - c.p.gammat * c.vtr.c2⟩ ∧
        c.shear = c.shearTrial ∧
        (env.dampflag = 0 → c.fs = ⟨-(c.p.kt * c.shearTrial.c0), -(c.p.kt * c.shearTrial.c1),
          -(c.p.kt * c.shearTrial.c2)⟩)) ∧
    (∀ (env : WallEnv ℝ) (ip : Nat) (deltan rsq meff_wall dx dy dz : ℝ)
        (vwall c_history : Vec3 ℝ) (area_ratio : ℝ),
      let c := wallContact realMath env ip deltan rsq meff_wall dx dy dz vwall c_history area_ratio
      (trialForce c.p.kt c.shearTrial).norm ≤ c.p.xmu * |c.ccel * c.r| →
        c.fs = ⟨-(c.p.kt * c.shearTrial.c0) - c.p.gammat * c.vtr.c0,
          -(c.p.kt * c.shearTrial.c1) - c.p.gammat * c.vtr.c1,
          -(c.p.kt * c.shearTrial.c2) - c.p.gammat * c.vtr.c2⟩ ∧
        c.c_history = c.shearTrial ∧
        (env.dampflag = 0 → c.fs = ⟨-(c.p.kt * c.shearTrial.c0), -(c.p.kt * c.shearTrial.c1),
          -(c.p.kt * c.shearTrial.c2)⟩)) := by
  constructor
  · intro env su af i j sh c h
    have hst := pairContact_stage realMath env su af i j sh
    rw [coulombStage_static _ _ _ _ _ _ _ h] at hst
    have hfs : c.fs = _ := congrArg Prod.snd hst
    have hsh : c.shear = _ := congrArg Prod.fst hst
    refine ⟨hfs, hsh, fun hd => ?_⟩
    rw [hfs, show c.p.gammat = 0 from pair_gammat_of_dampflag realMath env su af i j sh hd]
    simp [trialForce]
  · intro env ip deltan rsq meff_wall dx dy dz vwall ch ar c h
    have hst := wallContact_stage realMath env ip deltan rsq meff_wall dx dy dz vwall ch ar
    rw [coulombStage_static _ _ _ _ _ _ _ h] at hst
    have hfs : c.fs = _ := congrArg Prod.snd hst
    have hsh : c.c_history = _ := congrArg Prod.fst hst
    refine ⟨hfs, hsh, fun hd => ?_⟩
    rw [hfs, show c.p.gammat = 0 from
      wall_gammat_of_dampflag realMath env ip deltan rsq meff_wall dx dy dz vwall ch ar hd]
    simp [trialForce]

/-- C25 (witness): the demo pair with stored shear `(0, 1/2, 0)` and no
integration: the trial force has length `8 <= 12` and the final tangential
force is `-kt*shear - gammat*vtr` with `kt = 16`, `gammat = sqrt 512`,
`vtr = (0,2,0)`. -/
theorem C25_static_regime_witness :
    (trialForce (pairContact realMath (demoPairEnv realMath) 0 1 0 1 ⟨0, 1 / 2, 0⟩).p.kt
        (pairContact realMath (demoPairEnv realMath) 0 1 0 1 ⟨0, 1 / 2, 0⟩).shearTrial).norm ≤
        (pairContact realMath (demoPairEnv realMath) 0 1 0 1 ⟨0, 1 / 2, 0⟩).p.xmu *
          |(pairContact realMath (demoPairEnv realMath) 0 1 0 1 ⟨0, 1 / 2, 0⟩).ccel *
            (pairContact realMath (demoPairEnv realMath) 0 1 0 1 ⟨0, 1 / 2, 0⟩).r| ∧
      (pairContact realMath (demoPairEnv realMath) 0 1 0 1 ⟨0, 1 / 2, 0⟩).fs =
        ⟨-(16 * 0) - Real.sqrt 512 * 0, -(16 * (1 / 2)) - Real.sqrt 512 * 2,
          -(16 * 0) - Real.sqrt 512 * 0⟩ := by
  obtain ⟨hp, hc, hr, hv, hs⟩ := demoPair_eval_shear 1 ⟨0, 1 / 2, 0⟩
  have hle : (trialForce (pairContact realMath (demoPairEnv realMath) 0 1 0 1 ⟨0, 1 / 2, 0⟩).p.kt
        (pairContact realMath (demoPairEnv realMath) 0 1 0 1 ⟨0, 1 / 2, 0⟩).shearTrial).norm ≤
        (pairContact realMath (demoPairEnv realMath) 0 1 0 1 ⟨0, 1 / 2, 0⟩).p.xmu *
          |(pairContact realMath (demoPairEnv realMath) 0 1 0 1 ⟨0, 1 / 2, 0⟩).ccel *
            (pairContact realMath (demoPairEnv realMath) 0 1 0 1 ⟨0, 1 / 2, 0⟩).r| := by
    rw [hp, hc, hr, hs, norm_trialForce]
    have h2 : Vec3.norm ⟨0, 1 / 2, 0⟩ = 1 / 2 := by
      have h := Vec3.norm_scale ⟨0, 1, 0⟩ (1 / 2)
      have h1 : Vec3.norm ⟨0, 1, 0⟩ = 1 := by simp [Vec3.norm]
      rw [h1, abs_of_pos (by norm_num : (0 : ℝ) < 1 / 2)] at h
      simpa using h
    rw [h2]
    norm_num
  have h := (C25_static_regime.1 (demoPairEnv realMath) 0 1 0 1 ⟨0, 1 / 2, 0⟩ hle).1
  rw [hp, hv, hs] at h
  exact ⟨hle, h⟩

/-- C26: for a pair with `r > 0`, with `n = del/r`, `cri = radi - deltan/2`,
`crj = radj - deltan/2` and `deltan = radsum - r`, the vector `(vtr1,vtr2,vtr3)` is
the component orthogonal to the unit vector `n` of
`u = (v_i + omega_i x (-cri*n)) - (v_j + omega_j x (crj*n))`, the difference of
the velocities of the two material points at the contact point:
`vtr = u - (u . n)*n`. -/
theorem C26_contact_point_velocity (env : PairEnv ℝ) (shearupdate addflag : Int) (i j : Nat)
    (shear : Vec3 ℝ) :
    let c := pairContact realMath env shearupdate addflag i j shear
    let n := vectorScalarMult3D c.del (1 / c.r)
    let ui := (env.v i).add ((env.omega i).cross (vectorScalarMult3D n (-c.cri)))
    let uj := (env.v j).add ((env.omega j).cross (vectorScalarMult3D n c.crj))
    let u := vectorSubtract3D ui uj
    0 < c.r →
      c.deltan = env.radius i + env.radius j - c.r ∧
        c.cri = env.radius i - c.deltan / 2 ∧ c.crj = env.radius j - c.deltan / 2 ∧
        n.dot n = 1 ∧
        c.vtr = vectorSubtract3D u (vectorScalarMult3D n (u.dot n)) := by
  intro c n ui uj u hr
  have hrr : c.rsq = c.r * c.r := pairContact_rsq_eq env shearupdate addflag i j shear
  have hdd : c.del.c0 * c.del.c0 + c.del.c1 * c.del.c1 + c.del.c2 * c.del.c2 = c.r * c.r := by
    rw [← hrr]
    rfl
  obtain ⟨h1, h2, h3⟩ := pairContact_cr realMath env shearupdate addflag i j shear
  refine ⟨h1, ?_, ?_, ?_, ?_⟩
  · rw [show c.cri = _ from h2]; ring
  · rw [show c.crj = _ from h3]; ring
  · simp only [n, vectorScalarMult3D, Vec3.dot]
    have e : c.del.c0 * (1 / c.r) * (c.del.c0 * (1 / c.r)) +
        c.del.c1 * (1 / c.r) * (c.del.c1 * (1 / c.r)) +
        c.del.c2 * (1 / c.r) * (c.del.c2 * (1 / c.r)) =
        (c.del.c0 * c.del.c0 + c.del.c1 * c.del.c1 + c.del.c2 * c.del.c2) / (c.r * c.r) := by
      field_simp
    rw [e, hdd, div_self (mul_pos hr hr).ne']
  · rw [show c.vtr = _ from pairContact_vtr realMath env shearupdate addflag i j shear, hrr]
    exact vtr_identity (env.v i) (env.v j) (env.omega i) (env.omega j) c.del c.r c.cri c.crj

/-- C26 (witness): the demo pair, `r = 1`, sphere 0 sliding with `(0,2,0)`. -/
theorem C26_contact_point_velocity_witness :
    0 < (pairContact realMath (demoPairEnv realMath) 0 1 0 1 ⟨0, 0, 0⟩).r ∧
      (vectorScalarMult3D (pairContact realMath (demoPairEnv realMath) 0 1 0 1 ⟨0, 0, 0⟩).del
        (1 / (pairContact realMath (demoPairEnv realMath) 0 1 0 1 ⟨0, 0, 0⟩).r)).dot
        (vectorScalarMult3D (pairContact realMath (demoPairEnv realMath) 0 1 0 1 ⟨0, 0, 0⟩).del
          (1 / (pairContact realMath (demoPairEnv realMath) 0 1 0 1 ⟨0, 0, 0⟩).r)) = 1 := by
  have hr : 0 < (pairContact realMath (demoPairEnv realMath) 0 1 0 1 ⟨0, 0, 0⟩).r := by
    rw [(demoPair_eval 1).2.2.1]
    norm_num
  exact ⟨hr, (C26_contact_point_velocity (demoPairEnv realMath) 0 1 0 1 ⟨0, 0, 0⟩ hr).2.2.2.1⟩

/-- C27: for a touching pair of distinct atoms processed with `addflag` set
and `j < nlocal`, the loop body changes `torque[i]` by
`(-cri*n) x fs + (-r_torque)` and `torque[j]` by `(crj*n) x (-fs) + r_torque`,
with `n = del*(1/r)` and `fs` the final tangential force on `i`: the
tangential-force parts are the lever arms to the contact plane crossed with the
tangential force on each body, the rolling-resistance parts are negations of
each other. No other entry of `torque` changes. -/
theorem C27_contact_torques {α : Type} [LinearOrderedField α] (m : LibM α) (env : PairEnv α)
    (shearupdate addflag : Int) (i jj jraw : Nat) (s : PairState α) (haf : addflag ≠ 0)
    (hj : jraw &&& env.NEIGHMASK < env.nlocal)
    (ht : pairRsq env i (jraw &&& env.NEIGHMASK) <
      (env.radius i + env.radius (jraw &&& env.NEIGHMASK)) *
        (env.radius i + env.radius (jraw &&& env.NEIGHMASK)))
    (hij : i ≠ jraw &&& env.NEIGHMASK) :
    let j := jraw &&& env.NEIGHMASK
    let c := pairContact m env shearupdate addflag i j (s.shear i jj)
    let s' := pairBody m env shearupdate addflag i jj jraw s
    let n := vectorScalarMult3D c.del (1 / c.r)
    s'.torque i =
        ((s.torque i).add ((vectorScalarMult3D n (-c.cri)).cross c.fs)).add c.r_torque.neg ∧
      s'.torque j =
        ((s.torque j).add ((vectorScalarMult3D n c.crj).cross c.fs.neg)).add c.r_torque ∧
      (∀ k, k ≠ i → k ≠ j → s'.torque k = s.torque k) := by
  intro j c s' n
  obtain ⟨h1, h2, h3⟩ := pairBody_torque m env shearupdate addflag i jj jraw s haf hj ht hij
  obtain ⟨e1, -⟩ := lever_arm_cross c.del c.fs (1 / c.r) c.cri
  obtain ⟨-, e2⟩ := lever_arm_cross c.del c.fs (1 / c.r) c.crj
  have htor := pairContact_tor m env shearupdate addflag i j (s.shear i jj)
  refine ⟨?_, ?_, h3⟩
  · rw [show s'.torque i = _ from h1, show (vectorScalarMult3D n (-c.cri)).cross c.fs = _ from e1,
      show c.tor = _ from htor]
    simp only [Vec3.add, Vec3.neg, Vec3.mk.injEq]
    refine ⟨by ring, by ring, by ring⟩
  · rw [show s'.torque j = _ from h2, show (vectorScalarMult3D n c.crj).cross c.fs.neg = _ from e2,
      show c.tor = _ from htor]
    simp only [Vec3.add, Vec3.neg, Vec3.mk.injEq]
    refine ⟨by ring, by ring, by ring⟩

/-- C27 (witness): the loop body on the spinning demo pair, from zero
accumulators: the torque of atom 0. -/
theorem C27_contact_torques_witness :
    (pairBody realMath (spinPairEnv realMath) 1 1 0 0 1 zeroPairState).torque 0 =
      (((zeroPairState : PairState ℝ).torque 0).add
        ((vectorScalarMult3D
          (vectorScalarMult3D
            (pairContact realMath (spinPairEnv realMath) 1 1 0
              (1 &&& (spinPairEnv realMath).NEIGHMASK)
              ((zeroPairState : PairState ℝ).shear 0 0)).del
            (1 / (pairContact realMath (spinPairEnv realMath) 1 1 0
              (1 &&& (spinPairEnv realMath).NEIGHMASK)
              ((zeroPairState : PairState ℝ).shear 0 0)).r))
          (-(pairContact realMath (spinPairEnv realMath) 1 1 0
            (1 &&& (spinPairEnv realMath).NEIGHMASK)
            ((zeroPairState : PairState ℝ).shear 0 0)).cri)).cross
          (pairContact realMath (spinPairEnv realMath) 1 1 0
            (1 &&& (spinPairEnv realMath).NEIGHMASK)
            ((zeroPairState : PairState ℝ).shear 0 0)).fs)).add
        (pairContact realMath (spinPairEnv realMath) 1 1 0
          (1 &&& (spinPairEnv realMath).NEIGHMASK)
          ((zeroPairState : PairState ℝ).shear 0 0)).r_torque.neg :=
  (C27_contact_torques realMath (spinPairEnv realMath) 1 1 0 0 1 zeroPairState (by decide)
    (by decide) (by norm_num [pairRsq, spinPairEnv, demoPairEnv]) (by decide)).1

/-- C28: in `compute` and in `compute_force`, with `kt != 0`, the clamp
evaluates no quotient with a zero divisor (the guarded stage returns the
shear and force the routine holds); `fn/fs` is formed only for `shrmag != 0`,
where `fs = |kt|*shrmag != 0`; when the trial force exceeds the limit at
`shrmag = 0` the tangential force is `(0,0,0)` and the shear is kept; and for
`xmu >= 0` that case does not arise. -/
theorem C28_clamp_division_guard :
    (∀ (env : PairEnv ℝ) (shearupdate addflag : Int) (i j : Nat) (shear : Vec3 ℝ),
      let c := pairContact realMath env shearupdate addflag i j shear
      c.p.kt ≠ 0 →
        coulombStageGuarded realMath c.p.kt c.p.gammat c.p.xmu c.ccel c.r c.vtr c.shearTrial =
            some (c.shear, c.fs) ∧
          (c.shearTrial.norm ≠ 0 →
            (trialForce c.p.kt c.shearTrial).norm = |c.p.kt| * c.shearTrial.norm ∧
              (trialForce c.p.kt c.shearTrial).norm ≠ 0) ∧
          ((trialForce c.p.kt c.shearTrial).norm > c.p.xmu * |c.ccel * c.r| →
            c.shearTrial.norm = 0 → c.fs = ⟨0, 0, 0⟩ ∧ c.shear = c.shearTrial) ∧
          (0 ≤ c.p.xmu →
            ¬ ((trialForce c.p.kt c.shearTrial).norm > c.p.xmu * |c.ccel * c.r| ∧
              c.shearTrial.norm = 0))) ∧
    (∀ (env : WallEnv ℝ) (ip : Nat) (deltan rsq meff_wall dx dy dz : ℝ)
        (vwall c_history : Vec3 ℝ) (area_ratio : ℝ),
      let c := wallContact realMath env ip deltan rsq meff_wall dx dy dz vwall c_history area_ratio
      c.p.kt ≠ 0 →
        coulombStageGuarded realMath c.p.kt c.p.gammat c.p.xmu c.ccel c.r c.vtr c.shearTrial =
            some (c.c_history, c.fs) ∧
          (c.shearTrial.norm ≠ 0 →
            (trialForce c.p.kt c.shearTrial).norm = |c.p.kt| * c.shearTrial.norm ∧
              (trialForce c.p.kt c.shearTrial).norm ≠ 0) ∧
          ((trialForce c.p.kt c.shearTrial).norm > c.p.xmu * |c.ccel * c.r| →
            c.shearTrial.norm = 0 → c.fs = ⟨0, 0, 0⟩ ∧ c.c_history = c.shearTrial) ∧
          (0 ≤ c.p.xmu →
            ¬ ((trialForce c.p.kt c.shearTrial).norm > c.p.xmu * |c.ccel * c.r| ∧
              c.shearTrial.norm = 0))) := by
  constructor
  · intro env su af i j sh c hkt
    obtain ⟨g1, g2, g3, g4⟩ :=
      coulombStage_guard c.p.kt c.p.gammat c.p.xmu c.ccel c.r c.vtr c.shearTrial hkt
    have hst : (c.shear, c.fs) = _ := pairContact_stage realMath env su af i j sh
    refine ⟨by rw [g1, hst], g2, fun h1 h2 => ?_, g4⟩
    rw [g3 h1 h2] at hst
    exact ⟨congrArg Prod.snd hst, congrArg Prod.fst hst⟩
  · intro env ip deltan rsq meff_wall dx dy dz vwall ch ar c hkt
    obtain ⟨g1, g2, g3, g4⟩ :=
      coulombStage_guard c.p.kt c.p.gammat c.p.xmu c.ccel c.r c.vtr c.shearTrial hkt
    have hst : (c.c_history, c.fs) = _ :=
      wallContact_stage realMath env ip deltan rsq meff_wall dx dy dz vwall ch ar
    refine ⟨by rw [g1, hst], g2, fun h1 h2 => ?_, g4⟩
    rw [g3 h1 h2] at hst
    exact ⟨congrArg Prod.snd hst, congrArg Prod.fst hst⟩

/-- C28 (witness): the demo pair, `kt = 16`. -/
theorem C28_clamp_division_guard_witness :
    (pairContact realMath (demoPairEnv realMath) 0 1 0 1 ⟨0, 1, 0⟩).p.kt ≠ 0 ∧
      coulombStageGuarded realMath
          (pairContact realMath (demoPairEnv realMath) 0 1 0 1 ⟨0, 1, 0⟩).p.kt
          (pairContact realMath (demoPairEnv realMath) 0 1 0 1 ⟨0, 1, 0⟩).p.gammat
          (pairContact realMath (demoPairEnv realMath) 0 1 0 1 ⟨0, 1, 0⟩).p.xmu
          (pairContact realMath (demoPairEnv realMath) 0 1 0 1 ⟨0, 1, 0⟩).ccel
          (pairContact realMath (demoPairEnv realMath) 0 1 0 1 ⟨0, 1, 0⟩).r
          (pairContact realMath (demoPairEnv realMath) 0 1 0 1 ⟨0, 1, 0⟩).vtr
          (pairContact realMath (demoPairEnv realMath) 0 1 0 1 ⟨0, 1, 0⟩).shearTrial =
        some ((pairContact realMath (demoPairEnv realMath) 0 1 0 1 ⟨0, 1, 0⟩).shear,
          (pairContact realMath (demoPairEnv realMath) 0 1 0 1 ⟨0, 1, 0⟩).fs) := by
  have hkt : (pairContact realMath (demoPairEnv realMath) 0 1 0 1 ⟨0, 1, 0⟩).p.kt ≠ 0 := by
    rw [(demoPair_eval_shear 1 ⟨0, 1, 0⟩).1]
    norm_num
  exact ⟨hkt, (C28_clamp_division_guard.1 (demoPairEnv realMath) 0 1 0 1 ⟨0, 1, 0⟩ hkt).1⟩

/-- C29: for `dampflag`, `rollingflag`, `cohesionflag` in `{0,1}`, reading with
`read_restart_settings` the two integers written by `write_restart_settings`
restores `dampflag` and `cohesionflag` to the written values and sets
`rollingflag` to twice the written value, which is non-zero exactly when the
written `rollingflag` was. -/
theorem C29_restart_round_trip (fl : PairFlags)
    (hd : fl.dampflag = 0 ∨ fl.dampflag = 1) (hr : fl.rollingflag = 0 ∨ fl.rollingflag = 1)
    (hc : fl.cohesionflag = 0 ∨ fl.cohesionflag = 1) :
    (read_restart_settings (write_restart_settings fl)).dampflag = fl.dampflag ∧
      (read_restart_settings (write_restart_settings fl)).cohesionflag = fl.cohesionflag ∧
      ((read_restart_settings (write_restart_settings fl)).rollingflag ≠ 0 ↔
        fl.rollingflag ≠ 0) ∧
      (read_restart_settings (write_restart_settings fl)).rollingflag = 2 * fl.rollingflag := by
  obtain ⟨d, r, c⟩ := fl
  simp only at hd hr hc
  rcases hd with rfl | rfl <;> rcases hr with rfl | rfl <;> rcases hc with rfl | rfl <;> decide

/-- C29 (witness): damping on, rolling friction on, cohesion off. -/
theorem C29_restart_round_trip_witness :
    read_restart_settings (write_restart_settings ⟨1, 1, 0⟩) = ⟨1, 2, 0⟩ ∧
      ((read_restart_settings (write_restart_settings ⟨1, 1, 0⟩)).rollingflag ≠ 0 ↔
        (PairFlags.mk 1 1 0).rollingflag ≠ 0) :=
  ⟨by decide, (C29_restart_round_trip ⟨1, 1, 0⟩ (Or.inr rfl) (Or.inr rfl) (Or.inl rfl)).2.2.1⟩

/-- C30 (failing input): damping on, rolling friction on, cohesion off. The
first cycle leaves `rollingflag = 2`; the second cycle writes
`writeflag = 1 + 2*2 = 5` and reads `rollingflag = 5 & 2 = 0`: after two
cycles, and after three, rolling friction is off, while `dampflag` and
`cohesionflag` keep their values. -/
theorem C30_failing_input :
    restartCycles 1 ⟨1, 1, 0⟩ = ⟨1, 2, 0⟩ ∧
      write_restart_settings (restartCycles 1 ⟨1, 1, 0⟩) = (5, 0) ∧
      restartCycles 2 ⟨1, 1, 0⟩ = ⟨1, 0, 0⟩ ∧
      restartCycles 3 ⟨1, 1, 0⟩ = ⟨1, 0, 0⟩ ∧
      ¬ ((restartCycles 2 ⟨1, 1, 0⟩).rollingflag ≠ 0 ↔ (PairFlags.mk 1 1 0).rollingflag ≠ 0) := by
  decide

/-- C31: exchange antisymmetry of the pair kernel. When the tables `Yeff`,
`coeffRestLog`, `coeffFrict` (and, with cohesion on, `cohEnergyDens`) are
symmetric at the types of the two atoms and at most one of the atoms is in the
frozen group, the touching branch of `compute` evaluated for `(j,i)` with the
negated stored shear yields the negated force `(-fx,-fy,-fz)` and the negated
updated shear of its evaluation for `(i,j)`. -/
theorem C31_exchange_antisymmetry {α : Type} [LinearOrderedField α] (m : LibM α)
    (env : PairEnv α) (shearupdate addflag : Int) (i j : Nat) (shear : Vec3 α)
    (hY : env.Yeff (env.type i) (env.type j) = env.Yeff (env.type j) (env.type i))
    (hR : env.coeffRestLog (env.type i) (env.type j) =
      env.coeffRestLog (env.type j) (env.type i))
    (hF : env.coeffFrict (env.type i) (env.type j) = env.coeffFrict (env.type j) (env.type i))
    (hC : env.cohesionflag ≠ 0 → env.cohEnergyDens (env.type i) (env.type j) =
      env.cohEnergyDens (env.type j) (env.type i))
    (hfr : ¬ (env.mask i &&& env.freeze_group_bit ≠ 0 ∧ env.mask j &&& env.freeze_group_bit ≠ 0)) :
    (pairContact m env shearupdate addflag j i shear.neg).force =
        (pairContact m env shearupdate addflag i j shear).force.neg ∧
      (pairContact m env shearupdate addflag j i shear.neg).shear =
        (pairContact m env shearupdate addflag i j shear).shear.neg := by
  obtain ⟨hdel, hrsq, hr, -, -, -⟩ :=
    pairContact_swap_geometry m env shearupdate addflag i j shear shear.neg
  obtain ⟨hkt, hgt, hxmu, hccel⟩ :=
    pairContact_scalars_swap m env shearupdate addflag i j shear shear.neg hY hR hF hC hfr
  have hvtr := pairContact_vtr_swap m env shearupdate addflag i j shear shear.neg
  have htrial : (pairContact m env shearupdate addflag j i shear.neg).shearTrial =
      (pairContact m env shearupdate addflag i j shear).shearTrial.neg := by
    rw [pairContact_shearTrial, pairContact_shearTrial, hvtr, hrsq, hdel]
    by_cases h : shearupdate ≠ 0 ∧ addflag ≠ 0
    · rw [if_pos h, if_pos h, shearIntegrate_neg]
    · rw [if_neg h, if_neg h]
  have hst := pairContact_stage m env shearupdate addflag j i shear.neg
  rw [hkt, hgt, hxmu, hccel, hr, hvtr, htrial, coulombStage_neg,
    ← pairContact_stage m env shearupdate addflag i j shear] at hst
  have hsh : (pairContact m env shearupdate addflag j i shear.neg).shear =
      (pairContact m env shearupdate addflag i j shear).shear.neg := congrArg Prod.fst hst
  have hfs : (pairContact m env shearupdate addflag j i shear.neg).fs =
      (pairContact m env shearupdate addflag i j shear).fs.neg := congrArg Prod.snd hst
  refine ⟨?_, hsh⟩
  rw [pairContact_force, pairContact_force, hdel, hccel, hfs]
  simp only [Vec3.neg, Vec3.mk.injEq]
  refine ⟨by ring, by ring, by ring⟩

/-- C31 (witness): the demo pair (one type, no atom frozen) with stored shear
`(0,1,0)`. -/
theorem C31_exchange_antisymmetry_witness :
    (pairContact realMath (demoPairEnv realMath) 1 1 1 0 (Vec3.neg ⟨0, 1, 0⟩)).force =
        (pairContact realMath (demoPairEnv realMath) 1 1 0 1 ⟨0, 1, 0⟩).force.neg ∧
      (pairContact realMath (demoPairEnv realMath) 1 1 1 0 (Vec3.neg ⟨0, 1, 0⟩)).shear =
        (pairContact realMath (demoPairEnv realMath) 1 1 0 1 ⟨0, 1, 0⟩).shear.neg :=
  C31_exchange_antisymmetry realMath (demoPairEnv realMath) 1 1 0 1 ⟨0, 1, 0⟩ rfl rfl rfl
    (fun _ => rfl) (by decide)

/-- C32: exact normal/tangential split. In `compute`, for `rsq > 0`, and in
`compute_force`, for `rsq > 0` the squared length of `(dx,dy,dz)` as the caller
passes it: `vtr` has zero dot product with `del`; after an integrating step
(`shearupdate` and `addflag` set) the shear entering the force computation is
orthogonal to `del`; and whenever that shear is orthogonal to `del`, the final
tangential force `(fs1,fs2,fs3)` is orthogonal to `del`, whichever branch of
the clamp is taken, and the component of the force `(fx,fy,fz)` along the unit
normal `del/r` is exactly `ccel*r`. -/
theorem C32_normal_tangential_split :
    (∀ (env : PairEnv ℝ) (shearupdate addflag : Int) (i j : Nat) (shear : Vec3 ℝ),
      let c := pairContact realMath env shearupdate addflag i j shear
      0 < c.rsq →
        c.vtr.dot c.del = 0 ∧
        (shearupdate ≠ 0 ∧ addflag ≠ 0 → c.shearTrial.dot c.del = 0) ∧
        (c.shearTrial.dot c.del = 0 →
          c.fs.dot c.del = 0 ∧ c.force.dot (vectorScalarMult3D c.del (1 / c.r)) = c.ccel * c.r)) ∧
    (∀ (env : WallEnv ℝ) (ip : Nat) (deltan rsq meff_wall dx dy dz : ℝ)
        (vwall c_history : Vec3 ℝ) (area_ratio : ℝ),
      let c := wallContact realMath env ip deltan rsq meff_wall dx dy dz vwall c_history area_ratio
      0 < rsq → rsq = dx * dx + dy * dy + dz * dz →
        c.vtr.dot ⟨dx, dy, dz⟩ = 0 ∧
        (env.shearupdate_ ≠ 0 ∧ env.addflag_ ≠ 0 → c.shearTrial.dot ⟨dx, dy, dz⟩ = 0) ∧
        (c.shearTrial.dot ⟨dx, dy, dz⟩ = 0 →
          c.fs.dot ⟨dx, dy, dz⟩ = 0 ∧
            c.force.dot (vectorScalarMult3D ⟨dx, dy, dz⟩ (1 / c.r)) = c.ccel * c.r)) := by
  constructor
  · intro env su af i j sh c hpos
    have hrsq : c.rsq = c.del.c0 * c.del.c0 + c.del.c1 * c.del.c1 + c.del.c2 * c.del.c2 := rfl
    have hrr : c.rsq = c.r * c.r := pairContact_rsq_eq env su af i j sh
    have hr : 0 < c.r := by
      rw [show c.r = Real.sqrt c.rsq from pairContact_r env su af i j sh]
      exact Real.sqrt_pos.mpr hpos
    have hv : c.vtr.dot c.del = 0 := by
      rw [show c.vtr = _ from pairContact_vtr realMath env su af i j sh]
      exact vtr_dot (vectorSubtract3D (env.v i) (env.v j)) c.del
        ⟨(c.cri * (env.omega i).c0 + c.crj * (env.omega j).c0) * (1 / c.r),
          (c.cri * (env.omega i).c1 + c.crj * (env.omega j).c1) * (1 / c.r),
          (c.cri * (env.omega i).c2 + c.crj * (env.omega j).c2) * (1 / c.r)⟩ c.rsq hrsq hpos.ne'
    refine ⟨hv, fun h => ?_, fun hs => ?_⟩
    · rw [show c.shearTrial = _ from pairContact_shearTrial realMath env su af i j sh, if_pos h,
        shearIntegrate_eq]
      exact tangentPart_dot _ _ _ hrsq hpos.ne'
    · have hfs : c.fs.dot c.del = 0 := by
        rw [show c.fs = _ from pairContact_fs realMath env su af i j sh]
        exact coulombStage_force_dot _ _ _ _ _ _ _ _ _ hs hv
      refine ⟨hfs, ?_⟩
      rw [show c.force = _ from pairContact_force realMath env su af i j sh]
      exact normal_component c.del c.fs c.ccel c.r hfs (by rw [← hrsq, hrr]) hr.ne'
  · intro env ip deltan rsq meff_wall dx dy dz vwall ch ar c hpos hrsq
    have hrr : dx * dx + dy * dy + dz * dz = c.r * c.r := by
      rw [show c.r = Real.sqrt rsq from
        wallContact_r env ip deltan rsq meff_wall dx dy dz vwall ch ar, ← hrsq]
      exact (Real.mul_self_sqrt hpos.le).symm
    have hr : 0 < c.r := by
      rw [show c.r = Real.sqrt rsq from
        wallContact_r env ip deltan rsq meff_wall dx dy dz vwall ch ar]
      exact Real.sqrt_pos.mpr hpos
    have hv : c.vtr.dot ⟨dx, dy, dz⟩ = 0 := by
      rw [show c.vtr = _ from
        wallContact_vtr realMath env ip deltan rsq meff_wall dx dy dz vwall ch ar]
      exact vtr_dot (vectorSubtract3D (env.v ip) vwall) ⟨dx, dy, dz⟩
        (wallWr env ip deltan c.r) rsq hrsq hpos.ne'
    refine ⟨hv, fun h => ?_, fun hs => ?_⟩
    · rw [show c.shearTrial = _ from
        wallContact_shearTrial realMath env ip deltan rsq meff_wall dx dy dz vwall ch ar,
        if_pos h, shearIntegrate_eq]
      exact tangentPart_dot _ _ _ hrsq hpos.ne'
    · have hfs : c.fs.dot ⟨dx, dy, dz⟩ = 0 := by
        rw [show c.fs = _ from
          wallContact_fs realMath env ip deltan rsq meff_wall dx dy dz vwall ch ar]
        exact coulombStage_force_dot _ _ _ _ _ _ _ _ _ hs hv
      refine ⟨hfs, ?_⟩
      rw [show c.force = _ from
        wallContact_force realMath env ip deltan rsq meff_wall dx dy dz vwall ch ar]
      exact normal_component ⟨dx, dy, dz⟩ c.fs c.ccel c.r hfs hrr hr.ne'

/-- C32 (witness): the demo pair (`rsq = 1`) and the demo wall sphere
(`rsq = 1`, normal `(0,0,1)`), from zero stored shear with integration on. -/
theorem C32_normal_tangential_split_witness :
    (pairContact realMath (demoPairEnv realMath) 1 1 0 1 ⟨0, 0, 0⟩).vtr.dot
        (pairContact realMath (demoPairEnv realMath) 1 1 0 1 ⟨0, 0, 0⟩).del = 0 ∧
      (pairContact realMath (demoPairEnv realMath) 1 1 0 1 ⟨0, 0, 0⟩).shearTrial.dot
        (pairContact realMath (demoPairEnv realMath) 1 1 0 1 ⟨0, 0, 0⟩).del = 0 ∧
      (wallContact realMath (demoWallEnv realMath) 0 3 1 32 0 0 1 ⟨0, 0, 0⟩ ⟨0, 0, 0⟩ 1).vtr.dot
        ⟨0, 0, 1⟩ = 0 := by
  have hp := C32_normal_tangential_split.1 (demoPairEnv realMath) 1 1 0 1 ⟨0, 0, 0⟩
    (by norm_num [pairContact, demoPairEnv])
  have hw := C32_normal_tangential_split.2 (demoWallEnv realMath) 0 3 1 32 0 0 1 ⟨0, 0, 0⟩
    ⟨0, 0, 0⟩ 1 (by norm_num) (by norm_num)
  exact ⟨hp.1, hp.2.1 ⟨by decide, by decide⟩, hw.1⟩

/-- C33: history in diagnostic mode. With `addflag = 0` the loop body of
`compute`, and with `addflag_ = 0` `compute_force`, integrate no shear
whatever `shearupdate` is: the shear entering the clamp is the stored one. The
shear stored afterwards is the stored one when the trial force is within the
Coulomb limit and `-fs/kt` of the final tangential force when it exceeds it,
and the collector (`cpl`, `cwl_`) receives that stored value. -/
theorem C33_history_diagnostic_mode :
    (∀ (env : PairEnv ℝ) (shearupdate : Int) (i jj jraw : Nat) (s : PairState ℝ),
      let j := jraw &&& env.NEIGHMASK
      let c := pairContact realMath env shearupdate 0 i j (s.shear i jj)
      let s' := pairBody realMath env shearupdate 0 i jj jraw s
      pairRsq env i j < (env.radius i + env.radius j) * (env.radius i + env.radius j) →
        c.shearTrial = s.shear i jj ∧
        ((trialForce c.p.kt (s.shear i jj)).norm ≤ c.p.xmu * |c.ccel * c.r| →
          s'.shear i jj = s.shear i jj) ∧
        ((trialForce c.p.kt (s.shear i jj)).norm > c.p.xmu * |c.ccel * c.r| →
          s'.shear i jj = ⟨-c.fs.c0 / c.p.kt, -c.fs.c1 / c.p.kt, -c.fs.c2 / c.p.kt⟩) ∧
        (env.cpl = true →
          s'.collected = s.collected ++ [⟨i, j, c.force, c.tor, s'.shear i jj⟩])) ∧
    (∀ (env : WallEnv ℝ) (ip : Nat) (deltan rsq meff_wall dx dy dz : ℝ)
        (vwall c_history : Vec3 ℝ) (area_ratio : ℝ) (s : WallState ℝ),
      let c := wallContact realMath env ip deltan rsq meff_wall dx dy dz vwall c_history area_ratio
      let res := compute_force realMath env ip deltan rsq meff_wall dx dy dz vwall c_history
        area_ratio s
      env.addflag_ = 0 →
        c.shearTrial = c_history ∧
        ((trialForce c.p.kt c_history).norm ≤ c.p.xmu * |c.ccel * c.r| → res.1 = c_history) ∧
        ((trialForce c.p.kt c_history).norm > c.p.xmu * |c.ccel * c.r| →
          res.1 = ⟨-c.fs.c0 / c.p.kt, -c.fs.c1 / c.p.kt, -c.fs.c2 / c.p.kt⟩) ∧
        (env.cwl_ = true →
          res.2.collected = s.collected ++ [WallRecord.wall_2 ip c.force
            ⟨c.tor.c0 * area_ratio, c.tor.c1 * area_ratio, c.tor.c2 * area_ratio⟩ res.1 rsq])) := by
  constructor
  · intro env su i jj jraw s j c s' ht
    have htr : c.shearTrial = s.shear i jj := by
      rw [show c.shearTrial = _ from pairContact_shearTrial realMath env su 0 i j (s.shear i jj)]
      simp
    have hst : (c.shear, c.fs) = _ := pairContact_stage realMath env su 0 i j (s.shear i jj)
    rw [htr] at hst
    have hsh : s'.shear i jj = c.shear := pairBody_shear_touching realMath env su 0 i jj jraw s ht
    refine ⟨htr, fun h => ?_, fun h => ?_, fun hc => ?_⟩
    · rw [coulombStage_static _ _ _ _ _ _ _ h] at hst
      rw [hsh]
      exact congrArg Prod.fst hst
    · have h1 : c.shear = _ := congrArg Prod.fst hst
      have h2 : c.fs = _ := congrArg Prod.snd hst
      rw [hsh, h2, h1]
      exact coulombStage_clamp_shear _ _ _ _ _ _ _ h
    · rw [hsh, show s'.collected = _ from pairBody_collected realMath env su i jj jraw s ht,
        if_pos hc]
  · intro env ip deltan rsq meff_wall dx dy dz vwall ch ar s c res h0
    have htr : c.shearTrial = ch := by
      rw [show c.shearTrial = _ from
        wallContact_shearTrial realMath env ip deltan rsq meff_wall dx dy dz vwall ch ar]
      simp [h0]
    have hst : (c.c_history, c.fs) = _ :=
      wallContact_stage realMath env ip deltan rsq meff_wall dx dy dz vwall ch ar
    rw [htr] at hst
    have hsh : res.1 = c.c_history := rfl
    refine ⟨htr, fun h => ?_, fun h => ?_, fun hc => ?_⟩
    · rw [coulombStage_static _ _ _ _ _ _ _ h] at hst
      rw [hsh]
      exact congrArg Prod.fst hst
    · have h1 : c.c_history = _ := congrArg Prod.fst hst
      have h2 : c.fs = _ := congrArg Prod.snd hst
      rw [hsh, h2, h1]
      exact coulombStage_clamp_shear _ _ _ _ _ _ _ h
    · rw [hsh, show res.2.collected = _ from
        compute_force_collected realMath env ip deltan rsq meff_wall dx dy dz vwall ch ar s h0,
        if_pos hc]

/-- C33 (witness): the demo pair in diagnostic mode with `shearupdate = 1` and
stored shear `(0,1,0)`: the shear entering the clamp is the stored one and the
collector receives the shear stored afterwards. -/
theorem C33_history_diagnostic_mode_witness :
    (pairContact realMath (demoPairEnv realMath) 1 0 0 (1 &&& (demoPairEnv realMath).NEIGHMASK)
        (({ (zeroPairState : PairState ℝ) with shear := fun _ _ => ⟨0, 1, 0⟩ }).shear 0
          0)).shearTrial = ⟨0, 1, 0⟩ ∧
      (pairBody realMath (demoPairEnv realMath) 1 0 0 0 1
          { (zeroPairState : PairState ℝ) with shear := fun _ _ => ⟨0, 1, 0⟩ }).collected.length =
        1 := by
  have ht : pairRsq (demoPairEnv realMath) 0 (1 &&& (demoPairEnv realMath).NEIGHMASK) <
      ((demoPairEnv realMath).radius 0 +
          (demoPairEnv realMath).radius (1 &&& (demoPairEnv realMath).NEIGHMASK)) *
        ((demoPairEnv realMath).radius 0 +
          (demoPairEnv realMath).radius (1 &&& (demoPairEnv realMath).NEIGHMASK)) := by
    rw [show 1 &&& (demoPairEnv realMath).NEIGHMASK = 1 by decide]
    norm_num [pairRsq, demoPairEnv]
  have h := C33_history_diagnostic_mode.1 (demoPairEnv realMath) 1 0 0 1
    { (zeroPairState : PairState ℝ) with shear := fun _ _ => ⟨0, 1, 0⟩ } ht
  refine ⟨h.1, ?_⟩
  rw [h.2.2.2 rfl]
  rfl

end LIGGGHTS
